import Mathlib

/-!
# xenbus PDO controller (`src/xenbus/pdo.c`): embedding and checked properties

The node is modelled as a record of the fields of `XENBUS_DX` and `XENBUS_PDO` that
`pdo.c` reads and writes, together with a log of the calls the code makes to its
collaborators (parent controller, suspend facility, platform power notifier, pool).

Conventions of the embedding:

* an `ASSERT` that fails stops the run: the result is `Run.bugcheck` carrying the
  assertion site and the state reached at that point;
* `ULONG` scalars are natural numbers reduced modulo `2 ^ 32` where the code
  increments them;
* pool buffers are lists; byte sizes of allocations are not computed and the
  running IRQL is not tracked;
* outcomes of calls into collaborators (suspend facility, pool) are parameters.
-/

namespace Xenbus

/-! ## Scalar types -/

/-- Status codes are the 32-bit patterns of `NTSTATUS`. -/
abbrev NTSTATUS := Nat

def STATUS_SUCCESS : NTSTATUS := 0
def STATUS_PENDING : NTSTATUS := 0x00000103
def STATUS_UNSUCCESSFUL : NTSTATUS := 0xC0000001
def STATUS_NO_MEMORY : NTSTATUS := 0xC0000017
def STATUS_NOT_SUPPORTED : NTSTATUS := 0xC00000BB

/-- The macro `NT_SUCCESS`: the status, read as a signed 32-bit value, is not negative. -/
def NT_SUCCESS (status : NTSTATUS) : Bool := status % 2 ^ 32 < 2 ^ 31

/-- Modelled from the spec: the enumeration `DEVICE_PNP_STATE` is declared in a header
that is not part of the source at hand; these are the states `pdo.c` names. -/
inductive DEVICE_PNP_STATE where
  | Present
  | Enumerated
  | Started
  | StopPending
  | Stopped
  | RemovePending
  | SurpriseRemovePending
  | Deleted
deriving DecidableEq, Repr

/-- The platform enumeration `DEVICE_POWER_STATE`, in numeric order. -/
inductive DEVICE_POWER_STATE where
  | PowerDeviceUnspecified
  | PowerDeviceD0
  | PowerDeviceD1
  | PowerDeviceD2
  | PowerDeviceD3
  | PowerDeviceMaximum
deriving DecidableEq, Repr

/-- The platform enumeration `SYSTEM_POWER_STATE`, in numeric order. -/
inductive SYSTEM_POWER_STATE where
  | PowerSystemUnspecified
  | PowerSystemWorking
  | PowerSystemSleeping1
  | PowerSystemSleeping2
  | PowerSystemSleeping3
  | PowerSystemHibernate
  | PowerSystemShutdown
  | PowerSystemMaximum
deriving DecidableEq, Repr

/-- The ten interface versions handed to `PdoAddRevision`, in the nesting order of the
loops of `PdoSetRevisions`. -/
structure VERSIONS where
  Suspend : Nat
  SharedInfo : Nat
  Evtchn : Nat
  Debug : Nat
  Store : Nat
  RangeSet : Nat
  Cache : Nat
  Gnttab : Nat
  Emulated : Nat
  Unplug : Nat
deriving DecidableEq, Repr

/-- The arguments from which `PdoAddRevision` formats one description string. -/
structure DESCRIPTION where
  FdoName : String
  PdoName : String
  Versions : VERSIONS
deriving DecidableEq, Repr

/-- The characters `RtlStringCbPrintfW` produces for the format of `PdoAddRevision`. -/
def DESCRIPTION.Text (d : DESCRIPTION) : String :=
  d.FdoName ++ " " ++ d.PdoName ++ ": " ++
  "SUSPEND v" ++ Nat.repr d.Versions.Suspend ++ " " ++
  "SHARED_INFO v" ++ Nat.repr d.Versions.SharedInfo ++ " " ++
  "EVTCHN v" ++ Nat.repr d.Versions.Evtchn ++ " " ++
  "DEBUG v" ++ Nat.repr d.Versions.Debug ++ " " ++
  "STORE v" ++ Nat.repr d.Versions.Store ++ " " ++
  "RANGE_SET v" ++ Nat.repr d.Versions.RangeSet ++ " " ++
  "CACHE v" ++ Nat.repr d.Versions.Cache ++ " " ++
  "GNTTAB v" ++ Nat.repr d.Versions.Gnttab ++ " " ++
  "EMULATED v" ++ Nat.repr d.Versions.Emulated ++ " " ++
  "UNPLUG v" ++ Nat.repr d.Versions.Unplug

/-- `MAXTEXTLEN`, the byte size passed to `RtlStringCbPrintfW`. -/
def MAXTEXTLEN : Nat := 1024

/-! ## The node and its environment -/

/-- Calls made to collaborators, and writes of the device power state, in program order. -/
inductive EVENT where
  | SetDevicePowerState (State : DEVICE_POWER_STATE)
  | PoSetPowerState (State : DEVICE_POWER_STATE)
  | SuspendAcquire
  | SuspendRegister
  | SuspendDeregister (Callback : Option Nat)
  | SuspendRelease
  | FdoAcquireMutex
  | FdoReleaseMutex
  | IoInvalidateDeviceRelations
  | IoCompleteRequest (Status : NTSTATUS)
  | Warning (Name : String)
  | FdoRemovePhysicalDeviceObject
  | InfoDestroy (Name : String) (Reason : Option String)
  | BusTeardown
  | FreeDescription (Index : Nat) (Entry : Option (Option DESCRIPTION))
  | FreeDescriptionArray
  | FreeRevisionArray
  | FreePdo
  | IoDeleteDevice
  | SetSystemPowerState (State : SYSTEM_POWER_STATE)
  | IoMarkIrpPending (Irp : Nat)
  | ThreadWakeDevicePower
  | ThreadWakeSystemPower
  | ObReferenceObject
  | FdoDelegateIrp
  | InfoQueryInterface (Name : String) (Entry : String) (Version : Nat)
  | GetInterface (Entry : String) (Version : Nat) (Size : Nat)
  | InterfaceReference
deriving DecidableEq, Repr

/-- The assertion sites of `pdo.c` that the embedding checks. `AccessOutsideAllocation`
is not a statement of the code: the embedding stops there when the code reads or writes
outside an allocation, where C gives the program no meaning. -/
inductive ASSERTION where
  | PnpStateNotDeleted
  | DevicePowerIsD3
  | DevicePowerIsD0
  | RawResourceCount
  | RawVersion
  | RawRevision
  | TranslatedResourceCount
  | TranslatedVersion
  | TranslatedRevision
  | DescriptionFits
  | CountPositive
  | DestroyDeleted
  | DestroyMissing
  | DestroyZeroMemory
  | SystemPowerIsHibernate
  | SystemPowerIsSleeping3
  | DevicePowerAction
  | DeviceStateIsD0
  | DeviceStateIsD3
  | SystemPowerAction
  | DevicePowerIrpIsNull
  | SystemPowerIrpIsNull
  | QueryIdFormat
  | QueryIdType
  | AccessOutsideAllocation
  | DeviceTextFormat
  | DeviceTextType
deriving DecidableEq, Repr

/-- The fields of the device extension `XENBUS_DX` used by `pdo.c`. -/
structure XENBUS_DX where
  DevicePnpState : DEVICE_PNP_STATE
  PreviousDevicePnpState : DEVICE_PNP_STATE
  SystemPowerState : SYSTEM_POWER_STATE
  DevicePowerState : DEVICE_POWER_STATE
  Name : String
deriving DecidableEq, Repr

/-- The fields of `struct _XENBUS_PDO`; a pointer is `none` when it is `NULL`.
The thread handles, the parent pointer and the two interface blocks are
left out: `PdoDestroy` clears each of them itself. -/
structure XENBUS_PDO where
  SystemPowerIrp : Option Nat
  DevicePowerIrp : Option Nat
  Missing : Bool
  Reason : Option String
  Removable : Bool
  Ejectable : Bool
  Revision : Option (List Nat)
  Description : Option (List (Option DESCRIPTION))
  Count : Nat
  SuspendCallbackLate : Option Nat
deriving DecidableEq, Repr

/-- The names the parent controller reports through `FdoGetName` and `FdoGetVendorName`. -/
structure XENBUS_FDO where
  Name : String
  VendorName : String
deriving DecidableEq, Repr

/-- One node with its parent, the number of pool requests made by the revision
builder, and the log of calls. -/
structure State where
  Dx : XENBUS_DX
  Pdo : XENBUS_PDO
  Fdo : XENBUS_FDO
  Allocations : Nat
  Log : List EVENT
deriving DecidableEq, Repr

/-- Result of running a piece of the driver: it returns, or an assertion stops it. -/
inductive Run (α : Type) where
  | done (val : α) (s : State)
  | bugcheck (site : ASSERTION) (s : State)
deriving DecidableEq, Repr

/-- The state in which a run ended. -/
def Run.state {α : Type} : Run α → State
  | .done _ s => s
  | .bugcheck _ s => s

/-- The returned value, when the run returned. -/
def Run.value {α : Type} : Run α → Option α
  | .done a _ => some a
  | .bugcheck _ _ => none

/-- Code acting on the node. -/
def M (α : Type) : Type := State → Run α

def M.pure {α : Type} (a : α) : M α := fun s => Run.done a s

def M.bind {α β : Type} (m : M α) (f : α → M β) : M β := fun s =>
  match m s with
  | .done a t => f a t
  | .bugcheck site t => Run.bugcheck site t

instance : Monad M where
  pure := M.pure
  bind := M.bind

/-- Read the current state. -/
def getState : M State := fun s => Run.done s s

/-- Append one call to the log. -/
def emit (e : EVENT) : M Unit := fun s => Run.done () { s with Log := s.Log ++ [e] }

/-- Modelled from the spec: the macro `ASSERT` comes from a header that is not part of the
source at hand; a violated assertion is fatal, and the node is kept as it was at the fault. -/
def ASSERT (site : ASSERTION) (cond : Bool) : M Unit := fun s =>
  if cond then Run.done () s else Run.bugcheck site s

/-! ## Accessors (`pdo.c` lines 97-226) -/

def __PdoSetDevicePnpState (State : DEVICE_PNP_STATE) : M Unit := fun s =>
  -- We can never transition out of the deleted state
  if s.Dx.DevicePnpState ≠ DEVICE_PNP_STATE.Deleted ∨ State = DEVICE_PNP_STATE.Deleted then
    Run.done () { s with Dx := { s.Dx with
      PreviousDevicePnpState := s.Dx.DevicePnpState
      DevicePnpState := State } }
  else
    Run.bugcheck ASSERTION.PnpStateNotDeleted s

def PdoSetDevicePnpState (State : DEVICE_PNP_STATE) : M Unit :=
  __PdoSetDevicePnpState State

def __PdoRestoreDevicePnpState (State : DEVICE_PNP_STATE) : M Unit := fun s =>
  if s.Dx.DevicePnpState = State then
    Run.done () { s with Dx := { s.Dx with DevicePnpState := s.Dx.PreviousDevicePnpState } }
  else
    Run.done () s

def __PdoGetDevicePnpState (s : State) : DEVICE_PNP_STATE := s.Dx.DevicePnpState

def __PdoSetDevicePowerState (State : DEVICE_POWER_STATE) : M Unit := fun s =>
  Run.done () { s with
    Dx := { s.Dx with DevicePowerState := State }
    Log := s.Log ++ [EVENT.SetDevicePowerState State] }

def __PdoGetDevicePowerState (s : State) : DEVICE_POWER_STATE := s.Dx.DevicePowerState

def __PdoSetMissing (Reason : String) : M Unit := fun s =>
  Run.done () { s with Pdo := { s.Pdo with Reason := some Reason, Missing := true } }

def PdoSetMissing (Reason : String) : M Unit :=
  __PdoSetMissing Reason

def __PdoIsMissing (s : State) : Bool := s.Pdo.Missing

def __PdoGetName (s : State) : String := s.Dx.Name

/-! ## Device power transitions (`pdo.c` lines 666-790) -/

def __PdoD3ToD0 : M Unit := do
  let s ← getState
  ASSERT ASSERTION.DevicePowerIsD3
    (decide (__PdoGetDevicePowerState s = DEVICE_POWER_STATE.PowerDeviceD3))
  __PdoSetDevicePowerState DEVICE_POWER_STATE.PowerDeviceD0
  emit (EVENT.PoSetPowerState DEVICE_POWER_STATE.PowerDeviceD0)

def __PdoD0ToD3 : M Unit := do
  let s ← getState
  ASSERT ASSERTION.DevicePowerIsD0
    (decide (__PdoGetDevicePowerState s = DEVICE_POWER_STATE.PowerDeviceD0))
  emit (EVENT.PoSetPowerState DEVICE_POWER_STATE.PowerDeviceD3)
  __PdoSetDevicePowerState DEVICE_POWER_STATE.PowerDeviceD3

def PdoSuspendCallbackLate : M Unit := do
  __PdoD0ToD3
  __PdoD3ToD0

/-- What the suspend facility answers to one `Acquire` and one `Register` call, and the
handle it stores for a successful registration. -/
structure SUSPEND_OUTCOME where
  Acquire : NTSTATUS
  Register : NTSTATUS
  Callback : Nat
deriving DecidableEq, Repr

/-- Modelled from the spec: the call `XENBUS_SUSPEND(Register, ...)` into the suspend
facility of the parent; on success the facility stores the handle through its last
argument, on failure it leaves the field alone. -/
def SuspendRegister (o : SUSPEND_OUTCOME) : M NTSTATUS := fun s =>
  if NT_SUCCESS o.Register then
    Run.done o.Register { s with
      Pdo := { s.Pdo with SuspendCallbackLate := some o.Callback }
      Log := s.Log ++ [EVENT.SuspendRegister] }
  else
    Run.done o.Register { s with Log := s.Log ++ [EVENT.SuspendRegister] }

def PdoD3ToD0 (o : SUSPEND_OUTCOME) : M NTSTATUS := do
  emit EVENT.SuspendAcquire
  let status := o.Acquire
  if !NT_SUCCESS status then
    -- fail1
    return status
  __PdoD3ToD0
  let status ← SuspendRegister o
  if !NT_SUCCESS status then
    -- fail2
    __PdoD0ToD3
    emit EVENT.SuspendRelease
    return status
  return STATUS_SUCCESS

def PdoD0ToD3 : M Unit := do
  let s ← getState
  emit (EVENT.SuspendDeregister s.Pdo.SuspendCallbackLate)
  fun t => Run.done () { t with Pdo := { t.Pdo with SuspendCallbackLate := none } }
  __PdoD0ToD3
  emit EVENT.SuspendRelease

/-! ## Plug-and-play requests (`pdo.c` lines 824-1074, 1730-1756, 2354-2411) -/

/-- The header of a `CM_PARTIAL_RESOURCE_LIST`. -/
structure CM_PARTIAL_RESOURCE_LIST where
  Version : Nat
  Revision : Nat
  Count : Nat
deriving DecidableEq, Repr

/-- A `CM_RESOURCE_LIST`: its count and the partial list of its first element. -/
structure CM_RESOURCE_LIST where
  Count : Nat
  List0 : CM_PARTIAL_RESOURCE_LIST
deriving DecidableEq, Repr

/-- The loop over the descriptors only writes trace output and is left out. -/
def PdoParseResources (RawResourceList TranslatedResourceList : CM_RESOURCE_LIST) : M Unit := do
  ASSERT ASSERTION.RawResourceCount (decide (RawResourceList.Count = 1))
  let RawPartialList := RawResourceList.List0
  ASSERT ASSERTION.RawVersion (decide (RawPartialList.Version = 1))
  ASSERT ASSERTION.RawRevision (decide (RawPartialList.Revision = 1))
  ASSERT ASSERTION.TranslatedResourceCount (decide (TranslatedResourceList.Count = 1))
  let TranslatedPartialList := TranslatedResourceList.List0
  ASSERT ASSERTION.TranslatedVersion (decide (TranslatedPartialList.Version = 1))
  ASSERT ASSERTION.TranslatedRevision (decide (TranslatedPartialList.Revision = 1))

/-- The resource list has the shape `PdoParseResources` asserts. -/
def CM_RESOURCE_LIST.Expected (l : CM_RESOURCE_LIST) : Prop :=
  l.Count = 1 ∧ l.List0.Version = 1 ∧ l.List0.Revision = 1

instance (l : CM_RESOURCE_LIST) : Decidable l.Expected := by
  unfold CM_RESOURCE_LIST.Expected; infer_instance

def PdoStartDevice (AllocatedResources AllocatedResourcesTranslated : CM_RESOURCE_LIST)
    (o : SUSPEND_OUTCOME) : M NTSTATUS := do
  PdoParseResources AllocatedResources AllocatedResourcesTranslated
  let _ ← PdoD3ToD0 o
  __PdoSetDevicePnpState DEVICE_PNP_STATE.Started
  let status := STATUS_SUCCESS
  emit (EVENT.IoCompleteRequest status)
  return STATUS_SUCCESS

def PdoQueryStopDevice : M NTSTATUS := do
  __PdoSetDevicePnpState DEVICE_PNP_STATE.StopPending
  let status := STATUS_SUCCESS
  emit (EVENT.IoCompleteRequest status)
  return status

def PdoCancelStopDevice : M NTSTATUS := do
  __PdoRestoreDevicePnpState DEVICE_PNP_STATE.StopPending
  let status := STATUS_SUCCESS
  emit (EVENT.IoCompleteRequest status)
  return status

def PdoStopDevice : M NTSTATUS := do
  PdoD0ToD3
  __PdoSetDevicePnpState DEVICE_PNP_STATE.Stopped
  let status := STATUS_SUCCESS
  emit (EVENT.IoCompleteRequest status)
  return status

def PdoQueryRemoveDevice : M NTSTATUS := do
  __PdoSetDevicePnpState DEVICE_PNP_STATE.RemovePending
  let status := STATUS_SUCCESS
  emit (EVENT.IoCompleteRequest status)
  return status

def PdoCancelRemoveDevice : M NTSTATUS := do
  __PdoRestoreDevicePnpState DEVICE_PNP_STATE.RemovePending
  let status := STATUS_SUCCESS
  emit (EVENT.IoCompleteRequest status)
  return status

def PdoSurpriseRemoval : M NTSTATUS := do
  let s ← getState
  emit (EVENT.Warning (__PdoGetName s))
  __PdoSetDevicePnpState DEVICE_PNP_STATE.SurpriseRemovePending
  let status := STATUS_SUCCESS
  emit (EVENT.IoCompleteRequest status)
  return status

/-- The loop of `PdoDestroy` over `Description[0 .. Count-1]`, from index `Index`. -/
def PdoDestroy.freeDescriptions : Nat → Nat → M Unit
  | 0, _ => pure ()
  | n + 1, Index => do
    let s ← getState
    emit (EVENT.FreeDescription Index ((s.Pdo.Description.getD [])[Index]?))
    PdoDestroy.freeDescriptions n (Index + 1)

/-- Modelled from the spec: the macro call `IsZeroMemory(Pdo, sizeof (XENBUS_PDO))`, from a
header that is not part of the source at hand, on the fields of the node: every field is
zero, `NULL` or `FALSE`. -/
def IsZeroMemory (Pdo : XENBUS_PDO) : Bool :=
  Pdo.SystemPowerIrp.isNone && Pdo.DevicePowerIrp.isNone && !Pdo.Missing &&
  Pdo.Reason.isNone && !Pdo.Removable && !Pdo.Ejectable && Pdo.Revision.isNone &&
  Pdo.Description.isNone && decide (Pdo.Count = 0) && Pdo.SuspendCallbackLate.isNone

def PdoDestroy : M Unit := do
  let s ← getState
  ASSERT ASSERTION.DestroyDeleted (decide (__PdoGetDevicePnpState s = DEVICE_PNP_STATE.Deleted))
  ASSERT ASSERTION.DestroyMissing (__PdoIsMissing s)
  fun t => Run.done () { t with Pdo := { t.Pdo with Missing := false } }
  emit EVENT.FdoRemovePhysicalDeviceObject
  emit (EVENT.InfoDestroy (__PdoGetName s) s.Pdo.Reason)
  fun t => Run.done () { t with Pdo := { t.Pdo with Reason := none } }
  emit EVENT.BusTeardown
  PdoDestroy.freeDescriptions s.Pdo.Count 0
  emit EVENT.FreeDescriptionArray
  fun t => Run.done () { t with Pdo := { t.Pdo with Description := none } }
  emit EVENT.FreeRevisionArray
  fun t => Run.done () { t with Pdo := { t.Pdo with Revision := none, Count := 0 } }
  fun t => Run.done () { t with Pdo := { t.Pdo with Ejectable := false, Removable := false } }
  let t ← getState
  ASSERT ASSERTION.DestroyZeroMemory (IsZeroMemory t.Pdo)
  emit EVENT.FreePdo
  emit EVENT.IoDeleteDevice

def PdoRemoveDevice : M NTSTATUS := do
  let s ← getState
  if __PdoGetDevicePowerState s = DEVICE_POWER_STATE.PowerDeviceD0 then
    PdoD0ToD3
  -- done:
  emit EVENT.FdoAcquireMutex
  let s ← getState
  if __PdoIsMissing s ∨ __PdoGetDevicePnpState s = DEVICE_PNP_STATE.SurpriseRemovePending then
    __PdoSetDevicePnpState DEVICE_PNP_STATE.Deleted
  else
    __PdoSetDevicePnpState DEVICE_PNP_STATE.Enumerated
  let s ← getState
  if __PdoIsMissing s then
    if __PdoGetDevicePnpState s = DEVICE_PNP_STATE.Deleted then
      PdoDestroy
    else
      emit EVENT.IoInvalidateDeviceRelations
  emit EVENT.FdoReleaseMutex
  let status := STATUS_SUCCESS
  emit (EVENT.IoCompleteRequest status)
  return status

def PdoEject : M NTSTATUS := do
  emit EVENT.FdoAcquireMutex
  __PdoSetDevicePnpState DEVICE_PNP_STATE.Deleted
  __PdoSetMissing "device ejected"
  PdoDestroy
  emit EVENT.FdoReleaseMutex
  let status := STATUS_SUCCESS
  emit (EVENT.IoCompleteRequest status)
  return status

/-- The calls `PdoDestroy` makes before its final assertion. -/
def destroyCalls (s : State) : List EVENT :=
  [EVENT.FdoRemovePhysicalDeviceObject, EVENT.InfoDestroy s.Dx.Name s.Pdo.Reason,
   EVENT.BusTeardown] ++
  (List.range' 0 s.Pdo.Count).map
    (fun k => EVENT.FreeDescription k ((s.Pdo.Description.getD [])[k]?)) ++
  [EVENT.FreeDescriptionArray, EVENT.FreeRevisionArray]

/-- The node fields as `PdoDestroy` leaves them at its final assertion. -/
def clearedPdo (p : XENBUS_PDO) : XENBUS_PDO :=
  { p with Missing := false, Reason := none, Description := none, Revision := none,
           Count := 0, Ejectable := false, Removable := false }

/-! ## Sample nodes -/

/-- A resource list of the shape `PdoParseResources` expects. -/
def sampleResources : CM_RESOURCE_LIST :=
  { Count := 1, List0 := { Version := 1, Revision := 1, Count := 2 } }

/-- A node as `PdoCreate` leaves it (`Present`, `D3`, `Working`), with a one-entry table. -/
def sampleNode : State :=
  { Dx := { DevicePnpState := DEVICE_PNP_STATE.Present
            PreviousDevicePnpState := DEVICE_PNP_STATE.Present
            SystemPowerState := SYSTEM_POWER_STATE.PowerSystemWorking
            DevicePowerState := DEVICE_POWER_STATE.PowerDeviceD3
            Name := "vif" }
    Pdo := { SystemPowerIrp := none
             DevicePowerIrp := none
             Missing := false
             Reason := none
             Removable := true
             Ejectable := true
             Revision := some [1]
             Description := some [some { FdoName := "XENBUS", PdoName := "vif",
                                         Versions := ⟨1, 1, 1, 1, 1, 1, 1, 1, 1, 1⟩ }]
             Count := 1
             SuspendCallbackLate := none }
    Fdo := { Name := "XENBUS", VendorName := "XS" }
    Allocations := 3
    Log := [] }

/-- The suspend facility accepts both calls and hands out handle 7. -/
def suspendSucceeds : SUSPEND_OUTCOME :=
  { Acquire := STATUS_SUCCESS, Register := STATUS_SUCCESS, Callback := 7 }

/-- The suspend facility refuses `Acquire`. -/
def suspendAcquireFails : SUSPEND_OUTCOME :=
  { Acquire := STATUS_UNSUCCESSFUL, Register := STATUS_SUCCESS, Callback := 7 }

/-- The sample node after a Start request that powered the device up. -/
def startedNode : State :=
  (PdoStartDevice sampleResources sampleResources suspendSucceeds sampleNode).state

/-- The sample node flagged missing by the parent. -/
def missingNode : State :=
  (__PdoSetMissing "device disappeared" sampleNode).state

/-- The node after `PdoD0ToD3`. -/
def poweredDown (s : State) : State :=
  { s with
    Dx := { s.Dx with DevicePowerState := DEVICE_POWER_STATE.PowerDeviceD3 }
    Pdo := { s.Pdo with SuspendCallbackLate := none }
    Log := s.Log ++ [EVENT.SuspendDeregister s.Pdo.SuspendCallbackLate,
                     EVENT.PoSetPowerState DEVICE_POWER_STATE.PowerDeviceD3,
                     EVENT.SetDevicePowerState DEVICE_POWER_STATE.PowerDeviceD3,
                     EVENT.SuspendRelease] }

/-- The node when `PdoRemoveDevice` has taken the parent's mutex. -/
def removeEntry (s : State) : State :=
  let t := if s.Dx.DevicePowerState = DEVICE_POWER_STATE.PowerDeviceD0 then poweredDown s else s
  { t with Log := t.Log ++ [EVENT.FdoAcquireMutex] }

/-- The node after a successful `__PdoSetDevicePnpState`. -/
def withPnpState (State' : DEVICE_PNP_STATE) (s : State) : State :=
  { s with Dx := { s.Dx with
      PreviousDevicePnpState := s.Dx.DevicePnpState
      DevicePnpState := State' } }

/-- The tail of a request handler: release the mutex and complete with success. -/
def released {α : Type} (r : Run α) : Run NTSTATUS :=
  match r with
  | .done _ t =>
    Run.done STATUS_SUCCESS { t with
      Log := t.Log ++ [EVENT.FdoReleaseMutex, EVENT.IoCompleteRequest STATUS_SUCCESS] }
  | .bugcheck site t => Run.bugcheck site t

/-- The events of `PdoDestroy`: those that show it was entered, and those that show it
ran to its end. -/
def EVENT.isDestroy (e : EVENT) : Bool :=
  match e with
  | .FdoRemovePhysicalDeviceObject => true
  | .InfoDestroy _ _ => true
  | .FreePdo => true
  | .IoDeleteDevice => true
  | _ => false

/-! ## The revision table (`pdo.c` lines 358-570) -/

/-- The build constants `XENBUS_*_INTERFACE_VERSION_MAX` / `_MIN` and
`XENFILT_*_INTERFACE_VERSION_MAX` / `_MIN`; their header is not part of the source at
hand, so they are parameters. -/
structure BUILD where
  MAX : VERSIONS
  MIN : VERSIONS
deriving DecidableEq, Repr

/-- The call `__PdoAllocate`: the pool answers the `n`-th request according to `pool n`. -/
def __PdoAllocate (pool : Nat → Bool) : M Bool := fun s =>
  Run.done (pool s.Allocations) { s with Allocations := s.Allocations + 1 }

/-- `PdoAddRevision`: `STATUS_NO_MEMORY` is returned at `fail1`, `fail2` and `fail3`.
A fresh array holds the first `Count` old elements (zero where there were none) and one
more slot. -/
def PdoAddRevision (pool : Nat → Bool) (Revision : Nat) (Versions : VERSIONS) : M NTSTATUS := do
  let s ← getState
  let Buffer ← __PdoAllocate pool
  if !Buffer then
    return STATUS_NO_MEMORY
  fun t => Run.done () { t with Pdo := { t.Pdo with
    Revision := some ((s.Pdo.Revision.getD []).takeD s.Pdo.Count 0 ++ [Revision]) } }
  let Buffer ← __PdoAllocate pool
  if !Buffer then
    return STATUS_NO_MEMORY
  fun t => Run.done () { t with Pdo := { t.Pdo with
    Description := some ((s.Pdo.Description.getD []).takeD s.Pdo.Count none ++ [none]) } }
  let Buffer ← __PdoAllocate pool
  if !Buffer then
    return STATUS_NO_MEMORY
  let Text : DESCRIPTION :=
    { FdoName := s.Fdo.Name, PdoName := __PdoGetName s, Versions := Versions }
  -- RtlStringCbPrintfW succeeds when the text and its terminator fit in MAXTEXTLEN bytes
  ASSERT ASSERTION.DescriptionFits (decide (2 * (Text.Text.length + 1) ≤ MAXTEXTLEN))
  fun t => Run.done () { t with Pdo := { t.Pdo with
    Description := some ((s.Pdo.Description.getD []).takeD s.Pdo.Count none ++ [some Text])
    Count := t.Pdo.Count + 1 } }
  return STATUS_SUCCESS

/-- How a loop of `PdoSetRevisions`, or its body, ends: it falls through with the current
value of the local `Revision`, it jumps to `fail1`, or an assertion stops the run. -/
inductive Flow where
  | next (Revision : Nat) (s : State)
  | fail1 (Revision : Nat) (status : NTSTATUS) (s : State)
  | bug (site : ASSERTION) (s : State)
deriving DecidableEq, Repr

/-- The loop `for (v = ...; v <= MAX; v++) body` over a `ULONG` variable `v`, started at
`v`; each iteration uses one unit of fuel and `none` means the fuel ran out. -/
def forULONG (MAX : Nat) (body : Nat → Nat → State → Option Flow) :
    Nat → Nat → Nat → State → Option Flow
  | 0, _, _, _ => none
  | fuel + 1, v, Revision, s =>
    if v ≤ MAX then
      match body v Revision s with
      | some (Flow.next Revision1 s1) => forULONG MAX body fuel ((v + 1) % 2 ^ 32) Revision1 s1
      | other => other
    else
      some (Flow.next Revision s)

/-- The body of the innermost loop of `PdoSetRevisions` (lines 512-537). -/
def PdoSetRevisions.body (b : BUILD) (pool : Nat → Bool) (v : VERSIONS) (Revision : Nat)
    (s : State) : Flow :=
  let Revision := (Revision + 1) % 2 ^ 32
  if v.Suspend ≥ b.MIN.Suspend ∧
      v.SharedInfo ≥ b.MIN.SharedInfo ∧
      v.Evtchn ≥ b.MIN.Evtchn ∧
      v.Debug ≥ b.MIN.Debug ∧
      v.Store ≥ b.MIN.Store ∧
      v.RangeSet ≥ b.MIN.RangeSet ∧
      v.Cache ≥ b.MIN.Cache ∧
      v.Gnttab ≥ b.MIN.Gnttab ∧
      v.Emulated ≥ b.MIN.Emulated ∧
      v.Unplug ≥ b.MIN.Unplug then
    match PdoAddRevision pool Revision v s with
    | Run.done status t =>
      if NT_SUCCESS status then Flow.next Revision t else Flow.fail1 Revision status t
    | Run.bugcheck site t => Flow.bug site t
  else
    Flow.next Revision s

/-- The ten nested loops of `PdoSetRevisions` (lines 484-547), entered with the local
`Revision` as given. -/
def PdoSetRevisions.loops (b : BUILD) (pool : Nat → Bool) (fuel : Nat) (Revision : Nat)
    (s : State) : Option Flow :=
  forULONG b.MAX.Suspend (fun Suspend Revision s =>
   forULONG b.MAX.SharedInfo (fun SharedInfo Revision s =>
    forULONG b.MAX.Evtchn (fun Evtchn Revision s =>
     forULONG b.MAX.Debug (fun Debug Revision s =>
      forULONG b.MAX.Store (fun Store Revision s =>
       forULONG b.MAX.RangeSet (fun RangeSet Revision s =>
        forULONG b.MAX.Cache (fun Cache Revision s =>
         forULONG b.MAX.Gnttab (fun Gnttab Revision s =>
          forULONG b.MAX.Emulated (fun Emulated Revision s =>
           forULONG b.MAX.Unplug (fun Unplug Revision s =>
            some (PdoSetRevisions.body b pool
              { Suspend := Suspend, SharedInfo := SharedInfo, Evtchn := Evtchn, Debug := Debug,
                Store := Store, RangeSet := RangeSet, Cache := Cache, Gnttab := Gnttab,
                Emulated := Emulated, Unplug := Unplug } Revision s))
           fuel 1 Revision s)
          fuel 1 Revision s)
         fuel 1 Revision s)
        fuel 1 Revision s)
       fuel 1 Revision s)
      fuel 1 Revision s)
     fuel 1 Revision s)
    fuel 1 Revision s)
   fuel 1 Revision s)
  fuel 1 Revision s

/-- The loop `while (--Revision > 0) __PdoFree(Pdo->Description[Revision])` of the failure
path, where the argument is the value of `Revision` after the first decrement. The slot
read is `none` when the index lies outside the array. -/
def PdoSetRevisions.freeDescriptions : Nat → State → State
  | 0, s => s
  | Revision + 1, s =>
    PdoSetRevisions.freeDescriptions Revision
      { s with Log := s.Log ++
          [EVENT.FreeDescription (Revision + 1) ((s.Pdo.Description.getD [])[Revision + 1]?)] }

/-- The code of `PdoSetRevisions` after the label `fail1` (lines 552-567); it contains no
assertion and no call that can fail, so it is a function of the node. -/
def PdoSetRevisions.fail1 (Revision : Nat) (s : State) : State :=
  let s1 :=
    if s.Pdo.Description.isSome then
      let t := PdoSetRevisions.freeDescriptions ((Revision + 2 ^ 32 - 1) % 2 ^ 32) s
      { t with
        Pdo := { t.Pdo with Description := none }
        Log := t.Log ++ [EVENT.FreeDescriptionArray] }
    else s
  let s2 :=
    if s1.Pdo.Revision.isSome then
      { s1 with
        Pdo := { s1.Pdo with Revision := none }
        Log := s1.Log ++ [EVENT.FreeRevisionArray] }
    else s1
  { s2 with Pdo := { s2.Pdo with Count := 0 } }

/-- `PdoSetRevisions`; `none` when the fuel given to the loops runs out. -/
def PdoSetRevisions (b : BUILD) (pool : Nat → Bool) (fuel : Nat) (s : State) :
    Option (Run NTSTATUS) :=
  match PdoSetRevisions.loops b pool fuel 0 s with
  | none => none
  | some (Flow.next _ t) =>
    some ((do
      let u ← getState
      ASSERT ASSERTION.CountPositive (decide (u.Pdo.Count > 0))
      return STATUS_SUCCESS) t)
  | some (Flow.fail1 Revision status t) =>
    some (Run.done status (PdoSetRevisions.fail1 Revision t))
  | some (Flow.bug site t) => some (Run.bugcheck site t)

/-- The pool never refuses a request. -/
def poolAlwaysSucceeds : Nat → Bool := fun _ => true

/-- The sample node before its revision table is built. -/
def tablelessNode : State :=
  { sampleNode with
    Pdo := { sampleNode.Pdo with Revision := none, Description := none, Count := 0 }
    Allocations := 0 }

/-- Every axis at version 1. -/
def VERSIONS.ones : VERSIONS := ⟨1, 1, 1, 1, 1, 1, 1, 1, 1, 1⟩

/-! ## Closed form of the enumeration

The definitions below describe the table `PdoSetRevisions` builds when no allocation
fails; the theorems that follow relate them to the code. -/

/-- The ten versions as a list, in loop nesting order. -/
def VERSIONS.toList (v : VERSIONS) : List Nat :=
  [v.Suspend, v.SharedInfo, v.Evtchn, v.Debug, v.Store, v.RangeSet, v.Cache, v.Gnttab,
   v.Emulated, v.Unplug]

/-- Inverse of `VERSIONS.toList` on lists of length ten. -/
def VERSIONS.ofList : List Nat → VERSIONS
  | [a, b, c, d, e, f, g, h, i, j] => ⟨a, b, c, d, e, f, g, h, i, j⟩
  | _ => ⟨0, 0, 0, 0, 0, 0, 0, 0, 0, 0⟩

/-- The product of the ten components. -/
def VERSIONS.product (v : VERSIONS) : Nat :=
  v.Suspend * v.SharedInfo * v.Evtchn * v.Debug * v.Store * v.RangeSet * v.Cache * v.Gnttab *
    v.Emulated * v.Unplug

/-- Every component of `v` is at least the component of `lo`. -/
def VERSIONS.AtLeast (lo v : VERSIONS) : Prop :=
  lo.Suspend ≤ v.Suspend ∧ lo.SharedInfo ≤ v.SharedInfo ∧ lo.Evtchn ≤ v.Evtchn ∧
  lo.Debug ≤ v.Debug ∧ lo.Store ≤ v.Store ∧ lo.RangeSet ≤ v.RangeSet ∧
  lo.Cache ≤ v.Cache ∧ lo.Gnttab ≤ v.Gnttab ∧ lo.Emulated ≤ v.Emulated ∧
  lo.Unplug ≤ v.Unplug

instance (lo v : VERSIONS) : Decidable (VERSIONS.AtLeast lo v) := by
  unfold VERSIONS.AtLeast; infer_instance

/-- A combination is materialized by build `b`: every version is between 1 and the
maximum of its axis, and at least the minimum of its axis. -/
def BUILD.Materialized (b : BUILD) (v : VERSIONS) : Prop :=
  VERSIONS.AtLeast VERSIONS.ones v ∧ VERSIONS.AtLeast v b.MAX ∧ VERSIONS.AtLeast b.MIN v

instance (b : BUILD) (v : VERSIONS) : Decidable (b.Materialized v) := by
  unfold BUILD.Materialized; infer_instance

/-- The position of a combination in the full enumeration: one plus the sum over the axes
of `(v_i - 1)` times the product of the maxima of the axes nested inside axis `i`. -/
def ordinal : List Nat → List Nat → Nat
  | _ :: ms, v :: vs => (v - 1) * ms.prod + ordinal ms vs
  | _, _ => 1

/-- The ordinal of a combination under the maxima of build `b`. -/
def BUILD.ordinal (b : BUILD) (v : VERSIONS) : Nat :=
  Xenbus.ordinal b.MAX.toList v.toList

/-- The nest of loops over the axes with maxima `ms`, inside loops that already chose the
versions `pre`. -/
def nest (body : List Nat → Nat → State → Option Flow) (fuel : Nat) :
    List Nat → List Nat → Nat → State → Option Flow
  | [], pre, Revision, s => body pre Revision s
  | m :: ms, pre, Revision, s =>
    forULONG m (fun v Revision s => nest body fuel ms (pre ++ [v]) Revision s) fuel 1 Revision s

/-- The node after a successful `PdoAddRevision`. -/
def addEntry (s : State) (Revision : Nat) (Text : DESCRIPTION) : State :=
  { s with
    Pdo := { s.Pdo with
      Revision := some ((s.Pdo.Revision.getD []).takeD s.Pdo.Count 0 ++ [Revision])
      Description := some ((s.Pdo.Description.getD []).takeD s.Pdo.Count none ++ [some Text])
      Count := s.Pdo.Count + 1 }
    Allocations := s.Allocations + 3 }

/-- The node after a run of successful calls of `PdoAddRevision`. -/
def addEntries (s : State) (es : List (Nat × DESCRIPTION)) : State :=
  es.foldl (fun t e => addEntry t e.1 e.2) s

/-- The table entry for ordinal `e.1` and combination `e.2`: the ordinal as a `ULONG`
and the description arguments. -/
def entryOf (fdo pdo : String) (e : Nat × List Nat) : Nat × DESCRIPTION :=
  (e.1 % 2 ^ 32, { FdoName := fdo, PdoName := pdo, Versions := VERSIONS.ofList e.2 })

/-- Entries contributed by `n` consecutive values `a, a+1, ...` of one axis, the block of
each value advancing the ordinal by `K`. -/
def entsRange (f : Nat → Nat → List (Nat × List Nat)) (K : Nat) :
    Nat → Nat → Nat → List (Nat × List Nat)
  | 0, _, _ => []
  | n + 1, a, base => f a base ++ entsRange f K n (a + 1) (base + K)

/-- Ordinals and combinations that satisfy `p`, in enumeration order, for the axes with
maxima `ms` inside the choices `pre`, when `base` combinations were visited before. -/
def ents (p : List Nat → Bool) : List Nat → List Nat → Nat → List (Nat × List Nat)
  | [], pre, base => if p pre then [(base + 1, pre)] else []
  | m :: ms, pre, base => entsRange (fun v b => ents p ms (pre ++ [v]) b) ms.prod m 1 base

/-- The test of the innermost loop body, on a combination given as a list. -/
def BUILD.supported (b : BUILD) (c : List Nat) : Bool :=
  decide (VERSIONS.AtLeast b.MIN (VERSIONS.ofList c))

/-- Ordinals and combinations of the entries build `b` materializes, in table order. -/
def BUILD.entries (b : BUILD) : List (Nat × List Nat) :=
  ents b.supported b.MAX.toList [] 0

/-- The names are short enough for every description to fit in `MAXTEXTLEN` bytes. -/
def NamesFit (s : State) : Prop :=
  s.Fdo.Name.length + s.Dx.Name.length ≤ 311

instance (s : State) : Decidable (NamesFit s) := by
  unfold NamesFit; infer_instance

/-- No revision table yet: the state in which `PdoCreate` calls `PdoSetRevisions`. -/
def NoTable (s : State) : Prop :=
  s.Pdo.Count = 0 ∧ s.Pdo.Revision = none ∧ s.Pdo.Description = none

instance (s : State) : Decidable (NoTable s) := by
  unfold NoTable; infer_instance

/-- Every maximum of the build lets its loop end: the loop variable can step past it
without wrapping. -/
def BUILD.Terminates (b : BUILD) : Prop :=
  ∀ m ∈ b.MAX.toList, m + 1 < 2 ^ 32

instance (b : BUILD) : Decidable b.Terminates := by
  unfold BUILD.Terminates; infer_instance

/-- The fuel covers the longest loop. -/
def BUILD.Enough (b : BUILD) (fuel : Nat) : Prop :=
  ∀ m ∈ b.MAX.toList, m < fuel

instance (b : BUILD) (fuel : Nat) : Decidable (b.Enough fuel) := by
  unfold BUILD.Enough; infer_instance

/-- The node with the table of build `b` added. -/
def BUILD.tableState (b : BUILD) (s : State) : State :=
  addEntries s (b.entries.map (entryOf s.Fdo.Name s.Dx.Name))

/-- The description arguments of the node `s` for the combination `v`. -/
def descriptionOf (s : State) (v : VERSIONS) : DESCRIPTION :=
  { FdoName := s.Fdo.Name, PdoName := s.Dx.Name, Versions := v }

/-- The revision table of a node, as pairs of revision number and description. -/
def State.table (s : State) : List (Nat × Option DESCRIPTION) :=
  (s.Pdo.Revision.getD []).zip (s.Pdo.Description.getD [])

/-- Maxima whose product is `2 ^ 32`, with minima that leave two combinations. -/
def wrapBuild : BUILD :=
  { MAX := { VERSIONS.ones with Emulated := 65536, Unplug := 65536 }
    MIN := { VERSIONS.ones with Emulated := 65536, Unplug := 65535 } }

/-- A small build: two Suspend versions, three Unplug versions, Unplug version 1 retired. -/
def smallBuild : BUILD :=
  { MAX := { VERSIONS.ones with Suspend := 2, Unplug := 3 }
    MIN := { VERSIONS.ones with Unplug := 2 } }

/-- The small build after Suspend version 1 is retired as well. -/
def smallBuildRaised : BUILD :=
  { MAX := { VERSIONS.ones with Suspend := 2, Unplug := 3 }
    MIN := { VERSIONS.ones with Suspend := 2, Unplug := 2 } }

/-- What a finished loop may have produced, given the counter and node `target` it must
reach when it falls through (`none`: the loop cannot fall through): a fall-through reaches
the target, a jump to `fail1` carries a failure status, and the only assertion is the one
of `PdoAddRevision`. -/
def Flow.Sound (target : Option (Nat × State)) : Flow → Prop
  | Flow.next Revision s => Revision < 2 ^ 32 ∧ target = some (Revision, s)
  | Flow.fail1 _ status _ => NT_SUCCESS status = false
  | Flow.bug site _ => site = ASSERTION.DescriptionFits

/-- The enumeration ran to its end: the call returned a success status, or it was stopped
by the final `ASSERT(Pdo->Count > 0)`. -/
def Run.Enumerated : Run NTSTATUS → Bool
  | Run.done status _ => NT_SUCCESS status
  | Run.bugcheck site _ => decide (site = ASSERTION.CountPositive)

/-! ## Power requests (`pdo.c` lines 793-822, 1866-2108) -/

/-- The platform enumeration `POWER_ACTION`, in numeric order. -/
inductive POWER_ACTION where
  | PowerActionNone
  | PowerActionReserved
  | PowerActionSleep
  | PowerActionHibernate
  | PowerActionShutdown
  | PowerActionShutdownReset
  | PowerActionShutdownOff
  | PowerActionWarmEject
deriving DecidableEq, Repr

/-- The platform enumeration `POWER_STATE_TYPE`; a value that is neither of its two
members takes the `default` branch of `PdoSetPower`. -/
inductive POWER_STATE_TYPE where
  | SystemPowerState
  | DevicePowerState
  | Other (Value : Nat)
deriving DecidableEq, Repr

/-- The numeric value of a `POWER_ACTION`. -/
def POWER_ACTION.toNat : POWER_ACTION → Nat
  | .PowerActionNone => 0
  | .PowerActionReserved => 1
  | .PowerActionSleep => 2
  | .PowerActionHibernate => 3
  | .PowerActionShutdown => 4
  | .PowerActionShutdownReset => 5
  | .PowerActionShutdownOff => 6
  | .PowerActionWarmEject => 7

/-- The numeric value of a `DEVICE_POWER_STATE`. -/
def DEVICE_POWER_STATE.toNat : DEVICE_POWER_STATE → Nat
  | .PowerDeviceUnspecified => 0
  | .PowerDeviceD0 => 1
  | .PowerDeviceD1 => 2
  | .PowerDeviceD2 => 3
  | .PowerDeviceD3 => 4
  | .PowerDeviceMaximum => 5

/-- The numeric value of a `SYSTEM_POWER_STATE`. -/
def SYSTEM_POWER_STATE.toNat : SYSTEM_POWER_STATE → Nat
  | .PowerSystemUnspecified => 0
  | .PowerSystemWorking => 1
  | .PowerSystemSleeping1 => 2
  | .PowerSystemSleeping2 => 3
  | .PowerSystemSleeping3 => 4
  | .PowerSystemHibernate => 5
  | .PowerSystemShutdown => 6
  | .PowerSystemMaximum => 7

/-- The fields of a power request that `pdo.c` reads: `Parameters.Power.Type`, the two
readings of the union `Parameters.Power.State`, `Parameters.Power.ShutdownType`, and the
status the request carries in `IoStatus.Status`. The field `Type` is named after the local
`PowerType` that receives it. -/
structure IRP where
  PowerType : POWER_STATE_TYPE
  SystemState : SYSTEM_POWER_STATE
  DeviceState : DEVICE_POWER_STATE
  ShutdownType : POWER_ACTION
  Status : NTSTATUS
deriving DecidableEq, Repr

def __PdoSetSystemPowerState (State : SYSTEM_POWER_STATE) : M Unit := fun s =>
  Run.done () { s with
    Dx := { s.Dx with SystemPowerState := State }
    Log := s.Log ++ [EVENT.SetSystemPowerState State] }

def __PdoGetSystemPowerState (s : State) : SYSTEM_POWER_STATE := s.Dx.SystemPowerState

def PdoS4ToS3 : M Unit := do
  let s ← getState
  ASSERT ASSERTION.SystemPowerIsHibernate
    (decide (__PdoGetSystemPowerState s = SYSTEM_POWER_STATE.PowerSystemHibernate))
  __PdoSetSystemPowerState SYSTEM_POWER_STATE.PowerSystemSleeping3

def PdoS3ToS4 : M Unit := do
  let s ← getState
  ASSERT ASSERTION.SystemPowerIsSleeping3
    (decide (__PdoGetSystemPowerState s = SYSTEM_POWER_STATE.PowerSystemSleeping3))
  __PdoSetSystemPowerState SYSTEM_POWER_STATE.PowerSystemHibernate

def PdoSetDevicePower (Irp : IRP) (o : SUSPEND_OUTCOME) : M NTSTATUS := do
  let DeviceState := Irp.DeviceState
  let PowerAction := Irp.ShutdownType
  ASSERT ASSERTION.DevicePowerAction
    (decide (PowerAction.toNat < POWER_ACTION.PowerActionShutdown.toNat))
  let s ← getState
  if (__PdoGetDevicePowerState s).toNat > DeviceState.toNat then
    ASSERT ASSERTION.DeviceStateIsD0 (decide (DeviceState = DEVICE_POWER_STATE.PowerDeviceD0))
    let _ ← PdoD3ToD0 o
  else if (__PdoGetDevicePowerState s).toNat < DeviceState.toNat then
    ASSERT ASSERTION.DeviceStateIsD3 (decide (DeviceState = DEVICE_POWER_STATE.PowerDeviceD3))
    PdoD0ToD3
  emit (EVENT.IoCompleteRequest STATUS_SUCCESS)
  return STATUS_SUCCESS

/-- One pass through the body of the loop `for (;;)` of the worker `PdoDevicePower`;
`Requests` gives the request stored at each address, `Alerted` is the answer of
`ThreadIsAlerted`, and the result tells whether the loop goes on. The wait on the event
is left out. -/
def PdoDevicePower.pass (Requests : Nat → IRP) (Alerted : Bool) (o : SUSPEND_OUTCOME) :
    M Bool := do
  if Alerted then
    return false
  let s ← getState
  match s.Pdo.DevicePowerIrp with
  | none => return true
  | some Irp =>
    fun t => Run.done () { t with Pdo := { t.Pdo with DevicePowerIrp := none } }
    let _ ← PdoSetDevicePower (Requests Irp) o
    return true

def PdoSetSystemPower (Irp : IRP) : M NTSTATUS := do
  let SystemState := Irp.SystemState
  let PowerAction := Irp.ShutdownType
  ASSERT ASSERTION.SystemPowerAction
    (decide (PowerAction.toNat < POWER_ACTION.PowerActionShutdown.toNat))
  let s ← getState
  if (__PdoGetSystemPowerState s).toNat > SystemState.toNat then
    if SystemState.toNat < SYSTEM_POWER_STATE.PowerSystemHibernate.toNat ∧
        (__PdoGetSystemPowerState s).toNat ≥ SYSTEM_POWER_STATE.PowerSystemHibernate.toNat then
      __PdoSetSystemPowerState SYSTEM_POWER_STATE.PowerSystemHibernate
      PdoS4ToS3
  else if (__PdoGetSystemPowerState s).toNat < SystemState.toNat then
    if SystemState.toNat ≥ SYSTEM_POWER_STATE.PowerSystemHibernate.toNat ∧
        (__PdoGetSystemPowerState s).toNat < SYSTEM_POWER_STATE.PowerSystemHibernate.toNat then
      __PdoSetSystemPowerState SYSTEM_POWER_STATE.PowerSystemSleeping3
      PdoS3ToS4
  __PdoSetSystemPowerState SystemState
  emit (EVENT.IoCompleteRequest STATUS_SUCCESS)
  return STATUS_SUCCESS

/-- One pass through the body of the loop `for (;;)` of the worker `PdoSystemPower`. -/
def PdoSystemPower.pass (Requests : Nat → IRP) (Alerted : Bool) : M Bool := do
  if Alerted then
    return false
  let s ← getState
  match s.Pdo.SystemPowerIrp with
  | none => return true
  | some Irp =>
    fun t => Run.done () { t with Pdo := { t.Pdo with SystemPowerIrp := none } }
    let _ ← PdoSetSystemPower (Requests Irp)
    return true

/-- `PdoSetPower` for the request at address `Irp`, whose fields are `Requests Irp`. -/
def PdoSetPower (Requests : Nat → IRP) (Irp : Nat) : M NTSTATUS := do
  let PowerType := (Requests Irp).PowerType
  let PowerAction := (Requests Irp).ShutdownType
  if PowerAction.toNat ≥ POWER_ACTION.PowerActionShutdown.toNat then
    let status := STATUS_SUCCESS
    emit (EVENT.IoCompleteRequest status)
    -- done:
    return status
  match PowerType with
  | POWER_STATE_TYPE.DevicePowerState =>
    emit (EVENT.IoMarkIrpPending Irp)
    let s ← getState
    ASSERT ASSERTION.DevicePowerIrpIsNull s.Pdo.DevicePowerIrp.isNone
    fun t => Run.done () { t with Pdo := { t.Pdo with DevicePowerIrp := some Irp } }
    emit EVENT.ThreadWakeDevicePower
    return STATUS_PENDING
  | POWER_STATE_TYPE.SystemPowerState =>
    emit (EVENT.IoMarkIrpPending Irp)
    let s ← getState
    ASSERT ASSERTION.SystemPowerIrpIsNull s.Pdo.SystemPowerIrp.isNone
    fun t => Run.done () { t with Pdo := { t.Pdo with SystemPowerIrp := some Irp } }
    emit EVENT.ThreadWakeSystemPower
    return STATUS_PENDING
  | POWER_STATE_TYPE.Other _ =>
    let status := (Requests Irp).Status
    emit (EVENT.IoCompleteRequest status)
    return status

/-- The values `__PdoSetSystemPowerState` wrote, in program order. -/
def systemPowerWrites : List EVENT → List SYSTEM_POWER_STATE
  | [] => []
  | EVENT.SetSystemPowerState State :: es => State :: systemPowerWrites es
  | _ :: es => systemPowerWrites es

/-- A power request with every field at its first value. -/
def sampleIrp : IRP :=
  { PowerType := POWER_STATE_TYPE.DevicePowerState
    SystemState := SYSTEM_POWER_STATE.PowerSystemWorking
    DeviceState := DEVICE_POWER_STATE.PowerDeviceD0
    ShutdownType := POWER_ACTION.PowerActionNone
    Status := STATUS_NOT_SUPPORTED }

/-- Every run of `m` ends in a state related by `R` to the state it started in, whether
it returns or is stopped by an assertion. -/
def Keeps {α : Type} (R : State → State → Prop) (m : M α) : Prop :=
  ∀ s, R s (m s).state

/-- The two power mailboxes and the recorded system power state are the same. -/
def SamePowerRequests (s t : State) : Prop :=
  t.Pdo.DevicePowerIrp = s.Pdo.DevicePowerIrp ∧ t.Pdo.SystemPowerIrp = s.Pdo.SystemPowerIrp ∧
  t.Dx.SystemPowerState = s.Dx.SystemPowerState

/-! ## Operations on a node, for statements about reachable states -/

/-- The requests and callbacks that move the device power state, with the resource lists
and the answers of the suspend facility each of them meets. -/
inductive OPERATION where
  | Start (AllocatedResources AllocatedResourcesTranslated : CM_RESOURCE_LIST)
      (o : SUSPEND_OUTCOME)
  | Stop
  | Remove
  | SetDevicePower (Irp : IRP) (o : SUSPEND_OUTCOME)
  | SuspendCallbackLate
deriving DecidableEq, Repr

/-- The code an operation runs. -/
def OPERATION.run : OPERATION → M Unit
  | .Start raw translated o => do
    let _ ← PdoStartDevice raw translated o
  | .Stop => do
    let _ ← PdoStopDevice
  | .Remove => do
    let _ ← PdoRemoveDevice
  | .SetDevicePower Irp o => do
    let _ ← PdoSetDevicePower Irp o
  | .SuspendCallbackLate => PdoSuspendCallbackLate

/-- A sequence of operations, each started where the one before returned; an assertion
that fails ends the sequence. -/
def runOperations : List OPERATION → M Unit
  | [] => pure ()
  | op :: ops => do
    op.run
    runOperations ops

/-- The node as `PdoCreate` leaves it: `Present`, `Working`, `D3`, with the fields of the
zero-filled `XENBUS_PDO` that `PdoCreate` does not write still zero. -/
def Created (s : State) : Prop :=
  s.Dx.DevicePnpState = DEVICE_PNP_STATE.Present ∧
  s.Dx.SystemPowerState = SYSTEM_POWER_STATE.PowerSystemWorking ∧
  s.Dx.DevicePowerState = DEVICE_POWER_STATE.PowerDeviceD3 ∧
  s.Pdo.SystemPowerIrp = none ∧ s.Pdo.DevicePowerIrp = none ∧
  s.Pdo.Missing = false ∧ s.Pdo.Reason = none ∧ s.Pdo.SuspendCallbackLate = none

instance (s : State) : Decidable (Created s) := by
  unfold Created; infer_instance

/-- The late-resume callback handle is present only if the device power state is D0. -/
def CallbackOnlyInD0 (s : State) : Prop :=
  s.Pdo.SuspendCallbackLate ≠ none → s.Dx.DevicePowerState = DEVICE_POWER_STATE.PowerDeviceD0

instance (s : State) : Decidable (CallbackOnlyInD0 s) := by
  unfold CallbackOnlyInD0; infer_instance

/-- The device power state and the late-resume callback handle are the same. -/
def SamePower (s t : State) : Prop :=
  t.Dx.DevicePowerState = s.Dx.DevicePowerState ∧
  t.Pdo.SuspendCallbackLate = s.Pdo.SuspendCallbackLate

/-- If the handle was present only in D0 before, it is present only in D0 after. -/
def KeepsCallbackOnlyInD0 (s t : State) : Prop :=
  CallbackOnlyInD0 s → CallbackOnlyInD0 t

/-! ## Builds used in statements about the revision table -/

/-- The two sets of versions agree on every axis but the outermost one, Suspend. -/
def VERSIONS.SameInner (v w : VERSIONS) : Prop :=
  v.SharedInfo = w.SharedInfo ∧ v.Evtchn = w.Evtchn ∧ v.Debug = w.Debug ∧ v.Store = w.Store ∧
  v.RangeSet = w.RangeSet ∧ v.Cache = w.Cache ∧ v.Gnttab = w.Gnttab ∧
  v.Emulated = w.Emulated ∧ v.Unplug = w.Unplug

instance (v w : VERSIONS) : Decidable (VERSIONS.SameInner v w) := by
  unfold VERSIONS.SameInner; infer_instance

/-- The small build after a fourth Unplug version is added. -/
def smallBuildWidened : BUILD :=
  { MAX := { VERSIONS.ones with Suspend := 2, Unplug := 4 }
    MIN := { VERSIONS.ones with Unplug := 2 } }

/-- The small build after a third Suspend version is added. -/
def smallBuildExtended : BUILD :=
  { MAX := { VERSIONS.ones with Suspend := 3, Unplug := 3 }
    MIN := { VERSIONS.ones with Unplug := 2 } }

/-- Two Suspend versions, one version of everything else, nothing retired. -/
def twoSuspendBuild : BUILD :=
  { MAX := { VERSIONS.ones with Suspend := 2 }
    MIN := VERSIONS.ones }

/-- The text `part` occurs in `text`. -/
def Contains (text part : String) : Prop :=
  ∃ before after, text = before ++ part ++ after

/-! ## Identifier queries (`pdo.c` lines 1529-1680) -/

/-- The platform enumeration `BUS_QUERY_ID_TYPE`, in numeric order. -/
inductive BUS_QUERY_ID_TYPE where
  | BusQueryDeviceID
  | BusQueryHardwareIDs
  | BusQueryCompatibleIDs
  | BusQueryInstanceID
  | BusQueryDeviceSerialNumber
  | BusQueryContainerID
deriving DecidableEq, Repr

def MAX_DEVICE_ID_LEN : Nat := 200

def STATUS_BUFFER_OVERFLOW : NTSTATUS := 0x80000005
def STATUS_INVALID_PARAMETER : NTSTATUS := 0xC000000D
def STATUS_BUFFER_TOO_SMALL : NTSTATUS := 0xC0000023

/-- The platform constant `NTSTRSAFE_MAX_CCH`. -/
def NTSTRSAFE_MAX_CCH : Nat := 2147483647

/-- The wide character that ends a string. -/
def NUL : Char := Char.ofNat 0

/-- The characters of a C string: those before its first terminator. -/
def CString (s : String) : List Char :=
  s.toList.takeWhile (fun c => decide (c ≠ NUL))

/-- One upper-case hexadecimal digit. -/
def HexDigit (d : Nat) : Char :=
  if d < 10 then Char.ofNat (48 + d) else Char.ofNat (55 + d)

/-- The conversion `%08X` of a 32-bit unsigned argument: eight upper-case hexadecimal
digits, the most significant first. -/
def Hex08X (n : Nat) : List Char :=
  [7, 6, 5, 4, 3, 2, 1, 0].map (fun i => HexDigit (n % 2 ^ 32 / 16 ^ i % 16))

/-- The characters the format `L"XENBUS\\VEN_%hs&DEV_%hs&REV_%08X"` produces. -/
def DeviceIdText (VendorName Name : String) (Revision : Nat) : List Char :=
  "XENBUS\\VEN_".toList ++ CString VendorName ++ "&DEV_".toList ++ CString Name ++
    "&REV_".toList ++ Hex08X Revision

/-- Memory after the wide characters `cs` are stored from offset `p` on. -/
def poke (Memory : List Char) (p : Nat) (cs : List Char) : List Char :=
  Memory.take p ++ cs ++ Memory.drop (p + cs.length)

/-- The number of characters before the first terminator in `cs`; `none` when there is
no terminator in `cs`. -/
def wcslen.scan : List Char → Option Nat
  | [] => none
  | c :: cs => if c = NUL then some 0 else (wcslen.scan cs).map (fun n => n + 1)

/-- The platform routine `wcslen` on the string that starts at offset `Buffer` of an
allocation holding `Memory`; `none` when the scan leaves the allocation. -/
def wcslen (Memory : List Char) (Buffer : Nat) : Option Nat :=
  wcslen.scan (Memory.drop Buffer)

/-- The platform routine `RtlStringCbPrintfW`, given the characters `Text` its format
produces, on a destination at offset `pszDest` of an allocation holding `Memory`: a size
of no or too many characters is refused; text that fits with its terminator is stored;
longer text is cut to fit and reported as `STATUS_BUFFER_OVERFLOW`. The result is `none`
when the store leaves the allocation. -/
def RtlStringCbPrintfW (Memory : List Char) (pszDest cbDest : Nat) (Text : List Char) :
    Option (NTSTATUS × List Char) :=
  let cchDest := cbDest / 2
  if cchDest = 0 ∨ cchDest > NTSTRSAFE_MAX_CCH then
    some (STATUS_INVALID_PARAMETER, Memory)
  else
    let status := if Text.length < cchDest then STATUS_SUCCESS else STATUS_BUFFER_OVERFLOW
    let stored := Text.take (cchDest - 1) ++ [NUL]
    if pszDest + stored.length ≤ Memory.length then
      some (status, poke Memory pszDest stored)
    else
      none

/-- The request fields `PdoQueryId` writes: `IoStatus.Status` and `IoStatus.Information`,
the latter `none` when it is zero and otherwise the contents of the buffer it points to. -/
structure IO_STATUS_BLOCK where
  Status : NTSTATUS
  Information : Option (List Char)
deriving DecidableEq, Repr

/-- The run ends here. -/
def stop {α : Type} (site : ASSERTION) : M α := fun s => Run.bugcheck site s

/-- A call of `RtlStringCbPrintfW` followed by `ASSERT(NT_SUCCESS(status))`. -/
def PdoQueryId.print (Memory : List Char) (Buffer cbDest : Nat) (Text : List Char) :
    M (List Char) :=
  match RtlStringCbPrintfW Memory Buffer cbDest Text with
  | none => stop ASSERTION.AccessOutsideAllocation
  | some (status, Memory) => do
    ASSERT ASSERTION.QueryIdFormat (NT_SUCCESS status)
    return Memory

/-- A call `wcslen(Buffer)`, which must stay inside the allocation. -/
def PdoQueryId.wcslenAt (Memory : List Char) (Buffer : Nat) : M Nat :=
  match Xenbus.wcslen Memory Buffer with
  | none => stop ASSERTION.AccessOutsideAllocation
  | some n => pure n

/-- The loop `for (Index = 0; Index < Pdo->Count; Index++)` of the `BusQueryHardwareIDs`
branch with `n` iterations left, on the buffer contents, the offset `Buffer` and the
counter `Length`. -/
def PdoQueryId.identifiers : Nat → Nat → List Char × Nat × Nat → M (List Char × Nat × Nat)
  | 0, _, locals => pure locals
  | n + 1, Index, (Memory, Buffer, Length) => do
    let s ← getState
    let Revision ← (match (s.Pdo.Revision.getD [])[Index]? with
      | none => stop ASSERTION.AccessOutsideAllocation
      | some Revision => pure Revision)
    let Memory ← PdoQueryId.print Memory Buffer Length
      (DeviceIdText s.Fdo.VendorName (__PdoGetName s) Revision)
    let Buffer := Buffer + (← PdoQueryId.wcslenAt Memory Buffer)
    let Length := (Length + 2 ^ 32 - ((← PdoQueryId.wcslenAt Memory Buffer) * 2) % 2 ^ 32) % 2 ^ 32
    let Buffer := Buffer + 1
    let Length := (Length + 2 ^ 32 - 2) % 2 ^ 32
    PdoQueryId.identifiers n (Index + 1) (Memory, Buffer, Length)

/-- The loop `do { ...; Buffer += wcslen(Buffer); Buffer++; } while (*Buffer != L'\0')`
that walks a `REG_MULTI_SZ` value from offset `Buffer`: the strings it passes, or `none`
when it reads outside the allocation. Each turn uses one unit of fuel. -/
def PdoQueryId.walk (Memory : List Char) : Nat → Nat → Option (List (List Char))
  | 0, _ => none
  | fuel + 1, Buffer =>
    match Xenbus.wcslen Memory Buffer with
    | none => none
    | some n =>
      match Memory[Buffer + n + 1]? with
      | none => none
      | some c =>
        if c ≠ NUL then
          (PdoQueryId.walk Memory fuel (Buffer + n + 1)).map
            (fun rest => (Memory.drop Buffer).take n :: rest)
        else
          some [(Memory.drop Buffer).take n]

/-- The strings of a `REG_MULTI_SZ` value held in an allocation. -/
def MultiSz (Memory : List Char) : Option (List (List Char)) :=
  PdoQueryId.walk Memory (Memory.length + 1) 0

/-- The string of a `REG_SZ` value held in an allocation. -/
def Sz (Memory : List Char) : Option (List Char) :=
  (wcslen Memory 0).map (fun n => Memory.take n)

/-- The branch `case BusQueryInstanceID` of `PdoQueryId`: `RtlAppendUnicodeToString`
stores "_" and its terminator in the empty string of capacity `MaximumLength` bytes. -/
def PdoQueryId.instanceId (Memory : List Char) : M (List Char) := do
  let Buffer := 0
  let Memory := poke Memory Buffer ['_', NUL]
  let _ ← PdoQueryId.wcslenAt Memory Buffer
  pure Memory

/-- The branch `case BusQueryDeviceID` of `PdoQueryId`. -/
def PdoQueryId.deviceId (MaximumLength : Nat) (Memory : List Char) : M (List Char) := do
  let s ← getState
  let Buffer := 0
  let Index := (s.Pdo.Count + 2 ^ 32 - 1) % 2 ^ 32
  let Revision ← (match (s.Pdo.Revision.getD [])[Index]? with
    | none => stop ASSERTION.AccessOutsideAllocation
    | some Revision => pure Revision)
  let Memory ← PdoQueryId.print Memory Buffer MaximumLength
    (DeviceIdText s.Fdo.VendorName (__PdoGetName s) Revision)
  let _ ← PdoQueryId.wcslenAt Memory Buffer
  pure Memory

/-- The branch `case BusQueryHardwareIDs: case BusQueryCompatibleIDs:` of `PdoQueryId`,
followed by the walk the function makes over a value of type `REG_MULTI_SZ`. -/
def PdoQueryId.hardwareIds (MaximumLength : Nat) (Memory : List Char) : M (List Char) := do
  let s ← getState
  let Buffer := 0
  let Length := MaximumLength
  let (Memory, Buffer, Length) ←
    PdoQueryId.identifiers s.Pdo.Count 0 (Memory, Buffer, Length)
  let Memory ← PdoQueryId.print Memory Buffer Length "XENCLASS".toList
  let _ ← PdoQueryId.wcslenAt Memory Buffer
  match PdoQueryId.walk Memory (Memory.length + 1) 0 with
  | none => stop ASSERTION.AccessOutsideAllocation
  | some _ => pure Memory

/-- The label `done` of `PdoQueryId`. -/
def PdoQueryId.done (IoStatus : IO_STATUS_BLOCK) (status : NTSTATUS) : M IO_STATUS_BLOCK := do
  emit (EVENT.IoCompleteRequest status)
  return { IoStatus with Status := status }

/-- `PdoQueryId` for a request of type `IdType` that enters with `IoStatus`; `Allocated`
tells whether `__AllocatePoolWithTag` finds memory, which it hands out zero-filled. The
store to the local `Id.Length` and the trace output are left out. -/
def PdoQueryId (IdType : BUS_QUERY_ID_TYPE) (Allocated : Bool) (IoStatus : IO_STATUS_BLOCK) :
    M IO_STATUS_BLOCK := do
  let s ← getState
  let MaximumLength : Option Nat :=
    match IdType with
    | .BusQueryInstanceID => some (2 * 2)
    | .BusQueryDeviceID => some ((MAX_DEVICE_ID_LEN - 2) * 2)
    | .BusQueryHardwareIDs =>
      some ((MAX_DEVICE_ID_LEN * s.Pdo.Count) % 2 ^ 32 % 2 ^ 16 * 2 % 2 ^ 16)
    | .BusQueryCompatibleIDs =>
      some ((MAX_DEVICE_ID_LEN * s.Pdo.Count) % 2 ^ 32 % 2 ^ 16 * 2 % 2 ^ 16)
    | _ => none
  match MaximumLength with
  | none => PdoQueryId.done { IoStatus with Information := none } STATUS_NOT_SUPPORTED
  | some MaximumLength =>
    if !Allocated then
      PdoQueryId.done IoStatus STATUS_NO_MEMORY
    else
      let Memory := List.replicate (MaximumLength / 2) NUL
      let Memory ← (match IdType with
        | .BusQueryInstanceID => PdoQueryId.instanceId Memory
        | .BusQueryDeviceID => PdoQueryId.deviceId MaximumLength Memory
        | .BusQueryHardwareIDs => PdoQueryId.hardwareIds MaximumLength Memory
        | .BusQueryCompatibleIDs => PdoQueryId.hardwareIds MaximumLength Memory
        | _ => stop ASSERTION.QueryIdType)
      PdoQueryId.done { IoStatus with Information := some Memory } STATUS_SUCCESS

/-- The status block of a request no driver has handled yet. -/
def unhandled : IO_STATUS_BLOCK :=
  { Status := STATUS_NOT_SUPPORTED, Information := none }

/-- The sample node with a table of `n` entries numbered 1 to `n`. -/
def nodeWithTable (n : Nat) : State :=
  { sampleNode with
    Pdo := { sampleNode.Pdo with
      Revision := some ((List.range n).map (fun i => i + 1))
      Description := some (List.replicate n none)
      Count := n } }

/-- The contents of a buffer that holds the strings one after the other, each followed
by its terminator. -/
def joined : List (List Char) → List Char
  | [] => []
  | x :: xs => x ++ NUL :: joined xs

/-- A store of `len` characters and a terminator fits: the size `cbDest` handed to
`RtlStringCbPrintfW` admits it, and `k` characters are left in the allocation. -/
def Fits (cbDest k len : Nat) : Prop :=
  len < cbDest / 2 ∧ cbDest / 2 ≤ NTSTRSAFE_MAX_CCH ∧ len + 1 ≤ k

instance (cbDest k len : Nat) : Decidable (Fits cbDest k len) := by
  unfold Fits; infer_instance

/-- The assertion that stopped the run, when one did. -/
def Run.site {α : Type} : Run α → Option ASSERTION
  | .done _ _ => none
  | .bugcheck site _ => some site


/-! ## Plug-and-play dispatch (`pdo.c` lines 1076-1527, 1683-1864) -/

/-- The platform enumeration `DEVICE_RELATION_TYPE`, in numeric order. -/
inductive DEVICE_RELATION_TYPE where
  | BusRelations
  | EjectionRelations
  | PowerRelations
  | RemovalRelations
  | TargetDeviceRelation
  | SingleBusRelations
  | TransportRelations
deriving DecidableEq, Repr

/-- The platform enumeration `DEVICE_TEXT_TYPE`; `Other` stands for a value that is
neither of its two enumerators. -/
inductive DEVICE_TEXT_TYPE where
  | DeviceTextDescription
  | DeviceTextLocationInformation
  | Other (Value : Nat)
deriving DecidableEq, Repr

/-- The platform structure `GUID`. -/
structure GUID where
  Data1 : Nat
  Data2 : Nat
  Data3 : Nat
  Data4 : List Nat
deriving DecidableEq, Repr

/-- The platform macro `IsEqualGUID`. -/
def IsEqualGUID (a b : GUID) : Bool := decide (a = b)

/-- The interface identifiers `PdoInterfaceTable` names; the headers that define them are
not part of the source at hand, so they are parameters. -/
structure INTERFACE_GUIDS where
  GUID_BUS_INTERFACE_STANDARD : GUID
  GUID_XENBUS_DEBUG_INTERFACE : GUID
  GUID_XENBUS_SUSPEND_INTERFACE : GUID
  GUID_XENBUS_SHARED_INFO_INTERFACE : GUID
  GUID_XENBUS_EVTCHN_INTERFACE : GUID
  GUID_XENBUS_STORE_INTERFACE : GUID
  GUID_XENBUS_RANGE_SET_INTERFACE : GUID
  GUID_XENBUS_CACHE_INTERFACE : GUID
  GUID_XENBUS_GNTTAB_INTERFACE : GUID
  GUID_XENFILT_EMULATED_INTERFACE : GUID
  GUID_XENFILT_UNPLUG_INTERFACE : GUID
deriving DecidableEq, Repr

/-- What the parent and the platform answer while one plug-and-play request is handled:
the status of `<Interface>GetInterface(Context, Version, Interface, Size)` for the
interface named, the status of `FdoDelegateIrp`, and the platform constant
`sizeof (BUS_INTERFACE_STANDARD)`. The code behind the two calls is not part of the source
at hand, so their answers are parameters. -/
structure PARENT where
  GetInterface : String → Nat → Nat → NTSTATUS
  FdoDelegateIrp : NTSTATUS
  SizeofBusInterfaceStandard : Nat

/-- The fields of a plug-and-play request the handlers read: the minor function, the
status block on entry, and the members of the `Parameters` union of the stack location
(`RelationType` is `Parameters.QueryDeviceRelations.Type`, `CapabilitiesVersion` is
`Parameters.DeviceCapabilities.Capabilities->Version`). -/
structure PNP_IRP where
  MinorFunction : Nat
  IoStatus : IO_STATUS_BLOCK
  AllocatedResources : CM_RESOURCE_LIST
  AllocatedResourcesTranslated : CM_RESOURCE_LIST
  RelationType : DEVICE_RELATION_TYPE
  InterfaceType : GUID
  Size : Nat
  Version : Nat
  CapabilitiesVersion : Nat
  DeviceTextType : DEVICE_TEXT_TYPE
  IdType : BUS_QUERY_ID_TYPE
deriving DecidableEq, Repr

/-- The platform constants `IRP_MN_*` for plug-and-play requests. -/
def IRP_MN_START_DEVICE : Nat := 0x00
def IRP_MN_QUERY_REMOVE_DEVICE : Nat := 0x01
def IRP_MN_REMOVE_DEVICE : Nat := 0x02
def IRP_MN_CANCEL_REMOVE_DEVICE : Nat := 0x03
def IRP_MN_STOP_DEVICE : Nat := 0x04
def IRP_MN_QUERY_STOP_DEVICE : Nat := 0x05
def IRP_MN_CANCEL_STOP_DEVICE : Nat := 0x06
def IRP_MN_QUERY_DEVICE_RELATIONS : Nat := 0x07
def IRP_MN_QUERY_INTERFACE : Nat := 0x08
def IRP_MN_QUERY_CAPABILITIES : Nat := 0x09
def IRP_MN_QUERY_RESOURCES : Nat := 0x0A
def IRP_MN_QUERY_RESOURCE_REQUIREMENTS : Nat := 0x0B
def IRP_MN_QUERY_DEVICE_TEXT : Nat := 0x0C
def IRP_MN_FILTER_RESOURCE_REQUIREMENTS : Nat := 0x0D
def IRP_MN_READ_CONFIG : Nat := 0x0F
def IRP_MN_WRITE_CONFIG : Nat := 0x10
def IRP_MN_EJECT : Nat := 0x11
def IRP_MN_SET_LOCK : Nat := 0x12
def IRP_MN_QUERY_ID : Nat := 0x13
def IRP_MN_QUERY_PNP_DEVICE_STATE : Nat := 0x14
def IRP_MN_QUERY_BUS_INFORMATION : Nat := 0x15
def IRP_MN_DEVICE_USAGE_NOTIFICATION : Nat := 0x16
def IRP_MN_SURPRISE_REMOVAL : Nat := 0x17
def IRP_MN_DEVICE_ENUMERATED : Nat := 0x19

/-- `PdoQueryDeviceRelations`; `Allocated` tells whether `__AllocatePoolWithTag` finds
memory. The relations block handed to the caller is left out. -/
def PdoQueryDeviceRelations (Irp : PNP_IRP) (Allocated : Bool) : M NTSTATUS := do
  let status := Irp.IoStatus.Status
  if Irp.RelationType ≠ DEVICE_RELATION_TYPE.TargetDeviceRelation then
    -- done
    emit (EVENT.IoCompleteRequest status)
    return status
  let status := STATUS_NO_MEMORY
  if !Allocated then
    -- done
    emit (EVENT.IoCompleteRequest status)
    return status
  emit EVENT.ObReferenceObject
  let status := STATUS_SUCCESS
  emit (EVENT.IoCompleteRequest status)
  return status

/-- Modelled from the spec: the call `FdoDelegateIrp` into the parent, which forwards the
request and answers with a status. -/
def __PdoDelegateIrp (p : PARENT) (_Irp : PNP_IRP) : M NTSTATUS := do
  emit EVENT.FdoDelegateIrp
  return p.FdoDelegateIrp

def PdoDelegateIrp (p : PARENT) (Irp : PNP_IRP) : M NTSTATUS :=
  __PdoDelegateIrp p Irp

/-- `PdoQueryBusInterface`; the copy of the interface block into the caller's buffer is
left out. -/
def PdoQueryBusInterface (p : PARENT) (Irp : PNP_IRP) : M NTSTATUS := do
  let status := Irp.IoStatus.Status
  let Size := Irp.Size
  let Version := Irp.Version
  if Version ≠ 1 then
    return status
  let status := STATUS_BUFFER_TOO_SMALL
  if Size < p.SizeofBusInterfaceStandard then
    return status
  emit EVENT.InterfaceReference
  let status := STATUS_SUCCESS
  return status

/-- The function `PdoQuery<_Interface>Interface` the macro `DEFINE_PDO_QUERY_INTERFACE`
defines. -/
def DEFINE_PDO_QUERY_INTERFACE (p : PARENT) (_Interface : String) (Irp : PNP_IRP) :
    M NTSTATUS := do
  let Size := Irp.Size
  let Version := Irp.Version
  emit (EVENT.GetInterface _Interface Version Size)
  let status := p.GetInterface _Interface Version Size
  if !NT_SUCCESS status then
    return status
  let status := STATUS_SUCCESS
  return status

def PdoQueryDebugInterface (p : PARENT) : PNP_IRP → M NTSTATUS :=
  DEFINE_PDO_QUERY_INTERFACE p "Debug"

def PdoQuerySuspendInterface (p : PARENT) : PNP_IRP → M NTSTATUS :=
  DEFINE_PDO_QUERY_INTERFACE p "Suspend"

def PdoQuerySharedInfoInterface (p : PARENT) : PNP_IRP → M NTSTATUS :=
  DEFINE_PDO_QUERY_INTERFACE p "SharedInfo"

def PdoQueryEvtchnInterface (p : PARENT) : PNP_IRP → M NTSTATUS :=
  DEFINE_PDO_QUERY_INTERFACE p "Evtchn"

def PdoQueryStoreInterface (p : PARENT) : PNP_IRP → M NTSTATUS :=
  DEFINE_PDO_QUERY_INTERFACE p "Store"

def PdoQueryRangeSetInterface (p : PARENT) : PNP_IRP → M NTSTATUS :=
  DEFINE_PDO_QUERY_INTERFACE p "RangeSet"

def PdoQueryCacheInterface (p : PARENT) : PNP_IRP → M NTSTATUS :=
  DEFINE_PDO_QUERY_INTERFACE p "Cache"

def PdoQueryGnttabInterface (p : PARENT) : PNP_IRP → M NTSTATUS :=
  DEFINE_PDO_QUERY_INTERFACE p "Gnttab"

/-- One row of `PdoInterfaceTable` (`struct _INTERFACE_ENTRY`). -/
structure INTERFACE_ENTRY where
  Guid : GUID
  Name : String
  Query : PNP_IRP → M NTSTATUS

/-- The rows of `PdoInterfaceTable` before its terminating `NULL` row. -/
def PdoInterfaceTable (g : INTERFACE_GUIDS) (p : PARENT) : List INTERFACE_ENTRY :=
  [ { Guid := g.GUID_BUS_INTERFACE_STANDARD, Name := "BUS_INTERFACE",
      Query := PdoQueryBusInterface p },
    { Guid := g.GUID_XENBUS_DEBUG_INTERFACE, Name := "DEBUG_INTERFACE",
      Query := PdoQueryDebugInterface p },
    { Guid := g.GUID_XENBUS_SUSPEND_INTERFACE, Name := "SUSPEND_INTERFACE",
      Query := PdoQuerySuspendInterface p },
    { Guid := g.GUID_XENBUS_SHARED_INFO_INTERFACE, Name := "SHARED_INFO_INTERFACE",
      Query := PdoQuerySharedInfoInterface p },
    { Guid := g.GUID_XENBUS_EVTCHN_INTERFACE, Name := "EVTCHN_INTERFACE",
      Query := PdoQueryEvtchnInterface p },
    { Guid := g.GUID_XENBUS_STORE_INTERFACE, Name := "STORE_INTERFACE",
      Query := PdoQueryStoreInterface p },
    { Guid := g.GUID_XENBUS_RANGE_SET_INTERFACE, Name := "RANGE_SET_INTERFACE",
      Query := PdoQueryRangeSetInterface p },
    { Guid := g.GUID_XENBUS_CACHE_INTERFACE, Name := "CACHE_INTERFACE",
      Query := PdoQueryCacheInterface p },
    { Guid := g.GUID_XENBUS_GNTTAB_INTERFACE, Name := "GNTTAB_INTERFACE",
      Query := PdoQueryGnttabInterface p },
    { Guid := g.GUID_XENFILT_EMULATED_INTERFACE, Name := "EMULATED_INTERFACE",
      Query := PdoDelegateIrp p },
    { Guid := g.GUID_XENFILT_UNPLUG_INTERFACE, Name := "UNPLUG_INTERFACE",
      Query := PdoDelegateIrp p } ]

/-- The loop of `PdoQueryInterface` over the rows from `Entry` on; it is entered with the
local `status` and yields the value of `status` at the label `done`. -/
def PdoQueryInterface.scan (Irp : PNP_IRP) (status : NTSTATUS) :
    List INTERFACE_ENTRY → M NTSTATUS
  | [] => pure status
  | Entry :: rest =>
    if IsEqualGUID Irp.InterfaceType Entry.Guid then do
      let s ← getState
      emit (EVENT.InfoQueryInterface (__PdoGetName s) Entry.Name Irp.Version)
      Entry.Query Irp
    else
      PdoQueryInterface.scan Irp status rest

def PdoQueryInterface (g : INTERFACE_GUIDS) (p : PARENT) (Irp : PNP_IRP) : M NTSTATUS := do
  let status := Irp.IoStatus.Status
  let status ← (if status ≠ STATUS_NOT_SUPPORTED then pure status
    else PdoQueryInterface.scan Irp status (PdoInterfaceTable g p))
  -- done
  emit (EVENT.IoCompleteRequest status)
  return status

/-- `PdoQueryCapabilities`; the fields written to the caller's `DEVICE_CAPABILITIES` are
left out. -/
def PdoQueryCapabilities (Irp : PNP_IRP) : M NTSTATUS := do
  let status := STATUS_INVALID_PARAMETER
  if Irp.CapabilitiesVersion ≠ 1 then
    -- done
    emit (EVENT.IoCompleteRequest status)
    return status
  let status := STATUS_SUCCESS
  emit (EVENT.IoCompleteRequest status)
  return status

/-- `PdoQueryResourceRequirements`; the requirements list handed to the caller is left
out. -/
def PdoQueryResourceRequirements (Allocated : Bool) : M NTSTATUS := do
  let status := STATUS_NO_MEMORY
  if !Allocated then
    -- fail1
    emit (EVENT.IoCompleteRequest status)
    return status
  emit (EVENT.IoCompleteRequest STATUS_SUCCESS)
  return STATUS_SUCCESS

/-- A call of `RtlStringCbPrintfW` followed by `ASSERT(NT_SUCCESS(status))` in
`PdoQueryDeviceText`. -/
def PdoQueryDeviceText.print (Memory : List Char) (Text : List Char) : M (List Char) :=
  match RtlStringCbPrintfW Memory 0 MAXTEXTLEN Text with
  | none => stop ASSERTION.AccessOutsideAllocation
  | some (status, Memory) => do
    ASSERT ASSERTION.DeviceTextFormat (NT_SUCCESS status)
    pure Memory

/-- `PdoQueryDeviceText`; a `NULL` argument of the conversion `%s` is printed as
`(null)`. The text handed to the caller and the trace output are left out. -/
def PdoQueryDeviceText (Irp : PNP_IRP) (Allocated : Bool) : M NTSTATUS := do
  let s ← getState
  if Irp.DeviceTextType ≠ DEVICE_TEXT_TYPE.DeviceTextDescription ∧
      Irp.DeviceTextType ≠ DEVICE_TEXT_TYPE.DeviceTextLocationInformation then
    let status := STATUS_NOT_SUPPORTED
    -- done
    emit (EVENT.IoCompleteRequest status)
    return status
  let status := STATUS_NO_MEMORY
  if !Allocated then
    -- done
    emit (EVENT.IoCompleteRequest status)
    return status
  let Memory := List.replicate (MAXTEXTLEN / 2) NUL
  let _Buffer ← (match Irp.DeviceTextType with
    | .DeviceTextDescription => do
      let Index := (s.Pdo.Count + 2 ^ 32 - 1) % 2 ^ 32
      let Text ← (match (s.Pdo.Description.getD [])[Index]? with
        | none => stop ASSERTION.AccessOutsideAllocation
        | some none => pure "(null)".toList
        | some (some d) => pure (CString d.Text))
      let Memory ← PdoQueryDeviceText.print Memory Text
      PdoQueryId.wcslenAt Memory 0
    | .DeviceTextLocationInformation => do
      let Memory ← PdoQueryDeviceText.print Memory (CString (__PdoGetName s))
      PdoQueryId.wcslenAt Memory 0
    | _ => do
      ASSERT ASSERTION.DeviceTextType false
      pure 0)
  let status := STATUS_SUCCESS
  emit (EVENT.IoCompleteRequest status)
  return status

def PdoReadConfig : M NTSTATUS := do
  emit (EVENT.IoCompleteRequest STATUS_NOT_SUPPORTED)
  return STATUS_NOT_SUPPORTED

def PdoWriteConfig : M NTSTATUS := do
  emit (EVENT.IoCompleteRequest STATUS_NOT_SUPPORTED)
  return STATUS_NOT_SUPPORTED

/-- `PdoQueryBusInformation`; the block handed to the caller is left out. -/
def PdoQueryBusInformation (Allocated : Bool) : M NTSTATUS := do
  let status := STATUS_NO_MEMORY
  if !Allocated then
    -- done
    emit (EVENT.IoCompleteRequest status)
    return status
  let status := STATUS_SUCCESS
  emit (EVENT.IoCompleteRequest status)
  return status

def PdoDeviceUsageNotification (p : PARENT) (Irp : PNP_IRP) : M NTSTATUS := do
  let status ← __PdoDelegateIrp p Irp
  emit (EVENT.IoCompleteRequest status)
  return status

/-- `PdoDispatchPnp` for one request, with the answers the request meets: those of the
parent, of the suspend facility and of `__AllocatePoolWithTag`. The trace output is left
out. -/
def PdoDispatchPnp (g : INTERFACE_GUIDS) (p : PARENT) (o : SUSPEND_OUTCOME) (Allocated : Bool)
    (Irp : PNP_IRP) : M NTSTATUS :=
  let MinorFunction := Irp.MinorFunction
  if MinorFunction = IRP_MN_START_DEVICE then
    PdoStartDevice Irp.AllocatedResources Irp.AllocatedResourcesTranslated o
  else if MinorFunction = IRP_MN_QUERY_STOP_DEVICE then
    PdoQueryStopDevice
  else if MinorFunction = IRP_MN_CANCEL_STOP_DEVICE then
    PdoCancelStopDevice
  else if MinorFunction = IRP_MN_STOP_DEVICE then
    PdoStopDevice
  else if MinorFunction = IRP_MN_QUERY_REMOVE_DEVICE then
    PdoQueryRemoveDevice
  else if MinorFunction = IRP_MN_CANCEL_REMOVE_DEVICE then
    PdoCancelRemoveDevice
  else if MinorFunction = IRP_MN_SURPRISE_REMOVAL then
    PdoSurpriseRemoval
  else if MinorFunction = IRP_MN_REMOVE_DEVICE then
    PdoRemoveDevice
  else if MinorFunction = IRP_MN_QUERY_DEVICE_RELATIONS then
    PdoQueryDeviceRelations Irp Allocated
  else if MinorFunction = IRP_MN_QUERY_INTERFACE then
    PdoQueryInterface g p Irp
  else if MinorFunction = IRP_MN_QUERY_CAPABILITIES then
    PdoQueryCapabilities Irp
  else if MinorFunction = IRP_MN_QUERY_RESOURCE_REQUIREMENTS then
    PdoQueryResourceRequirements Allocated
  else if MinorFunction = IRP_MN_QUERY_DEVICE_TEXT then
    PdoQueryDeviceText Irp Allocated
  else if MinorFunction = IRP_MN_READ_CONFIG then
    PdoReadConfig
  else if MinorFunction = IRP_MN_WRITE_CONFIG then
    PdoWriteConfig
  else if MinorFunction = IRP_MN_QUERY_ID then do
    let IoStatus ← PdoQueryId Irp.IdType Allocated Irp.IoStatus
    return IoStatus.Status
  else if MinorFunction = IRP_MN_QUERY_BUS_INFORMATION then
    PdoQueryBusInformation Allocated
  else if MinorFunction = IRP_MN_DEVICE_USAGE_NOTIFICATION then
    PdoDeviceUsageNotification p Irp
  else if MinorFunction = IRP_MN_EJECT then
    PdoEject
  else do
    -- default
    let status := Irp.IoStatus.Status
    emit (EVENT.IoCompleteRequest Irp.IoStatus.Status)
    return status

/-- A sequence of plug-and-play requests, each dispatched where the one before returned;
an assertion that fails ends the sequence. -/
def dispatchAll (g : INTERFACE_GUIDS) (p : PARENT) (o : SUSPEND_OUTCOME) (Allocated : Bool) :
    List PNP_IRP → M Unit
  | [] => pure ()
  | Irp :: Irps => do
    let _ ← PdoDispatchPnp g p o Allocated Irp
    dispatchAll g p o Allocated Irps

/-- The minor functions the design names: the cases of `PdoDispatchPnp` other than Read
Config and Write Config. -/
def namedMinorFunctions : List Nat :=
  [IRP_MN_START_DEVICE, IRP_MN_QUERY_STOP_DEVICE, IRP_MN_CANCEL_STOP_DEVICE,
   IRP_MN_STOP_DEVICE, IRP_MN_QUERY_REMOVE_DEVICE, IRP_MN_CANCEL_REMOVE_DEVICE,
   IRP_MN_SURPRISE_REMOVAL, IRP_MN_REMOVE_DEVICE, IRP_MN_EJECT,
   IRP_MN_QUERY_DEVICE_RELATIONS, IRP_MN_QUERY_CAPABILITIES,
   IRP_MN_QUERY_RESOURCE_REQUIREMENTS, IRP_MN_QUERY_DEVICE_TEXT, IRP_MN_QUERY_ID,
   IRP_MN_QUERY_BUS_INFORMATION, IRP_MN_QUERY_INTERFACE, IRP_MN_DEVICE_USAGE_NOTIFICATION]

/-- The requests that move the PnP state and are not Start, Remove or Eject. -/
def stopAndRemoveMinorFunctions : List Nat :=
  [IRP_MN_QUERY_STOP_DEVICE, IRP_MN_CANCEL_STOP_DEVICE, IRP_MN_QUERY_REMOVE_DEVICE,
   IRP_MN_CANCEL_REMOVE_DEVICE, IRP_MN_STOP_DEVICE, IRP_MN_SURPRISE_REMOVAL]

/-- The node is not in the PnP state Started and would not return to it on a cancel. -/
def NotStarted (s : State) : Prop :=
  s.Dx.DevicePnpState ≠ DEVICE_PNP_STATE.Started ∧
  s.Dx.PreviousDevicePnpState ≠ DEVICE_PNP_STATE.Started

instance (s : State) : Decidable (NotStarted s) := by
  unfold NotStarted; infer_instance

/-- If the node was not Started before, with no way back on a cancel, it is not after. -/
def KeepsNotStarted (s t : State) : Prop :=
  NotStarted s → NotStarted t

/-- The PnP state and the saved previous state are the same. -/
def SamePnp (s t : State) : Prop :=
  t.Dx.DevicePnpState = s.Dx.DevicePnpState ∧
  t.Dx.PreviousDevicePnpState = s.Dx.PreviousDevicePnpState

/-- Eleven distinct identifiers for the rows of `PdoInterfaceTable`. -/
def sampleGuids : INTERFACE_GUIDS :=
  { GUID_BUS_INTERFACE_STANDARD := ⟨1, 0, 0, []⟩
    GUID_XENBUS_DEBUG_INTERFACE := ⟨2, 0, 0, []⟩
    GUID_XENBUS_SUSPEND_INTERFACE := ⟨3, 0, 0, []⟩
    GUID_XENBUS_SHARED_INFO_INTERFACE := ⟨4, 0, 0, []⟩
    GUID_XENBUS_EVTCHN_INTERFACE := ⟨5, 0, 0, []⟩
    GUID_XENBUS_STORE_INTERFACE := ⟨6, 0, 0, []⟩
    GUID_XENBUS_RANGE_SET_INTERFACE := ⟨7, 0, 0, []⟩
    GUID_XENBUS_CACHE_INTERFACE := ⟨8, 0, 0, []⟩
    GUID_XENBUS_GNTTAB_INTERFACE := ⟨9, 0, 0, []⟩
    GUID_XENFILT_EMULATED_INTERFACE := ⟨10, 0, 0, []⟩
    GUID_XENFILT_UNPLUG_INTERFACE := ⟨11, 0, 0, []⟩ }

/-- A parent whose interfaces accept every version and that answers a delegated request
with success; `BUS_INTERFACE_STANDARD` has 64 bytes. -/
def sampleParent : PARENT :=
  { GetInterface := fun _ _ _ => STATUS_SUCCESS
    FdoDelegateIrp := STATUS_SUCCESS
    SizeofBusInterfaceStandard := 64 }

/-- A request with the given minor function that no driver has handled yet. -/
def samplePnpIrp (MinorFunction : Nat) : PNP_IRP :=
  { MinorFunction := MinorFunction
    IoStatus := unhandled
    AllocatedResources := sampleResources
    AllocatedResourcesTranslated := sampleResources
    RelationType := DEVICE_RELATION_TYPE.TargetDeviceRelation
    InterfaceType := sampleGuids.GUID_XENBUS_SUSPEND_INTERFACE
    Size := 64
    Version := 1
    CapabilitiesVersion := 1
    DeviceTextType := DEVICE_TEXT_TYPE.DeviceTextDescription
    IdType := BUS_QUERY_ID_TYPE.BusQueryDeviceID }

/-- The sample node after a Start request during which the suspend facility refused
`Acquire`: PnP state Started, device power state still D3. -/
def startedWithoutPower : State :=
  (PdoStartDevice sampleResources sampleResources suspendAcquireFails sampleNode).state

/-! ## The capacity of the identifier list (`pdo.c` lines 1555-1578) -/

/-- The value `PdoQueryId` stores in the 16-bit field `Id.MaximumLength` for a request of
type `IdType` on a node with `Count` table entries; `none` for a type the first `switch`
does not name. -/
def PdoQueryId.MaximumLength (IdType : BUS_QUERY_ID_TYPE) (Count : Nat) : Option Nat :=
  match IdType with
  | .BusQueryInstanceID => some (2 * 2)
  | .BusQueryDeviceID => some ((MAX_DEVICE_ID_LEN - 2) * 2)
  | .BusQueryHardwareIDs =>
    some ((MAX_DEVICE_ID_LEN * Count) % 2 ^ 32 % 2 ^ 16 * 2 % 2 ^ 16)
  | .BusQueryCompatibleIDs =>
    some ((MAX_DEVICE_ID_LEN * Count) % 2 ^ 32 % 2 ^ 16 * 2 % 2 ^ 16)
  | _ => none

/-- The pool refuses the request with number `n` and grants every other one. -/
def poolFailsAt (n : Nat) : Nat → Bool := fun k => decide (k ≠ n)

/-- The events of a log that free a description string, as the index freed and the slot
found there (`none`: the index lies outside the array). -/
def freedDescriptions : List EVENT → List (Nat × Option (Option DESCRIPTION))
  | [] => []
  | EVENT.FreeDescription Index Entry :: es => (Index, Entry) :: freedDescriptions es
  | _ :: es => freedDescriptions es

/-! ## The revision number as a formula -/

/-- Follows the wording of the design, not the code: the revision number of the
combination `v` under the axis maxima `M` is one plus the sum over the axes, in the
nesting order Suspend, SharedInfo, Evtchn, Debug, Store, RangeSet, Cache, Gnttab,
Emulated, Unplug, of `(v_i - 1)` times the product of the maxima of the axes after
axis `i`. -/
def revisionNumberFormula (M v : VERSIONS) : Nat :=
  1 +
  (v.Suspend - 1) * (M.SharedInfo * M.Evtchn * M.Debug * M.Store * M.RangeSet * M.Cache *
    M.Gnttab * M.Emulated * M.Unplug) +
  (v.SharedInfo - 1) * (M.Evtchn * M.Debug * M.Store * M.RangeSet * M.Cache * M.Gnttab *
    M.Emulated * M.Unplug) +
  (v.Evtchn - 1) * (M.Debug * M.Store * M.RangeSet * M.Cache * M.Gnttab * M.Emulated *
    M.Unplug) +
  (v.Debug - 1) * (M.Store * M.RangeSet * M.Cache * M.Gnttab * M.Emulated * M.Unplug) +
  (v.Store - 1) * (M.RangeSet * M.Cache * M.Gnttab * M.Emulated * M.Unplug) +
  (v.RangeSet - 1) * (M.Cache * M.Gnttab * M.Emulated * M.Unplug) +
  (v.Cache - 1) * (M.Gnttab * M.Emulated * M.Unplug) +
  (v.Gnttab - 1) * (M.Emulated * M.Unplug) +
  (v.Emulated - 1) * M.Unplug +
  (v.Unplug - 1)

/-! ## Further sample requests and nodes -/

/-- The suspend facility accepts `Acquire` and refuses `Register`. -/
def suspendRegisterFails : SUSPEND_OUTCOME :=
  { Acquire := STATUS_SUCCESS, Register := STATUS_UNSUCCESSFUL, Callback := 7 }

/-- A request to set the device power state to D3 as part of a shutdown. -/
def shutdownIrp : IRP :=
  { sampleIrp with
    DeviceState := DEVICE_POWER_STATE.PowerDeviceD3
    ShutdownType := POWER_ACTION.PowerActionShutdown }

/-- The request at address 1 asks to power the device up; every other request is part of
a shutdown. -/
def shutdownAfterFirst : Nat → IRP := fun Irp =>
  if Irp = 1 then sampleIrp else shutdownIrp

/-- The sample node flagged missing, after a device-power request was submitted at
address 1 and before the worker has taken it. -/
def missingNodeWithPendingRequest : State :=
  (PdoSetPower (fun _ => sampleIrp) 1 missingNode).state

/-- The sample node flagged missing, in D3, with a late-resume callback handle in the
node structure. -/
def missingNodeWithHandle : State :=
  { missingNode with Pdo := { missingNode.Pdo with SuspendCallbackLate := some 7 } }

/-! ## Plug-and-play state machine: checked properties -/

theorem freeDescriptions_run (n : Nat) : ∀ (i : Nat) (s : State),
    PdoDestroy.freeDescriptions n i s = Run.done () { s with
      Log := s.Log ++ (List.range' i n).map
        (fun k => EVENT.FreeDescription k ((s.Pdo.Description.getD [])[k]?)) } := by
  induction n with
  | zero => intro i s; simp [PdoDestroy.freeDescriptions, Pure.pure, M.pure]
  | succ n ih =>
    intro i s
    simp [PdoDestroy.freeDescriptions, Bind.bind, M.bind, getState, emit, ih, List.range'_succ]

theorem PdoDestroy_run (s : State) (hD : s.Dx.DevicePnpState = DEVICE_PNP_STATE.Deleted)
    (hM : s.Pdo.Missing = true) :
    PdoDestroy s =
      if s.Pdo.SystemPowerIrp.isNone && s.Pdo.DevicePowerIrp.isNone &&
          s.Pdo.SuspendCallbackLate.isNone then
        Run.done () { s with Pdo := clearedPdo s.Pdo,
                             Log := s.Log ++ destroyCalls s ++ [EVENT.FreePdo, EVENT.IoDeleteDevice] }
      else
        Run.bugcheck ASSERTION.DestroyZeroMemory
          { s with Pdo := clearedPdo s.Pdo, Log := s.Log ++ destroyCalls s } := by
  cases h1 : s.Pdo.SystemPowerIrp <;> cases h2 : s.Pdo.DevicePowerIrp <;>
    cases h3 : s.Pdo.SuspendCallbackLate <;>
    simp [PdoDestroy, Bind.bind, M.bind, getState, emit, ASSERT, __PdoGetDevicePnpState,
      __PdoIsMissing, hD, hM, freeDescriptions_run, IsZeroMemory, clearedPdo, destroyCalls,
      __PdoGetName, h1, h2, h3]

/-- The law of query and cancel, which is the part of C1 the code keeps: for a node whose
PnP state is not Deleted, QueryStop then CancelStop, and QueryRemove then CancelRemove,
both complete with success and leave the PnP state and the device power state as they
were; hence Start, QueryRemove, CancelRemove ends in Started with the device power Start
left, which is D0 when the suspend facility accepted both calls of Start. -/
theorem query_then_cancel_restores (s : State)
    (h : s.Dx.DevicePnpState ≠ DEVICE_PNP_STATE.Deleted) :
    (∃ s1 s2, PdoQueryStopDevice s = Run.done STATUS_SUCCESS s1 ∧
        PdoCancelStopDevice s1 = Run.done STATUS_SUCCESS s2 ∧
        s2.Dx.DevicePnpState = s.Dx.DevicePnpState ∧
        s2.Dx.DevicePowerState = s.Dx.DevicePowerState) ∧
    (∃ s1 s2, PdoQueryRemoveDevice s = Run.done STATUS_SUCCESS s1 ∧
        PdoCancelRemoveDevice s1 = Run.done STATUS_SUCCESS s2 ∧
        s2.Dx.DevicePnpState = s.Dx.DevicePnpState ∧
        s2.Dx.DevicePowerState = s.Dx.DevicePowerState) ∧
    (∀ (raw translated : CM_RESOURCE_LIST) (o : SUSPEND_OUTCOME),
        raw.Expected → translated.Expected →
        s.Dx.DevicePowerState = DEVICE_POWER_STATE.PowerDeviceD3 →
        ∃ s1 s2 s3, PdoStartDevice raw translated o s = Run.done STATUS_SUCCESS s1 ∧
          PdoQueryRemoveDevice s1 = Run.done STATUS_SUCCESS s2 ∧
          PdoCancelRemoveDevice s2 = Run.done STATUS_SUCCESS s3 ∧
          s3.Dx.DevicePnpState = DEVICE_PNP_STATE.Started ∧
          s3.Dx.DevicePowerState = s1.Dx.DevicePowerState ∧
          (NT_SUCCESS o.Acquire = true → NT_SUCCESS o.Register = true →
            s3.Dx.DevicePowerState = DEVICE_POWER_STATE.PowerDeviceD0)) := by
  refine ⟨?_, ?_, ?_⟩
  · simp [PdoQueryStopDevice, PdoCancelStopDevice, Bind.bind, M.bind, Pure.pure, M.pure,
      __PdoSetDevicePnpState, __PdoRestoreDevicePnpState, emit, h]
  · simp [PdoQueryRemoveDevice, PdoCancelRemoveDevice, Bind.bind, M.bind, Pure.pure, M.pure,
      __PdoSetDevicePnpState, __PdoRestoreDevicePnpState, emit, h]
  · intro raw translated o hr ht hp
    obtain ⟨hr1, hr2, hr3⟩ := hr
    obtain ⟨ht1, ht2, ht3⟩ := ht
    by_cases ha : NT_SUCCESS o.Acquire = true <;> by_cases hg : NT_SUCCESS o.Register = true <;>
      simp [PdoStartDevice, PdoParseResources, PdoD3ToD0, __PdoD3ToD0, __PdoD0ToD3,
        SuspendRegister, PdoQueryRemoveDevice, PdoCancelRemoveDevice, Bind.bind, M.bind,
        Pure.pure, M.pure, __PdoSetDevicePnpState, __PdoRestoreDevicePnpState, __PdoSetDevicePowerState,
        __PdoGetDevicePowerState, getState, emit, ASSERT, h, hr1, hr2, hr3, ht1, ht2, ht3, hp, ha, hg]

/-- The law of query and cancel at the sample node. -/
theorem query_then_cancel_restores_witness :
    sampleNode.Dx.DevicePnpState ≠ DEVICE_PNP_STATE.Deleted ∧
    ∃ s1 s2, PdoQueryStopDevice sampleNode = Run.done STATUS_SUCCESS s1 ∧
        PdoCancelStopDevice s1 = Run.done STATUS_SUCCESS s2 ∧
        s2.Dx.DevicePnpState = sampleNode.Dx.DevicePnpState ∧
        s2.Dx.DevicePowerState = sampleNode.Dx.DevicePowerState :=
  ⟨by decide, (query_then_cancel_restores sampleNode (by decide)).1⟩

/-- C2: on a node whose PnP state is Deleted, setting any state other than Deleted trips
the setter's assertion (the node is left untouched), setting Deleted leaves Deleted, and
restoring from StopPending or from RemovePending changes nothing. -/
theorem deleted_has_no_outgoing_transition (s : State)
    (h : s.Dx.DevicePnpState = DEVICE_PNP_STATE.Deleted) :
    (∀ st : DEVICE_PNP_STATE, st ≠ DEVICE_PNP_STATE.Deleted →
        __PdoSetDevicePnpState st s = Run.bugcheck ASSERTION.PnpStateNotDeleted s ∧
        PdoSetDevicePnpState st s = Run.bugcheck ASSERTION.PnpStateNotDeleted s) ∧
    (∃ t, __PdoSetDevicePnpState DEVICE_PNP_STATE.Deleted s = Run.done () t ∧
        t.Dx.DevicePnpState = DEVICE_PNP_STATE.Deleted) ∧
    __PdoRestoreDevicePnpState DEVICE_PNP_STATE.StopPending s = Run.done () s ∧
    __PdoRestoreDevicePnpState DEVICE_PNP_STATE.RemovePending s = Run.done () s ∧
    (∀ st : DEVICE_PNP_STATE,
        (∃ t, __PdoSetDevicePnpState st s = Run.bugcheck ASSERTION.PnpStateNotDeleted t) ∨
        (__PdoSetDevicePnpState st s).state.Dx.DevicePnpState = DEVICE_PNP_STATE.Deleted) := by
  refine ⟨?_, ?_, ?_, ?_, ?_⟩
  · intro st hst
    simp [PdoSetDevicePnpState, __PdoSetDevicePnpState, h, hst]
  · simp [__PdoSetDevicePnpState, h]
  · simp [__PdoRestoreDevicePnpState, h]
  · simp [__PdoRestoreDevicePnpState, h]
  · intro st
    by_cases hst : st = DEVICE_PNP_STATE.Deleted
    · right; simp [__PdoSetDevicePnpState, h, hst, Run.state]
    · left; exact ⟨s, by simp [__PdoSetDevicePnpState, h, hst]⟩

/-- Witness for C2: the sample node with its PnP state set to Deleted. -/
theorem deleted_has_no_outgoing_transition_witness :
    ({ sampleNode with Dx := { sampleNode.Dx with DevicePnpState := DEVICE_PNP_STATE.Deleted } }
        : State).Dx.DevicePnpState = DEVICE_PNP_STATE.Deleted ∧
    __PdoRestoreDevicePnpState DEVICE_PNP_STATE.StopPending
      { sampleNode with Dx := { sampleNode.Dx with DevicePnpState := DEVICE_PNP_STATE.Deleted } } =
      Run.done ()
      { sampleNode with Dx := { sampleNode.Dx with DevicePnpState := DEVICE_PNP_STATE.Deleted } } :=
  ⟨rfl, (deleted_has_no_outgoing_transition
    { sampleNode with Dx := { sampleNode.Dx with DevicePnpState := DEVICE_PNP_STATE.Deleted } }
    rfl).2.2.1⟩

theorem PdoD0ToD3_run (s : State)
    (hp : s.Dx.DevicePowerState = DEVICE_POWER_STATE.PowerDeviceD0) :
    PdoD0ToD3 s = Run.done () (poweredDown s) := by
  simp [PdoD0ToD3, __PdoD0ToD3, Bind.bind, M.bind, getState, emit, ASSERT,
    __PdoGetDevicePowerState, __PdoSetDevicePowerState, hp, poweredDown]

theorem PdoRemoveDevice_missing (s : State) (hm : s.Pdo.Missing = true) :
    PdoRemoveDevice s =
      released (PdoDestroy (withPnpState DEVICE_PNP_STATE.Deleted (removeEntry s))) := by
  by_cases hp : s.Dx.DevicePowerState = DEVICE_POWER_STATE.PowerDeviceD0 <;>
  · simp [PdoRemoveDevice, Bind.bind, M.bind, getState, __PdoGetDevicePowerState, hp,
      PdoD0ToD3_run, emit, __PdoIsMissing, __PdoGetDevicePnpState,
      __PdoSetDevicePnpState, removeEntry, withPnpState, released, Pure.pure, M.pure,
      poweredDown, hm]

theorem PdoRemoveDevice_not_missing (s : State) (hm : s.Pdo.Missing = false)
    (h : s.Dx.DevicePnpState ≠ DEVICE_PNP_STATE.Deleted) :
    PdoRemoveDevice s =
      released (Run.done ()
        (withPnpState
          (if s.Dx.DevicePnpState = DEVICE_PNP_STATE.SurpriseRemovePending
            then DEVICE_PNP_STATE.Deleted else DEVICE_PNP_STATE.Enumerated)
          (removeEntry s))) := by
  by_cases hp : s.Dx.DevicePowerState = DEVICE_POWER_STATE.PowerDeviceD0 <;>
    by_cases hs : s.Dx.DevicePnpState = DEVICE_PNP_STATE.SurpriseRemovePending <;>
    simp [PdoRemoveDevice, Bind.bind, M.bind, getState, __PdoGetDevicePowerState, hp,
      PdoD0ToD3_run, emit, __PdoIsMissing, __PdoGetDevicePnpState,
      __PdoSetDevicePnpState, removeEntry, withPnpState, released, Pure.pure, M.pure,
      poweredDown, hm, hs, h]

theorem PdoRemoveDevice_deleted_not_missing (s : State) (hm : s.Pdo.Missing = false)
    (h : s.Dx.DevicePnpState = DEVICE_PNP_STATE.Deleted) :
    PdoRemoveDevice s = Run.bugcheck ASSERTION.PnpStateNotDeleted (removeEntry s) := by
  by_cases hp : s.Dx.DevicePowerState = DEVICE_POWER_STATE.PowerDeviceD0 <;>
    simp [PdoRemoveDevice, Bind.bind, M.bind, getState, __PdoGetDevicePowerState, hp,
      PdoD0ToD3_run, emit, __PdoIsMissing, __PdoGetDevicePnpState,
      __PdoSetDevicePnpState, removeEntry, poweredDown, hm, h, Pure.pure, M.pure]

/-- C3: on a node whose PnP state on entry is not Deleted, Remove never trips the
setter's assertion and writes the PnP state once: Deleted when the node is missing or was
SurpriseRemovePending on entry, Enumerated otherwise. -/
theorem remove_sets_deleted_or_enumerated (s : State)
    (h : s.Dx.DevicePnpState ≠ DEVICE_PNP_STATE.Deleted) :
    ∃ t, (PdoRemoveDevice s = Run.done STATUS_SUCCESS t ∨
          PdoRemoveDevice s = Run.bugcheck ASSERTION.DestroyZeroMemory t) ∧
      t.Dx.PreviousDevicePnpState = s.Dx.DevicePnpState ∧
      (s.Pdo.Missing = true ∨ s.Dx.DevicePnpState = DEVICE_PNP_STATE.SurpriseRemovePending →
        t.Dx.DevicePnpState = DEVICE_PNP_STATE.Deleted) ∧
      (¬ (s.Pdo.Missing = true ∨ s.Dx.DevicePnpState = DEVICE_PNP_STATE.SurpriseRemovePending) →
        t.Dx.DevicePnpState = DEVICE_PNP_STATE.Enumerated) := by
  have hpnp : (removeEntry s).Dx.DevicePnpState = s.Dx.DevicePnpState := by
    unfold removeEntry poweredDown; split <;> rfl
  have hmis : (removeEntry s).Pdo.Missing = s.Pdo.Missing := by
    unfold removeEntry poweredDown; split <;> rfl
  cases hm : s.Pdo.Missing
  · rw [PdoRemoveDevice_not_missing s hm h]
    by_cases hs : s.Dx.DevicePnpState = DEVICE_PNP_STATE.SurpriseRemovePending <;>
      simp [released, withPnpState, hpnp, hs]
  · rw [PdoRemoveDevice_missing s hm,
      PdoDestroy_run _ (by simp [withPnpState]) (by simp [withPnpState, hmis, hm])]
    split <;> simp [released, withPnpState, clearedPdo, hpnp]

/-- Witness for C3 at the sample node. -/
theorem remove_sets_deleted_or_enumerated_witness :
    sampleNode.Dx.DevicePnpState ≠ DEVICE_PNP_STATE.Deleted ∧
    ∃ t, (PdoRemoveDevice sampleNode = Run.done STATUS_SUCCESS t ∨
          PdoRemoveDevice sampleNode = Run.bugcheck ASSERTION.DestroyZeroMemory t) ∧
      t.Dx.PreviousDevicePnpState = sampleNode.Dx.DevicePnpState ∧
      (sampleNode.Pdo.Missing = true ∨
          sampleNode.Dx.DevicePnpState = DEVICE_PNP_STATE.SurpriseRemovePending →
        t.Dx.DevicePnpState = DEVICE_PNP_STATE.Deleted) ∧
      (¬ (sampleNode.Pdo.Missing = true ∨
          sampleNode.Dx.DevicePnpState = DEVICE_PNP_STATE.SurpriseRemovePending) →
        t.Dx.DevicePnpState = DEVICE_PNP_STATE.Enumerated) :=
  ⟨by decide, remove_sets_deleted_or_enumerated sampleNode (by decide)⟩

theorem PdoStartDevice_run (raw translated : CM_RESOURCE_LIST) (o : SUSPEND_OUTCOME) (s : State)
    (hr : raw.Expected) (ht : translated.Expected)
    (hp : s.Dx.DevicePowerState = DEVICE_POWER_STATE.PowerDeviceD3)
    (h : s.Dx.DevicePnpState ≠ DEVICE_PNP_STATE.Deleted) :
    ∃ s1, PdoStartDevice raw translated o s = Run.done STATUS_SUCCESS s1 ∧
      s1.Dx.DevicePnpState = DEVICE_PNP_STATE.Started ∧
      s1.Pdo.Missing = s.Pdo.Missing ∧
      s1.Pdo.SystemPowerIrp = s.Pdo.SystemPowerIrp ∧
      s1.Pdo.DevicePowerIrp = s.Pdo.DevicePowerIrp ∧
      ((NT_SUCCESS o.Acquire = true ∧ NT_SUCCESS o.Register = true ∧
          s1.Dx.DevicePowerState = DEVICE_POWER_STATE.PowerDeviceD0 ∧
          s1.Pdo.SuspendCallbackLate = some o.Callback) ∨
       (¬ (NT_SUCCESS o.Acquire = true ∧ NT_SUCCESS o.Register = true) ∧
          s1.Dx.DevicePowerState = DEVICE_POWER_STATE.PowerDeviceD3 ∧
          s1.Pdo.SuspendCallbackLate = s.Pdo.SuspendCallbackLate)) := by
  obtain ⟨hr1, hr2, hr3⟩ := hr
  obtain ⟨ht1, ht2, ht3⟩ := ht
  by_cases ha : NT_SUCCESS o.Acquire = true <;> by_cases hg : NT_SUCCESS o.Register = true <;>
    simp [PdoStartDevice, PdoParseResources, PdoD3ToD0, __PdoD3ToD0, __PdoD0ToD3,
      SuspendRegister, Bind.bind, M.bind, Pure.pure, M.pure, __PdoSetDevicePnpState,
      __PdoSetDevicePowerState, __PdoGetDevicePowerState, getState, emit, ASSERT, h,
      hr1, hr2, hr3, ht1, ht2, ht3, hp, ha, hg]

theorem remove_missing_run (s : State) (hm : s.Pdo.Missing = true) :
    ∃ t new, (PdoRemoveDevice s = Run.done STATUS_SUCCESS t ∨
              PdoRemoveDevice s = Run.bugcheck ASSERTION.DestroyZeroMemory t) ∧
      t.Dx.DevicePnpState = DEVICE_PNP_STATE.Deleted ∧
      t.Log = s.Log ++ new ∧
      EVENT.FdoRemovePhysicalDeviceObject ∈ new ∧
      EVENT.InfoDestroy s.Dx.Name s.Pdo.Reason ∈ new ∧
      EVENT.IoInvalidateDeviceRelations ∉ new ∧
      (s.Pdo.SystemPowerIrp = none → s.Pdo.DevicePowerIrp = none →
        (s.Pdo.SuspendCallbackLate ≠ none →
          s.Dx.DevicePowerState = DEVICE_POWER_STATE.PowerDeviceD0) →
        PdoRemoveDevice s = Run.done STATUS_SUCCESS t ∧
        ∃ before, new = before ++ [EVENT.FreePdo, EVENT.IoDeleteDevice,
          EVENT.FdoReleaseMutex, EVENT.IoCompleteRequest STATUS_SUCCESS]) := by
  have hmis : (removeEntry s).Pdo.Missing = true := by
    unfold removeEntry poweredDown; split <;> simpa using hm
  rw [PdoRemoveDevice_missing s hm,
    PdoDestroy_run _ (by simp [withPnpState]) (by simp [withPnpState, hmis])]
  by_cases hp : s.Dx.DevicePowerState = DEVICE_POWER_STATE.PowerDeviceD0
  · cases h1 : s.Pdo.SystemPowerIrp <;> cases h2 : s.Pdo.DevicePowerIrp <;>
      simp [released, withPnpState, clearedPdo, removeEntry, poweredDown, destroyCalls, hp,
        h1, h2, List.append_assoc]
    exact ⟨[EVENT.SuspendDeregister s.Pdo.SuspendCallbackLate,
        EVENT.PoSetPowerState DEVICE_POWER_STATE.PowerDeviceD3,
        EVENT.SetDevicePowerState DEVICE_POWER_STATE.PowerDeviceD3,
        EVENT.SuspendRelease, EVENT.FdoAcquireMutex, EVENT.FdoRemovePhysicalDeviceObject,
        EVENT.InfoDestroy s.Dx.Name s.Pdo.Reason, EVENT.BusTeardown] ++
      List.map (fun k => EVENT.FreeDescription k ((s.Pdo.Description.getD [])[k]?))
        (List.range' 0 s.Pdo.Count) ++
      [EVENT.FreeDescriptionArray, EVENT.FreeRevisionArray], by simp⟩
  · cases h1 : s.Pdo.SystemPowerIrp <;> cases h2 : s.Pdo.DevicePowerIrp <;>
      cases h3 : s.Pdo.SuspendCallbackLate <;>
      simp [released, withPnpState, clearedPdo, removeEntry, destroyCalls, hp,
        h1, h2, h3, List.append_assoc]
    exact ⟨[EVENT.FdoAcquireMutex, EVENT.FdoRemovePhysicalDeviceObject,
        EVENT.InfoDestroy s.Dx.Name s.Pdo.Reason, EVENT.BusTeardown] ++
      List.map (fun k => EVENT.FreeDescription k ((s.Pdo.Description.getD [])[k]?))
        (List.range' 0 s.Pdo.Count) ++
      [EVENT.FreeDescriptionArray, EVENT.FreeRevisionArray], by simp⟩

theorem PdoEject_run (s : State) :
    PdoEject s =
      released (PdoDestroy
        { withPnpState DEVICE_PNP_STATE.Deleted s with
          Pdo := { s.Pdo with Reason := some "device ejected", Missing := true }
          Log := s.Log ++ [EVENT.FdoAcquireMutex] }) := by
  simp [PdoEject, Bind.bind, M.bind, Pure.pure, M.pure, emit, __PdoSetDevicePnpState,
    __PdoSetMissing, withPnpState, released]

/-- C5, at the failing input: Eject on the sample node after a successful Start (Started,
D0, late-resume callback 7 registered, both mailboxes empty) sets Deleted, marks the node
missing with reason "device ejected" and enters `PdoDestroy`, but the callback is still
registered, so the final assertion of `PdoDestroy` stops the run before the node is freed
and the device deleted. -/
theorem eject_started_node_trips_final_assertion :
    startedNode.Dx.DevicePnpState = DEVICE_PNP_STATE.Started ∧
    startedNode.Dx.DevicePowerState = DEVICE_POWER_STATE.PowerDeviceD0 ∧
    startedNode.Pdo.SuspendCallbackLate = some 7 ∧
    startedNode.Pdo.SystemPowerIrp = none ∧ startedNode.Pdo.DevicePowerIrp = none ∧
    PdoEject startedNode =
      Run.bugcheck ASSERTION.DestroyZeroMemory (PdoEject startedNode).state ∧
    (PdoEject startedNode).state.Dx.DevicePnpState = DEVICE_PNP_STATE.Deleted ∧
    (PdoEject startedNode).state.Pdo.SuspendCallbackLate = some 7 ∧
    EVENT.InfoDestroy "vif" (some "device ejected") ∈ (PdoEject startedNode).state.Log ∧
    EVENT.FreePdo ∉ (PdoEject startedNode).state.Log ∧
    EVENT.IoDeleteDevice ∉ (PdoEject startedNode).state.Log := by
  decide

/-- C6, at the failing input: when the suspend facility refuses `Acquire`, Start on the
sample node (Present, D3, expected resource lists) still completes with success and sets
Started, but the device power state stays D3 and no callback is registered; the Stop that
follows then trips the D0 assertion of `__PdoD0ToD3`. -/
theorem start_ignores_failed_power_up :
    sampleNode.Dx.DevicePowerState = DEVICE_POWER_STATE.PowerDeviceD3 ∧
    sampleNode.Dx.DevicePnpState ≠ DEVICE_PNP_STATE.Deleted ∧
    sampleResources.Expected ∧
    NT_SUCCESS suspendAcquireFails.Acquire = false ∧
    ∃ t, PdoStartDevice sampleResources sampleResources suspendAcquireFails sampleNode =
        Run.done STATUS_SUCCESS t ∧
      t.Dx.DevicePnpState = DEVICE_PNP_STATE.Started ∧
      t.Dx.DevicePowerState = DEVICE_POWER_STATE.PowerDeviceD3 ∧
      t.Pdo.SuspendCallbackLate = none ∧
      ∃ u, PdoStopDevice t = Run.bugcheck ASSERTION.DevicePowerIsD0 u := by
  refine ⟨by decide, by decide, by decide, by decide,
    (PdoStartDevice sampleResources sampleResources suspendAcquireFails sampleNode).state,
    by decide, by decide, by decide, by decide, ?_⟩
  exact ⟨(PdoStopDevice
    (PdoStartDevice sampleResources sampleResources suspendAcquireFails sampleNode).state).state,
    by decide⟩


/-! ## Revision table: the enumeration in closed form -/

theorem loops_eq_nest (b : BUILD) (pool : Nat → Bool) (fuel Revision : Nat) (s : State) :
    PdoSetRevisions.loops b pool fuel Revision s =
      nest (fun c Revision s => some (PdoSetRevisions.body b pool (VERSIONS.ofList c) Revision s))
        fuel b.MAX.toList [] Revision s := rfl

theorem repr_length_ULONG (n : Nat) (h : n < 2 ^ 32) : (Nat.repr n).length ≤ 10 :=
  Nat.repr_length n 10 (by norm_num) (lt_trans h (by norm_num))

theorem text_length_le (d : DESCRIPTION)
    (h : ∀ x ∈ d.Versions.toList, x < 2 ^ 32) :
    d.Text.length ≤ d.FdoName.length + d.PdoName.length + 200 := by
  simp only [VERSIONS.toList, List.mem_cons, List.mem_singleton, List.not_mem_nil, or_false,
    forall_eq_or_imp, forall_eq] at h
  obtain ⟨h1, h2, h3, h4, h5, h6, h7, h8, h9, h10⟩ := h
  have l1 := repr_length_ULONG _ h1
  have l2 := repr_length_ULONG _ h2
  have l3 := repr_length_ULONG _ h3
  have l4 := repr_length_ULONG _ h4
  have l5 := repr_length_ULONG _ h5
  have l6 := repr_length_ULONG _ h6
  have l7 := repr_length_ULONG _ h7
  have l8 := repr_length_ULONG _ h8
  have l9 := repr_length_ULONG _ h9
  have l10 := repr_length_ULONG _ h10
  simp only [DESCRIPTION.Text, String.length_append]
  have e1 : " ".length = 1 := by decide
  have e2 : ": ".length = 2 := by decide
  have e3 : "SUSPEND v".length = 9 := by decide
  have e4 : "SHARED_INFO v".length = 13 := by decide
  have e5 : "EVTCHN v".length = 8 := by decide
  have e6 : "DEBUG v".length = 7 := by decide
  have e7 : "STORE v".length = 7 := by decide
  have e8 : "RANGE_SET v".length = 11 := by decide
  have e9 : "CACHE v".length = 7 := by decide
  have e10 : "GNTTAB v".length = 8 := by decide
  have e11 : "EMULATED v".length = 10 := by decide
  have e12 : "UNPLUG v".length = 8 := by decide
  rw [e1, e2, e3, e4, e5, e6, e7, e8, e9, e10, e11, e12]
  omega

theorem PdoAddRevision_run (pool : Nat → Bool) (hpool : ∀ n, pool n = true) (Revision : Nat)
    (v : VERSIONS) (s : State) (hfit : NamesFit s) (hv : ∀ x ∈ v.toList, x < 2 ^ 32) :
    PdoAddRevision pool Revision v s =
      Run.done STATUS_SUCCESS
        (addEntry s Revision { FdoName := s.Fdo.Name, PdoName := s.Dx.Name, Versions := v }) := by
  have hlen := text_length_le { FdoName := s.Fdo.Name, PdoName := s.Dx.Name, Versions := v } hv
  have hok : 2 * ((DESCRIPTION.Text
      { FdoName := s.Fdo.Name, PdoName := s.Dx.Name, Versions := v }).length + 1) ≤ MAXTEXTLEN := by
    unfold NamesFit at hfit
    simp only [MAXTEXTLEN]
    simp only at hlen
    omega
  simp [PdoAddRevision, Bind.bind, M.bind, Pure.pure, M.pure, getState, __PdoAllocate, hpool,
    ASSERT, __PdoGetName, hok, addEntry]

theorem ofList_lt (c : List Nat) (h : ∀ x ∈ c, x < 2 ^ 32) :
    ∀ x ∈ (VERSIONS.ofList c).toList, x < 2 ^ 32 := by
  unfold VERSIONS.ofList
  split
  · simpa [VERSIONS.toList] using h
  · simp [VERSIONS.toList]

theorem addEntries_append (s : State) (xs ys : List (Nat × DESCRIPTION)) :
    addEntries s (xs ++ ys) = addEntries (addEntries s xs) ys := by
  simp [addEntries, List.foldl_append]

theorem addEntries_names (es : List (Nat × DESCRIPTION)) : ∀ s : State,
    (addEntries s es).Fdo = s.Fdo ∧ (addEntries s es).Dx = s.Dx ∧
    (addEntries s es).Log = s.Log := by
  induction es with
  | nil => intro s; simp [addEntries]
  | cons e es ih =>
    intro s
    have := ih (addEntry s e.1 e.2)
    simpa [addEntries, addEntry] using this

theorem addEntries_fit (s : State) (es : List (Nat × DESCRIPTION)) (h : NamesFit s) :
    NamesFit (addEntries s es) := by
  obtain ⟨h1, h2, _⟩ := addEntries_names es s
  unfold NamesFit at *
  rw [h1, h2]; exact h

theorem body_run (b : BUILD) (pool : Nat → Bool) (hpool : ∀ n, pool n = true) (c : List Nat)
    (hc : ∀ x ∈ c, x < 2 ^ 32) (base : Nat) (s : State) (hfit : NamesFit s) :
    PdoSetRevisions.body b pool (VERSIONS.ofList c) (base % 2 ^ 32) s =
      Flow.next ((base + 1) % 2 ^ 32)
        (addEntries s ((if b.supported c then [(base + 1, c)] else []).map
          (entryOf s.Fdo.Name s.Dx.Name))) := by
  have hmod : (base % 2 ^ 32 + 1) % 2 ^ 32 = (base + 1) % 2 ^ 32 := by omega
  by_cases hs : VERSIONS.AtLeast b.MIN (VERSIONS.ofList c)
  · have hs2 : b.supported c = true := by simp [BUILD.supported, hs]
    have hs3 := hs
    unfold VERSIONS.AtLeast at hs3
    simp only [PdoSetRevisions.body, ge_iff_le, hs3, and_self, if_true, hmod,
      PdoAddRevision_run pool hpool _ _ s hfit (ofList_lt c hc), hs2]
    simp [NT_SUCCESS, STATUS_SUCCESS, addEntries, entryOf]
  · have hs2 : b.supported c = false := by simp [BUILD.supported, hs]
    have hs3 := hs
    unfold VERSIONS.AtLeast at hs3
    simp only [PdoSetRevisions.body, ge_iff_le, hs3, if_false, hmod, hs2]
    simp [addEntries]

theorem forULONG_run (MAX : Nat) (hM : MAX + 1 < 2 ^ 32)
    (body : Nat → Nat → State → Option Flow) (f : Nat → Nat → List (Nat × List Nat)) (K : Nat)
    (fdo pdo : String)
    (hbody : ∀ v, v ≤ MAX → ∀ (base : Nat) (s : State), NamesFit s → s.Fdo.Name = fdo →
      s.Dx.Name = pdo →
      body v (base % 2 ^ 32) s = some (Flow.next ((base + K) % 2 ^ 32)
        (addEntries s ((f v base).map (entryOf fdo pdo))))) :
    ∀ (n a fuel base : Nat) (s : State), a + n = MAX + 1 → n < fuel → NamesFit s →
      s.Fdo.Name = fdo → s.Dx.Name = pdo →
      forULONG MAX body fuel a (base % 2 ^ 32) s =
        some (Flow.next ((base + n * K) % 2 ^ 32)
          (addEntries s ((entsRange f K n a base).map (entryOf fdo pdo)))) := by
  intro n
  induction n with
  | zero =>
    intro a fuel base s ha hfuel _ _ _
    obtain ⟨fuel, rfl⟩ : ∃ k, fuel = k + 1 := ⟨fuel - 1, by omega⟩
    have : ¬ a ≤ MAX := by omega
    simp [forULONG, this, entsRange, addEntries]
  | succ n ih =>
    intro a fuel base s ha hfuel hfit hfdo hpdo
    obtain ⟨fuel, rfl⟩ : ∃ k, fuel = k + 1 := ⟨fuel - 1, by omega⟩
    have hle : a ≤ MAX := by omega
    have hwrap : (a + 1) % 2 ^ 32 = a + 1 := Nat.mod_eq_of_lt (by omega)
    obtain ⟨n1, n2, _⟩ := addEntries_names ((f a base).map (entryOf fdo pdo)) s
    have hnext := ih (a + 1) fuel (base + K)
      (addEntries s ((f a base).map (entryOf fdo pdo))) (by omega) (by omega)
      (addEntries_fit s _ hfit) (by rw [n1]; exact hfdo) (by rw [n2]; exact hpdo)
    simp only [forULONG, hle, if_true, hbody a hle base s hfit hfdo hpdo, hwrap, hnext,
      entsRange, List.map_append, addEntries_append]
    congr 3
    ring

theorem forULONG_never_returns (MAX : Nat) (hM : 2 ^ 32 - 1 ≤ MAX)
    (body : Nat → Nat → State → Option Flow)
    (hbody : ∀ v r s, ∃ r1 s1, body v r s = some (Flow.next r1 s1)) :
    ∀ (fuel v r : Nat) (s : State), v < 2 ^ 32 → forULONG MAX body fuel v r s = none := by
  intro fuel
  induction fuel with
  | zero => intro v r s _; rfl
  | succ fuel ih =>
    intro v r s hv
    obtain ⟨r1, s1, hb⟩ := hbody v r s
    have hle : v ≤ MAX := by omega
    simp only [forULONG, hle, if_true, hb]
    exact ih _ r1 s1 (Nat.mod_lt _ (by norm_num))

theorem nest_run (b : BUILD) (pool : Nat → Bool) (hpool : ∀ n, pool n = true) (fuel : Nat) :
    ∀ (ms pre : List Nat) (base : Nat) (s : State),
      (∀ m ∈ ms, m + 1 < 2 ^ 32) → (∀ m ∈ ms, m < fuel) → (∀ x ∈ pre, x < 2 ^ 32) →
      NamesFit s →
      nest (fun c Revision s =>
          some (PdoSetRevisions.body b pool (VERSIONS.ofList c) Revision s))
        fuel ms pre (base % 2 ^ 32) s =
      some (Flow.next ((base + ms.prod) % 2 ^ 32)
        (addEntries s ((ents b.supported ms pre base).map
          (entryOf s.Fdo.Name s.Dx.Name)))) := by
  intro ms
  induction ms with
  | nil =>
    intro pre base s _ _ hpre hfit
    simp only [nest, ents, List.prod_nil, body_run b pool hpool pre hpre base s hfit]
  | cons m ms ih =>
    intro pre base s hM hfuel hpre hfit
    have hM1 : m + 1 < 2 ^ 32 := hM m (List.mem_cons_self _ _)
    have hbody : ∀ v, v ≤ m → ∀ (base : Nat) (t : State), NamesFit t →
        t.Fdo.Name = s.Fdo.Name → t.Dx.Name = s.Dx.Name →
        (fun v Revision s => nest (fun c Revision s =>
            some (PdoSetRevisions.body b pool (VERSIONS.ofList c) Revision s))
          fuel ms (pre ++ [v]) Revision s) v (base % 2 ^ 32) t =
        some (Flow.next ((base + ms.prod) % 2 ^ 32)
          (addEntries t (((fun v k => ents b.supported ms (pre ++ [v]) k) v base).map
            (entryOf s.Fdo.Name s.Dx.Name)))) := by
      intro v hv base t htfit hfdo hpdo
      have := ih (pre ++ [v]) base t (fun x hx => hM x (List.mem_cons_of_mem _ hx))
        (fun x hx => hfuel x (List.mem_cons_of_mem _ hx))
        (by
          intro x hx
          rcases List.mem_append.1 hx with hx | hx
          · exact hpre x hx
          · have : x = v := by simpa using hx
            omega)
        htfit
      rw [hfdo, hpdo] at this
      exact this
    have := forULONG_run m hM1 _ _ ms.prod s.Fdo.Name s.Dx.Name hbody m 1 fuel base s
      (by omega) (hfuel m (List.mem_cons_self _ _)) hfit rfl rfl
    simp only [nest, ents, List.prod_cons]
    exact this

theorem loops_run (b : BUILD) (pool : Nat → Bool) (hpool : ∀ n, pool n = true) (fuel : Nat)
    (s : State) (hterm : b.Terminates) (hfuel : b.Enough fuel) (hfit : NamesFit s) :
    PdoSetRevisions.loops b pool fuel 0 s =
      some (Flow.next (b.MAX.toList.prod % 2 ^ 32)
        (addEntries s (b.entries.map (entryOf s.Fdo.Name s.Dx.Name)))) := by
  have := nest_run b pool hpool fuel b.MAX.toList [] 0 s hterm hfuel (by simp) hfit
  rw [loops_eq_nest]
  simpa [BUILD.entries] using this

theorem addEntries_table (es : List (Nat × DESCRIPTION)) : ∀ s : State,
    s.Pdo.Count = (s.Pdo.Revision.getD []).length →
    s.Pdo.Count = (s.Pdo.Description.getD []).length →
    (es ≠ [] ∨ s.Pdo.Revision.isSome → (addEntries s es).Pdo.Revision =
      some (s.Pdo.Revision.getD [] ++ es.map Prod.fst)) ∧
    (es ≠ [] ∨ s.Pdo.Description.isSome → (addEntries s es).Pdo.Description =
      some (s.Pdo.Description.getD [] ++ es.map (fun e => some e.2))) ∧
    (addEntries s es).Pdo.Count = s.Pdo.Count + es.length ∧
    (es = [] → addEntries s es = s) := by
  induction es with
  | nil =>
    intro s _ _
    refine ⟨?_, ?_, by simp [addEntries], by simp [addEntries]⟩
    · intro h
      rcases h with h | h
      · exact absurd rfl h
      · cases hr : s.Pdo.Revision <;> simp_all [addEntries]
    · intro h
      rcases h with h | h
      · exact absurd rfl h
      · cases hr : s.Pdo.Description <;> simp_all [addEntries]
  | cons e es ih =>
    intro s h1 h2
    have hs1 : (addEntry s e.1 e.2).Pdo.Revision = some (s.Pdo.Revision.getD [] ++ [e.1]) := by
      simp [addEntry, h1, List.takeD_eq_take]
    have hs2 : (addEntry s e.1 e.2).Pdo.Description =
        some (s.Pdo.Description.getD [] ++ [some e.2]) := by
      simp [addEntry, h2, List.takeD_eq_take]
    have hs3 : (addEntry s e.1 e.2).Pdo.Count = s.Pdo.Count + 1 := by simp [addEntry]
    obtain ⟨i1, i2, i3, _⟩ := ih (addEntry s e.1 e.2)
      (by rw [hs1, hs3, h1]; simp) (by rw [hs2, hs3, h2]; simp)
    have e0 : addEntries s (e :: es) = addEntries (addEntry s e.1 e.2) es := by
      simp [addEntries]
    refine ⟨fun _ => ?_, fun _ => ?_, ?_, by simp⟩
    · rw [e0, i1 (Or.inr (by simp [hs1])), hs1]; simp
    · rw [e0, i2 (Or.inr (by simp [hs2])), hs2]; simp
    · rw [e0, i3, hs3]; simp; omega

/-! ## The entries as a list: membership, order, bounds -/

theorem mem_entsRange (f : Nat → Nat → List (Nat × List Nat)) (K : Nat) (x : Nat × List Nat) :
    ∀ (n a base : Nat),
      x ∈ entsRange f K n a base ↔ ∃ i, i < n ∧ x ∈ f (a + i) (base + i * K) := by
  intro n
  induction n with
  | zero => intro a base; simp [entsRange]
  | succ n ih =>
    intro a base
    simp only [entsRange, List.mem_append, ih]
    constructor
    · rintro (h | ⟨i, hi, h⟩)
      · exact ⟨0, by omega, by simpa using h⟩
      · refine ⟨i + 1, by omega, ?_⟩
        have e1 : a + (i + 1) = a + 1 + i := by omega
        have e2 : base + (i + 1) * K = base + K + i * K := by ring
        rw [e1, e2]; exact h
    · rintro ⟨i, hi, h⟩
      cases i with
      | zero => left; simpa using h
      | succ i =>
        right
        refine ⟨i, by omega, ?_⟩
        have e1 : a + (i + 1) = a + 1 + i := by omega
        have e2 : base + (i + 1) * K = base + K + i * K := by ring
        rw [e1, e2] at h; exact h

theorem mem_ents (p : List Nat → Bool) (r : Nat) (c : List Nat) :
    ∀ (ms pre : List Nat) (base : Nat),
      (r, c) ∈ ents p ms pre base ↔
        ∃ suf, c = pre ++ suf ∧ List.Forall₂ (fun m v => 1 ≤ v ∧ v ≤ m) ms suf ∧
          p c = true ∧ r = base + ordinal ms suf := by
  intro ms
  induction ms with
  | nil =>
    intro pre base
    constructor
    · intro h
      by_cases hp : p pre = true
      · simp only [ents, hp, if_true, List.mem_singleton, Prod.mk.injEq] at h
        obtain ⟨rfl, rfl⟩ := h
        exact ⟨[], by simp, List.Forall₂.nil, hp, by simp [ordinal]⟩
      · simp [ents, hp] at h
    · rintro ⟨suf, hc, hf, hp, hr⟩
      cases hf
      simp only [List.append_nil] at hc
      subst hc
      simp [ents, hp, hr, ordinal]
  | cons m ms ih =>
    intro pre base
    simp only [ents, mem_entsRange, ih]
    constructor
    · rintro ⟨i, hi, suf, hc, hf, hp, hr⟩
      refine ⟨(1 + i) :: suf, by simpa using hc, List.Forall₂.cons ⟨by omega, by omega⟩ hf, hp, ?_⟩
      simp only [ordinal, hr]
      have : 1 + i - 1 = i := by omega
      rw [this]; ring
    · rintro ⟨suf, hc, hf, hp, hr⟩
      cases hf with
      | cons hv hf =>
        rename_i v vs
        refine ⟨v - 1, by omega, vs, ?_, hf, hp, ?_⟩
        · have : 1 + (v - 1) = v := by omega
          rw [this, hc]; simp
        · simp only [ordinal] at hr
          rw [hr]; ring

theorem entsRange_sorted (f : Nat → Nat → List (Nat × List Nat)) (K : Nat)
    (hf : ∀ v k, (∀ e ∈ f v k, k < e.1 ∧ e.1 ≤ k + K) ∧
      (f v k).Pairwise (fun x y => x.1 < y.1)) :
    ∀ (n a base : Nat),
      (∀ e ∈ entsRange f K n a base, base < e.1 ∧ e.1 ≤ base + n * K) ∧
      (entsRange f K n a base).Pairwise (fun x y => x.1 < y.1) := by
  intro n
  induction n with
  | zero => intro a base; simp [entsRange]
  | succ n ih =>
    intro a base
    obtain ⟨hb, hs⟩ := hf a base
    obtain ⟨ihb, ihs⟩ := ih (a + 1) (base + K)
    constructor
    · intro e he
      simp only [entsRange, List.mem_append] at he
      rcases he with he | he
      · have := hb e he
        constructor
        · omega
        · have : K ≤ (n + 1) * K := Nat.le_mul_of_pos_left K (by omega)
          omega
      · have := ihb e he
        have e2 : base + (n + 1) * K = base + K + n * K := by ring
        omega
    · simp only [entsRange]
      refine List.pairwise_append.2 ⟨hs, ihs, ?_⟩
      intro x hx y hy
      have := hb x hx
      have := ihb y hy
      omega

theorem ents_sorted (p : List Nat → Bool) :
    ∀ (ms pre : List Nat) (base : Nat),
      (∀ e ∈ ents p ms pre base, base < e.1 ∧ e.1 ≤ base + ms.prod) ∧
      (ents p ms pre base).Pairwise (fun x y => x.1 < y.1) := by
  intro ms
  induction ms with
  | nil =>
    intro pre base
    by_cases hp : p pre = true <;> simp [ents, hp]
  | cons m ms ih =>
    intro pre base
    have := entsRange_sorted (fun v k => ents p ms (pre ++ [v]) k) ms.prod
      (fun v k => ih (pre ++ [v]) k) m 1 base
    simpa [ents, List.prod_cons] using this

theorem toList_ofList (c : List Nat) (h : c.length = 10) : (VERSIONS.ofList c).toList = c := by
  match c, h with
  | [_, _, _, _, _, _, _, _, _, _], _ => rfl

theorem ofList_toList (v : VERSIONS) : VERSIONS.ofList v.toList = v := rfl

theorem toList_length (v : VERSIONS) : v.toList.length = 10 := rfl

theorem forall₂_toList (R : Nat → Nat → Prop) (a v : VERSIONS) :
    List.Forall₂ R a.toList v.toList ↔
      R a.Suspend v.Suspend ∧ R a.SharedInfo v.SharedInfo ∧ R a.Evtchn v.Evtchn ∧
      R a.Debug v.Debug ∧ R a.Store v.Store ∧ R a.RangeSet v.RangeSet ∧
      R a.Cache v.Cache ∧ R a.Gnttab v.Gnttab ∧ R a.Emulated v.Emulated ∧
      R a.Unplug v.Unplug := by
  simp [VERSIONS.toList, List.forall₂_cons]

/-- Membership in the table of build `b`, for a combination given as a list. -/
theorem mem_entries (b : BUILD) (r : Nat) (c : List Nat) :
    (r, c) ∈ b.entries ↔
      c.length = 10 ∧ b.Materialized (VERSIONS.ofList c) ∧ r = b.ordinal (VERSIONS.ofList c) := by
  unfold BUILD.entries
  rw [mem_ents]
  constructor
  · rintro ⟨suf, hc, hf, hp, hr⟩
    simp only [List.nil_append] at hc
    subst hc
    have hlen : c.length = 10 := by
      have := hf.length_eq
      simpa [VERSIONS.toList] using this.symm
    have hf2 := hf
    rw [← toList_ofList c hlen, forall₂_toList] at hf2
    refine ⟨hlen, ⟨?_, ?_, ?_⟩, ?_⟩
    · unfold VERSIONS.AtLeast VERSIONS.ones; simp only; tauto
    · unfold VERSIONS.AtLeast; tauto
    · simpa [BUILD.supported] using hp
    · simp [BUILD.ordinal, toList_ofList c hlen, hr]
  · rintro ⟨hlen, ⟨h1, h2, h3⟩, hr⟩
    refine ⟨c, by simp, ?_, by simpa [BUILD.supported] using h3, ?_⟩
    · rw [← toList_ofList c hlen, forall₂_toList]
      unfold VERSIONS.AtLeast VERSIONS.ones at h1
      unfold VERSIONS.AtLeast at h2
      simp only at h1
      tauto
    · simp [BUILD.ordinal, toList_ofList c hlen] at hr
      simp [hr]

theorem tableState_fields (b : BUILD) (s : State) (hnew : NoTable s) :
    (b.tableState s).Pdo.Revision.getD [] = b.entries.map (fun e => e.1 % 2 ^ 32) ∧
    (b.tableState s).Pdo.Description.getD [] =
      b.entries.map (fun e => some (descriptionOf s (VERSIONS.ofList e.2))) ∧
    (b.tableState s).Pdo.Count = b.entries.length := by
  obtain ⟨h0, h1, h2⟩ := hnew
  obtain ⟨t1, t2, t3, t4⟩ := addEntries_table (b.entries.map (entryOf s.Fdo.Name s.Dx.Name)) s
    (by simp [h0, h1]) (by simp [h0, h2])
  by_cases he : b.entries = []
  · have : b.tableState s = s := by
      unfold BUILD.tableState; exact t4 (by simp [he])
    simp [this, h0, h1, h2, he]
  · have hne : b.entries.map (entryOf s.Fdo.Name s.Dx.Name) ≠ [] := by simpa using he
    unfold BUILD.tableState
    rw [t1 (Or.inl hne), t2 (Or.inl hne), t3]
    simp [h0, h1, h2, entryOf, descriptionOf, Function.comp_def]

theorem tableState_table (b : BUILD) (s : State) (hnew : NoTable s) :
    (b.tableState s).table =
      b.entries.map (fun e => (e.1 % 2 ^ 32, some (descriptionOf s (VERSIONS.ofList e.2)))) := by
  obtain ⟨h1, h2, _⟩ := tableState_fields b s hnew
  unfold State.table
  rw [h1, h2, List.zip_map']

theorem PdoSetRevisions_run (b : BUILD) (pool : Nat → Bool) (hpool : ∀ n, pool n = true)
    (fuel : Nat) (s : State) (hterm : b.Terminates) (hfuel : b.Enough fuel) (hfit : NamesFit s)
    (hnew : NoTable s) :
    PdoSetRevisions b pool fuel s =
      some (if b.entries = [] then Run.bugcheck ASSERTION.CountPositive (b.tableState s)
            else Run.done STATUS_SUCCESS (b.tableState s)) := by
  have hc := (tableState_fields b s hnew).2.2
  have ht : addEntries s (b.entries.map (entryOf s.Fdo.Name s.Dx.Name)) = b.tableState s := rfl
  unfold PdoSetRevisions
  rw [loops_run b pool hpool fuel s hterm hfuel hfit, ht]
  by_cases he : b.entries = []
  · have h0 : (b.tableState s).Pdo.Count = 0 := by rw [hc, he]; rfl
    simp [he, Bind.bind, M.bind, Pure.pure, M.pure, getState, ASSERT, h0]
  · have h0 : 0 < (b.tableState s).Pdo.Count := by
      rw [hc]; exact List.length_pos.2 he
    simp [he, Bind.bind, M.bind, Pure.pure, M.pure, getState, ASSERT, h0]

theorem toList_prod (v : VERSIONS) : v.toList.prod = v.product := by
  simp [VERSIONS.toList, VERSIONS.product, Nat.mul_assoc]

theorem entries_length_ten (b : BUILD) (e : Nat × List Nat) (he : e ∈ b.entries) :
    e.2.length = 10 :=
  ((mem_entries b e.1 e.2).1 he).1

theorem ofList_injective (c d : List Nat) (hc : c.length = 10) (hd : d.length = 10)
    (h : VERSIONS.ofList c = VERSIONS.ofList d) : c = d := by
  rw [← toList_ofList c hc, ← toList_ofList d hd, h]

theorem entries_nodup (b : BUILD) : b.entries.Nodup := by
  have := (ents_sorted b.supported b.MAX.toList [] 0).2
  exact this.imp (fun {x y} h hxy => by rw [hxy] at h; exact lt_irrefl _ h)

theorem entries_eq_of_versions (b : BUILD) (e1 e2 : Nat × List Nat) (h1 : e1 ∈ b.entries)
    (h2 : e2 ∈ b.entries) (h : VERSIONS.ofList e1.2 = VERSIONS.ofList e2.2) : e1 = e2 := by
  obtain ⟨l1, _, r1⟩ := (mem_entries b e1.1 e1.2).1 h1
  obtain ⟨l2, _, r2⟩ := (mem_entries b e2.1 e2.2).1 h2
  have hc := ofList_injective _ _ l1 l2 h
  exact Prod.ext (by rw [r1, r2, h]) hc

/-! ## Revision table: every finished run follows the closed form -/

theorem sound_of_none (res : Flow) (x : Nat × State) (h : res.Sound none) :
    res.Sound (some x) := by
  cases res <;> simp_all [Flow.Sound]

theorem PdoAddRevision_cases (pool : Nat → Bool) (Revision : Nat) (v : VERSIONS) (s : State) :
    PdoAddRevision pool Revision v s =
        Run.done STATUS_SUCCESS (addEntry s Revision (descriptionOf s v)) ∨
    (∃ t, PdoAddRevision pool Revision v s = Run.done STATUS_NO_MEMORY t) ∨
    (∃ t, PdoAddRevision pool Revision v s = Run.bugcheck ASSERTION.DescriptionFits t) := by
  by_cases p0 : pool s.Allocations = true
  · by_cases p1 : pool (s.Allocations + 1) = true
    · by_cases p2 : pool (s.Allocations + 1 + 1) = true
      · by_cases hfit : 2 * ((descriptionOf s v).Text.length + 1) ≤ MAXTEXTLEN
        · left
          simp only [descriptionOf] at hfit
          simp [PdoAddRevision, Bind.bind, M.bind, Pure.pure, M.pure, getState, __PdoAllocate,
            ASSERT, __PdoGetName, p0, p1, p2, hfit, addEntry, descriptionOf]
        · right; right
          simp only [descriptionOf] at hfit
          simp [PdoAddRevision, Bind.bind, M.bind, Pure.pure, M.pure, getState, __PdoAllocate,
            ASSERT, __PdoGetName, p0, p1, p2, hfit]
      · right; left
        simp [PdoAddRevision, Bind.bind, M.bind, Pure.pure, M.pure, getState, __PdoAllocate,
          p0, p1, p2]
    · right; left
      simp [PdoAddRevision, Bind.bind, M.bind, Pure.pure, M.pure, getState, __PdoAllocate,
        p0, p1]
  · right; left
    simp [PdoAddRevision, Bind.bind, M.bind, Pure.pure, M.pure, getState, __PdoAllocate, p0]

theorem body_sound (b : BUILD) (pool : Nat → Bool) (c : List Nat) (base : Nat) (s : State) :
    (PdoSetRevisions.body b pool (VERSIONS.ofList c) (base % 2 ^ 32) s).Sound
      (some ((base + 1) % 2 ^ 32,
        addEntries s ((if b.supported c then [(base + 1, c)] else []).map
          (entryOf s.Fdo.Name s.Dx.Name)))) := by
  have hmod : (base % 2 ^ 32 + 1) % 2 ^ 32 = (base + 1) % 2 ^ 32 := by omega
  have hlt : (base + 1) % 4294967296 < 4294967296 := Nat.mod_lt _ (by norm_num)
  by_cases hs : VERSIONS.AtLeast b.MIN (VERSIONS.ofList c)
  · have hs2 : b.supported c = true := by simp [BUILD.supported, hs]
    have hs3 := hs
    unfold VERSIONS.AtLeast at hs3
    simp only [PdoSetRevisions.body, ge_iff_le, hs3, and_self, if_true, hmod, hs2]
    rcases PdoAddRevision_cases pool ((base + 1) % 2 ^ 32) (VERSIONS.ofList c) s with
      h | ⟨t, h⟩ | ⟨t, h⟩
    · rw [h]
      simp [NT_SUCCESS, STATUS_SUCCESS, Flow.Sound, addEntries, entryOf, descriptionOf, hlt]
    · rw [h]
      simp [NT_SUCCESS, STATUS_NO_MEMORY, Flow.Sound]
    · rw [h]
      simp [Flow.Sound]
  · have hs2 : b.supported c = false := by simp [BUILD.supported, hs]
    have hs3 := hs
    unfold VERSIONS.AtLeast at hs3
    simp only [PdoSetRevisions.body, ge_iff_le, hs3, if_false, hmod, hs2]
    simp [Flow.Sound, addEntries, hlt]

theorem forULONG_no_fall_through (MAX : Nat) (hM : 2 ^ 32 - 1 ≤ MAX)
    (body : Nat → Nat → State → Option Flow)
    (hbody : ∀ v r s res, r < 2 ^ 32 → body v r s = some res → ∃ target, res.Sound target) :
    ∀ (fuel v r : Nat) (s : State) (res : Flow), v < 2 ^ 32 → r < 2 ^ 32 →
      forULONG MAX body fuel v r s = some res → res.Sound none := by
  intro fuel
  induction fuel with
  | zero => intro v r s res _ _ h; simp [forULONG] at h
  | succ fuel ih =>
    intro v r s res hv hr h
    have hle : v ≤ MAX := by omega
    simp only [forULONG, hle, if_true] at h
    cases hb : body v r s with
    | none => rw [hb] at h; simp at h
    | some out =>
      rw [hb] at h
      obtain ⟨target, ht⟩ := hbody v r s out hr hb
      cases out with
      | next r1 s1 => exact ih _ r1 s1 res (Nat.mod_lt _ (by norm_num)) ht.1 h
      | fail1 r1 st s1 =>
        simp only [Option.some.injEq] at h
        subst h
        simpa [Flow.Sound] using ht
      | bug site s1 =>
        simp only [Option.some.injEq] at h
        subst h
        simpa [Flow.Sound] using ht

theorem forULONG_sound (MAX : Nat) (hM : MAX + 1 < 2 ^ 32)
    (body : Nat → Nat → State → Option Flow) (f : Nat → Nat → List (Nat × List Nat)) (K : Nat)
    (fdo pdo : String)
    (hbody : ∀ (v base : Nat) (s : State) (res : Flow), s.Fdo.Name = fdo → s.Dx.Name = pdo →
      body v (base % 2 ^ 32) s = some res →
      res.Sound (some ((base + K) % 2 ^ 32,
        addEntries s ((f v base).map (entryOf fdo pdo))))) :
    ∀ (fuel n v base : Nat) (s : State) (res : Flow), v + n = MAX + 1 →
      s.Fdo.Name = fdo → s.Dx.Name = pdo →
      forULONG MAX body fuel v (base % 2 ^ 32) s = some res →
      res.Sound (some ((base + n * K) % 2 ^ 32,
        addEntries s ((entsRange f K n v base).map (entryOf fdo pdo)))) := by
  intro fuel
  induction fuel with
  | zero => intro n v base s res _ _ _ h; simp [forULONG] at h
  | succ fuel ih =>
    intro n v base s res hn hfdo hpdo h
    cases n with
    | zero =>
      have : ¬ v ≤ MAX := by omega
      simp only [forULONG, this, if_false, Option.some.injEq] at h
      subst h
      have hlt : base % 4294967296 < 4294967296 := Nat.mod_lt _ (by norm_num)
      simp [Flow.Sound, entsRange, addEntries, hlt]
    | succ n =>
      have hle : v ≤ MAX := by omega
      have hwrap : (v + 1) % 2 ^ 32 = v + 1 := Nat.mod_eq_of_lt (by omega)
      simp only [forULONG, hle, if_true, hwrap] at h
      cases hb : body v (base % 2 ^ 32) s with
      | none => rw [hb] at h; simp at h
      | some out =>
        rw [hb] at h
        have ht := hbody v base s out hfdo hpdo hb
        cases out with
        | next r1 s1 =>
          simp only [Flow.Sound, Option.some.injEq, Prod.mk.injEq] at ht
          obtain ⟨_, hr1, hs1⟩ := ht
          subst hr1
          subst hs1
          obtain ⟨n1, n2, _⟩ := addEntries_names ((f v base).map (entryOf fdo pdo)) s
          have := ih n (v + 1) (base + K) _ res (by omega) (by rw [n1]; exact hfdo)
            (by rw [n2]; exact hpdo) h
          have e2 : base + (n + 1) * K = base + K + n * K := by ring
          simpa only [entsRange, List.map_append, addEntries_append, e2] using this
        | fail1 r1 st s1 =>
          simp only [Option.some.injEq] at h
          subst h
          simpa [Flow.Sound] using ht
        | bug site s1 =>
          simp only [Option.some.injEq] at h
          subst h
          simpa [Flow.Sound] using ht

theorem nest_sound (b : BUILD) (pool : Nat → Bool) (fuel : Nat) :
    ∀ (ms pre : List Nat) (base : Nat) (s : State) (res : Flow),
      nest (fun c Revision s =>
          some (PdoSetRevisions.body b pool (VERSIONS.ofList c) Revision s))
        fuel ms pre (base % 2 ^ 32) s = some res →
      res.Sound (some ((base + ms.prod) % 2 ^ 32,
        addEntries s ((ents b.supported ms pre base).map
          (entryOf s.Fdo.Name s.Dx.Name)))) := by
  intro ms
  induction ms with
  | nil =>
    intro pre base s res h
    simp only [nest, Option.some.injEq] at h
    subst h
    simpa [ents] using body_sound b pool pre base s
  | cons m ms ih =>
    intro pre base s res h
    simp only [nest] at h
    by_cases hM : m + 1 < 2 ^ 32
    · have hbody : ∀ (v base : Nat) (t : State) (res : Flow), t.Fdo.Name = s.Fdo.Name →
          t.Dx.Name = s.Dx.Name →
          (fun v Revision s => nest (fun c Revision s =>
              some (PdoSetRevisions.body b pool (VERSIONS.ofList c) Revision s))
            fuel ms (pre ++ [v]) Revision s) v (base % 2 ^ 32) t = some res →
          res.Sound (some ((base + ms.prod) % 2 ^ 32,
            addEntries t (((fun v k => ents b.supported ms (pre ++ [v]) k) v base).map
              (entryOf s.Fdo.Name s.Dx.Name)))) := by
        intro v base t res hfdo hpdo hres
        have := ih (pre ++ [v]) base t res hres
        rw [hfdo, hpdo] at this
        exact this
      have := forULONG_sound m hM _ _ ms.prod s.Fdo.Name s.Dx.Name hbody fuel m 1 base s res
        (by omega) rfl rfl h
      simpa only [ents, List.prod_cons] using this
    · refine sound_of_none res _ ?_
      refine forULONG_no_fall_through m (by omega) _ ?_ fuel 1 (base % 2 ^ 32) s res
        (by norm_num) (Nat.mod_lt _ (by norm_num)) h
      intro v r t out hlt hout
      exact ⟨_, ih (pre ++ [v]) r t out (by rw [Nat.mod_eq_of_lt hlt]; exact hout)⟩

theorem loops_sound (b : BUILD) (pool : Nat → Bool) (fuel : Nat) (s : State) (res : Flow)
    (h : PdoSetRevisions.loops b pool fuel 0 s = some res) :
    res.Sound (some (b.MAX.product % 2 ^ 32, b.tableState s)) := by
  rw [loops_eq_nest] at h
  have := nest_sound b pool fuel b.MAX.toList [] 0 s res h
  simpa [BUILD.entries, BUILD.tableState, toList_prod] using this

/-- Every run of `PdoSetRevisions` that gets past its loops leaves the closed-form table,
whatever the pool, the fuel, the maxima and the names are. -/
theorem PdoSetRevisions_sound (b : BUILD) (pool : Nat → Bool) (fuel : Nat) (s : State)
    (r : Run NTSTATUS) (h : PdoSetRevisions b pool fuel s = some r)
    (hr : r.Enumerated = true) :
    r.state = b.tableState s ∧
    PdoSetRevisions.loops b pool fuel 0 s =
      some (Flow.next (b.MAX.product % 2 ^ 32) r.state) := by
  unfold PdoSetRevisions at h
  cases hl : PdoSetRevisions.loops b pool fuel 0 s with
  | none => rw [hl] at h; simp at h
  | some res =>
    rw [hl] at h
    have hsound := loops_sound b pool fuel s res hl
    cases res with
    | next r0 u =>
      simp only [Flow.Sound, Option.some.injEq, Prod.mk.injEq] at hsound
      obtain ⟨_, hr0, hu⟩ := hsound
      by_cases hc : 0 < u.Pdo.Count
      · simp [Bind.bind, M.bind, Pure.pure, M.pure, getState, ASSERT, hc] at h
        subst h
        exact ⟨hu.symm, by rw [hr0]; rfl⟩
      · simp [Bind.bind, M.bind, Pure.pure, M.pure, getState, ASSERT, hc] at h
        subst h
        exact ⟨hu.symm, by rw [hr0]; rfl⟩
    | fail1 r0 st u =>
      simp only [Flow.Sound] at hsound
      simp only [Option.some.injEq] at h
      subst h
      simp only [Run.Enumerated] at hr
      rw [hsound] at hr
      exact absurd hr (by simp)
    | bug site u =>
      simp only [Flow.Sound] at hsound
      simp only [Option.some.injEq] at h
      subst h
      subst hsound
      simp [Run.Enumerated] at hr

theorem PdoSetRevisions_total (b : BUILD) (pool : Nat → Bool) (hpool : ∀ n, pool n = true)
    (fuel : Nat) (s : State) (hterm : b.Terminates) (hfuel : b.Enough fuel) (hfit : NamesFit s)
    (hnew : NoTable s) :
    ∃ r, PdoSetRevisions b pool fuel s = some r ∧ r.Enumerated = true ∧
      (b.entries ≠ [] → r = Run.done STATUS_SUCCESS r.state) := by
  refine ⟨_, PdoSetRevisions_run b pool hpool fuel s hterm hfuel hfit hnew, ?_, ?_⟩
  · by_cases he : b.entries = [] <;> simp [he, Run.Enumerated, NT_SUCCESS, STATUS_SUCCESS]
  · intro he
    simp [he, Run.state]


/-! ## Revision table: checked properties -/

theorem countP_eq_of_nodup {α : Type} [DecidableEq α] (l : List α) (a : α) (hn : l.Nodup) :
    l.countP (fun d => decide (d = a)) = if a ∈ l then 1 else 0 := by
  induction l with
  | nil => simp
  | cons x xs ih =>
    obtain ⟨hx, hxs⟩ := List.nodup_cons.1 hn
    by_cases hxa : x = a
    · subst hxa
      simp [List.countP_cons, ih hxs, hx]
    · have hax : ¬ a = x := fun h => hxa h.symm
      simp [List.countP_cons, ih hxs, hxa, hax]

theorem mem_descriptions (b : BUILD) (s : State) (v : VERSIONS) :
    some (descriptionOf s v) ∈
        b.entries.map (fun e => some (descriptionOf s (VERSIONS.ofList e.2))) ↔
      b.Materialized v := by
  simp only [List.mem_map, Option.some.injEq, descriptionOf, DESCRIPTION.mk.injEq, true_and]
  constructor
  · rintro ⟨e, he, hv⟩
    have := ((mem_entries b e.1 e.2).1 he).2.1
    rwa [hv] at this
  · intro hm
    exact ⟨(b.ordinal v, v.toList),
      (mem_entries b _ _).2 ⟨toList_length v, by rwa [ofList_toList], by rw [ofList_toList]⟩,
      ofList_toList v⟩

theorem descriptions_nodup (b : BUILD) (s : State) :
    (b.entries.map (fun e => some (descriptionOf s (VERSIONS.ofList e.2)))).Nodup := by
  refine List.Nodup.map_on ?_ (entries_nodup b)
  intro x hx y hy hxy
  simp only [Option.some.injEq, descriptionOf, DESCRIPTION.mk.injEq, true_and] at hxy
  exact entries_eq_of_versions b x y hx hy hxy

theorem atLeast_trans (a b c : VERSIONS) (h1 : VERSIONS.AtLeast a b) (h2 : VERSIONS.AtLeast b c) :
    VERSIONS.AtLeast a c := by
  unfold VERSIONS.AtLeast at *
  omega

theorem entries_subset (b b' : BUILD) (hmax : b'.MAX = b.MAX)
    (hmin : VERSIONS.AtLeast b.MIN b'.MIN) :
    ∀ e ∈ b'.entries, e ∈ b.entries := by
  intro e he
  obtain ⟨hl, ⟨h1, h2, h3⟩, hr⟩ := (mem_entries b' e.1 e.2).1 he
  refine (mem_entries b e.1 e.2).2 ⟨hl, ⟨h1, by rwa [← hmax], atLeast_trans _ _ _ hmin h3⟩, ?_⟩
  rw [hr]; simp [BUILD.ordinal, hmax]

theorem sorted_eq_pair (L : List (Nat × List Nat))
    (hs : L.Pairwise (fun x y => x.1 < y.1)) (e1 e2 : Nat × List Nat) (h12 : e1.1 < e2.1)
    (hmem : ∀ x, x ∈ L ↔ x = e1 ∨ x = e2) : L = [e1, e2] := by
  haveI : IsAntisymm (Nat × List Nat) (fun x y => x.1 < y.1) :=
    ⟨fun a b h1 h2 => absurd h1 (Nat.lt_asymm h2)⟩
  have hne : e1 ≠ e2 := fun h => by rw [h] at h12; exact lt_irrefl _ h12
  have hnd : L.Nodup := hs.imp (fun {x y} h hxy => by rw [hxy] at h; exact lt_irrefl _ h)
  have hperm : L.Perm [e1, e2] :=
    (List.perm_ext_iff_of_nodup hnd (by simp [hne])).2 (fun x => by simp [hmem])
  exact List.eq_of_perm_of_sorted hperm hs (by simp [List.Sorted, h12])

theorem wrapBuild_entries :
    wrapBuild.entries =
      [(4294967295, [1, 1, 1, 1, 1, 1, 1, 1, 65536, 65535]),
       (4294967296, [1, 1, 1, 1, 1, 1, 1, 1, 65536, 65536])] := by
  refine sorted_eq_pair wrapBuild.entries (ents_sorted _ _ _ _).2 _ _ (by norm_num) ?_
  rintro ⟨r, c⟩
  rw [mem_entries wrapBuild r c]
  constructor
  · rintro ⟨hlen, hm, hr⟩
    have hc := (toList_ofList c hlen).symm
    generalize VERSIONS.ofList c = v at hm hr hc
    obtain ⟨h1, h2, h3⟩ := hm
    simp only [VERSIONS.AtLeast, wrapBuild, VERSIONS.ones] at h1 h2 h3
    have a1 : v.Suspend = 1 := by omega
    have a2 : v.SharedInfo = 1 := by omega
    have a3 : v.Evtchn = 1 := by omega
    have a4 : v.Debug = 1 := by omega
    have a5 : v.Store = 1 := by omega
    have a6 : v.RangeSet = 1 := by omega
    have a7 : v.Cache = 1 := by omega
    have a8 : v.Gnttab = 1 := by omega
    have a9 : v.Emulated = 65536 := by omega
    have a10 : v.Unplug = 65535 ∨ v.Unplug = 65536 := by omega
    rcases a10 with a10 | a10
    · left
      simp [hr, hc, BUILD.ordinal, ordinal, VERSIONS.toList, wrapBuild, VERSIONS.ones,
        a1, a2, a3, a4, a5, a6, a7, a8, a9, a10]
    · right
      simp [hr, hc, BUILD.ordinal, ordinal, VERSIONS.toList, wrapBuild, VERSIONS.ones,
        a1, a2, a3, a4, a5, a6, a7, a8, a9, a10]
  · rintro (h | h)
    · simp only [Prod.mk.injEq] at h
      obtain ⟨rfl, rfl⟩ := h
      exact ⟨rfl, by decide, by decide⟩
    · simp only [Prod.mk.injEq] at h
      obtain ⟨rfl, rfl⟩ := h
      exact ⟨rfl, by decide, by decide⟩

theorem wrapBuild_run :
    PdoSetRevisions.loops wrapBuild poolAlwaysSucceeds 65537 0 tablelessNode =
      some (Flow.next 0 (wrapBuild.tableState tablelessNode)) ∧
    PdoSetRevisions wrapBuild poolAlwaysSucceeds 65537 tablelessNode =
      some (Run.done STATUS_SUCCESS (wrapBuild.tableState tablelessNode)) ∧
    (wrapBuild.tableState tablelessNode).Pdo.Revision.getD [] = [4294967295, 0] := by
  have hl := loops_run wrapBuild poolAlwaysSucceeds (fun _ => rfl) 65537 tablelessNode
    (by decide) (by decide) (by decide)
  have hr := PdoSetRevisions_run wrapBuild poolAlwaysSucceeds (fun _ => rfl) 65537 tablelessNode
    (by decide) (by decide) (by decide) (by decide)
  have hf := (tableState_fields wrapBuild tablelessNode (by decide)).1
  have hp : wrapBuild.MAX.toList.prod % 2 ^ 32 = 0 := by decide
  refine ⟨?_, ?_, ?_⟩
  · rw [hl, hp]; rfl
  · rw [hr, wrapBuild_entries]; simp
  · rw [hf, wrapBuild_entries]; simp

theorem ordinal_eq_of_sameInner (b b' : BUILD) (h : VERSIONS.SameInner b.MAX b'.MAX)
    (v : VERSIONS) : b.ordinal v = b'.ordinal v := by
  obtain ⟨h1, h2, h3, h4, h5, h6, h7, h8, h9⟩ := h
  simp only [BUILD.ordinal, VERSIONS.toList, ordinal, h1, h2, h3, h4, h5, h6, h7, h8, h9]

theorem twoSuspendBuild_entries :
    twoSuspendBuild.entries = [(1, VERSIONS.ones.toList),
      (2, ({ VERSIONS.ones with Suspend := 2 } : VERSIONS).toList)] := by
  decide!

theorem text_of_vif (fdo : String) (v : Nat) :
    ({ FdoName := fdo, PdoName := "vif", Versions := { VERSIONS.ones with Suspend := v } } :
      DESCRIPTION).Text =
    fdo ++ " vif: SUSPEND v" ++ Nat.repr v ++ (" SHARED_INFO v1 EVTCHN v1 DEBUG v1 STORE v1 " ++
      "RANGE_SET v1 CACHE v1 GNTTAB v1 EMULATED v1 UNPLUG v1") := by
  simp only [DESCRIPTION.Text, VERSIONS.ones, String.append_assoc]
  congr 1

theorem PdoSetRevisions_success (b : BUILD) (pool : Nat → Bool) (fuel : Nat) (s : State)
    (r : Run NTSTATUS) (h : PdoSetRevisions b pool fuel s = some r)
    (hr : r.Enumerated = true) (hc : 0 < (b.tableState s).Pdo.Count) :
    r = Run.done STATUS_SUCCESS (b.tableState s) := by
  obtain ⟨hstate, hloops⟩ := PdoSetRevisions_sound b pool fuel s r h hr
  unfold PdoSetRevisions at h
  rw [hloops, hstate] at h
  simp [Bind.bind, M.bind, Pure.pure, M.pure, getState, ASSERT, hc] at h
  exact h.symm

/-- C12: with Suspend maximum 2, every other maximum 1 and every minimum 1, on a node
named "vif" without a table, every run of `PdoSetRevisions` that gets past its loops
returns success and leaves exactly two entries, numbered 1 and 2 in that order, whose
descriptions are the parent name followed by " vif: SUSPEND v1 ..." and
" vif: SUSPEND v2 ..."; both contain "vif", the first contains "SUSPEND v1" and the
second "SUSPEND v2". And the run does get past its loops when no allocation fails, the
fuel exceeds 2 and the names fit the description buffer. -/
theorem two_suspend_versions_give_two_revisions (pool : Nat → Bool) (fuel : Nat) (s : State)
    (hnew : NoTable s) (hname : s.Dx.Name = "vif") :
    (∀ r, PdoSetRevisions twoSuspendBuild pool fuel s = some r → r.Enumerated = true →
      r = Run.done STATUS_SUCCESS r.state ∧
      r.state.Pdo.Count = 2 ∧
      r.state.Pdo.Revision.getD [] = [1, 2] ∧
      ∃ d1 d2, r.state.Pdo.Description.getD [] = [some d1, some d2] ∧
        d1.Text = s.Fdo.Name ++ (" vif: SUSPEND v1 SHARED_INFO v1 EVTCHN v1 DEBUG v1 " ++
          "STORE v1 RANGE_SET v1 CACHE v1 GNTTAB v1 EMULATED v1 UNPLUG v1") ∧
        d2.Text = s.Fdo.Name ++ (" vif: SUSPEND v2 SHARED_INFO v1 EVTCHN v1 DEBUG v1 " ++
          "STORE v1 RANGE_SET v1 CACHE v1 GNTTAB v1 EMULATED v1 UNPLUG v1") ∧
        Contains d1.Text "vif" ∧ Contains d1.Text "SUSPEND v1" ∧
        Contains d2.Text "vif" ∧ Contains d2.Text "SUSPEND v2") ∧
    ((∀ n, pool n = true) → 2 < fuel → NamesFit s →
      ∃ r, PdoSetRevisions twoSuspendBuild pool fuel s = some r ∧ r.Enumerated = true) := by
  obtain ⟨f1, f2, f3⟩ := tableState_fields twoSuspendBuild s hnew
  rw [twoSuspendBuild_entries] at f1 f2 f3
  have t1 : (descriptionOf s VERSIONS.ones).Text =
      s.Fdo.Name ++ (" vif: SUSPEND v1 SHARED_INFO v1 EVTCHN v1 DEBUG v1 " ++
        "STORE v1 RANGE_SET v1 CACHE v1 GNTTAB v1 EMULATED v1 UNPLUG v1") := by
    have := text_of_vif s.Fdo.Name 1
    simp only [descriptionOf, hname]
    rw [show (VERSIONS.ones : VERSIONS) = { VERSIONS.ones with Suspend := 1 } from rfl, this,
      String.append_assoc, String.append_assoc]
    congr 1
  have t2 : (descriptionOf s { VERSIONS.ones with Suspend := 2 }).Text =
      s.Fdo.Name ++ (" vif: SUSPEND v2 SHARED_INFO v1 EVTCHN v1 DEBUG v1 " ++
        "STORE v1 RANGE_SET v1 CACHE v1 GNTTAB v1 EMULATED v1 UNPLUG v1") := by
    have := text_of_vif s.Fdo.Name 2
    simp only [descriptionOf, hname]
    rw [this, String.append_assoc, String.append_assoc]
    congr 1
  refine ⟨?_, ?_⟩
  · intro r hrun hr
    have hsucc := PdoSetRevisions_success twoSuspendBuild pool fuel s r hrun hr
      (by rw [f3]; decide)
    obtain ⟨hstate, _⟩ := PdoSetRevisions_sound twoSuspendBuild pool fuel s r hrun hr
    refine ⟨by rw [hstate]; exact hsucc, by rw [hstate, f3]; rfl, by rw [hstate, f1]; rfl,
      descriptionOf s VERSIONS.ones, descriptionOf s { VERSIONS.ones with Suspend := 2 },
      by rw [hstate, f2]; rfl, t1, t2, ?_, ?_, ?_, ?_⟩
    · exact ⟨s.Fdo.Name ++ " ", ": SUSPEND v1 SHARED_INFO v1 EVTCHN v1 DEBUG v1 " ++
        "STORE v1 RANGE_SET v1 CACHE v1 GNTTAB v1 EMULATED v1 UNPLUG v1",
        by rw [t1, String.append_assoc, String.append_assoc]; congr 1⟩
    · exact ⟨s.Fdo.Name ++ " vif: ", " SHARED_INFO v1 EVTCHN v1 DEBUG v1 " ++
        "STORE v1 RANGE_SET v1 CACHE v1 GNTTAB v1 EMULATED v1 UNPLUG v1",
        by rw [t1, String.append_assoc, String.append_assoc]; congr 1⟩
    · exact ⟨s.Fdo.Name ++ " ", ": SUSPEND v2 SHARED_INFO v1 EVTCHN v1 DEBUG v1 " ++
        "STORE v1 RANGE_SET v1 CACHE v1 GNTTAB v1 EMULATED v1 UNPLUG v1",
        by rw [t2, String.append_assoc, String.append_assoc]; congr 1⟩
    · exact ⟨s.Fdo.Name ++ " vif: ", " SHARED_INFO v1 EVTCHN v1 DEBUG v1 " ++
        "STORE v1 RANGE_SET v1 CACHE v1 GNTTAB v1 EMULATED v1 UNPLUG v1",
        by rw [t2, String.append_assoc, String.append_assoc]; congr 1⟩
  · intro hpool hfuel hfit
    obtain ⟨r, h1, h2, _⟩ := PdoSetRevisions_total twoSuspendBuild pool hpool fuel s
      (by decide) (by
        intro m hm
        simp only [twoSuspendBuild, VERSIONS.ones, VERSIONS.toList, List.mem_cons,
          List.mem_singleton, List.not_mem_nil, or_false] at hm
        omega) hfit hnew
    exact ⟨r, h1, h2⟩

/-- Witness for C12: the sample node named "vif", whose parent is named "XENBUS". -/
theorem two_suspend_versions_give_two_revisions_witness :
    NoTable tablelessNode ∧ tablelessNode.Dx.Name = "vif" ∧
    ∃ r, PdoSetRevisions twoSuspendBuild poolAlwaysSucceeds 3 tablelessNode = some r ∧
      r.Enumerated = true :=
  ⟨by decide, by decide,
    (two_suspend_versions_give_two_revisions poolAlwaysSucceeds 3 tablelessNode (by decide)
      (by decide)).2 (fun _ => rfl) (by decide) (by decide)⟩

/-! ## Identifier queries: checked properties -/

theorem scan_text (text rest : List Char) (h : ∀ c ∈ text, c ≠ NUL) :
    wcslen.scan (text ++ NUL :: rest) = some text.length := by
  induction text with
  | nil => simp [wcslen.scan]
  | cons c cs ih =>
    have hc := h c (List.mem_cons_self _ _)
    simp [wcslen.scan, hc, ih (fun c hc => h c (List.mem_cons_of_mem _ hc))]

theorem wcslen_at (pre text rest : List Char) (h : ∀ c ∈ text, c ≠ NUL) :
    wcslen (pre ++ (text ++ NUL :: rest)) pre.length = some text.length := by
  unfold wcslen
  rw [List.drop_left]
  exact scan_text text rest h

theorem poke_zeros (pre stored : List Char) (k : Nat) :
    poke (pre ++ List.replicate k NUL) pre.length stored =
      pre ++ stored ++ List.replicate (k - stored.length) NUL := by
  unfold poke
  rw [List.take_left, List.drop_append, List.drop_replicate]

theorem print_eval (pre Text : List Char) (cbDest k : Nat) (s : State)
    (h : Fits cbDest k Text.length) :
    PdoQueryId.print (pre ++ List.replicate k NUL) pre.length cbDest Text s =
      Run.done (pre ++ (Text ++ [NUL]) ++ List.replicate (k - (Text.length + 1)) NUL) s := by
  obtain ⟨h1, h2, h3⟩ := h
  have hc : ¬ (cbDest / 2 = 0 ∨ cbDest / 2 > NTSTRSAFE_MAX_CCH) := by omega
  have ht : List.take (cbDest / 2 - 1) Text = Text := List.take_of_length_le (by omega)
  have hp := poke_zeros pre (Text ++ [NUL]) k
  simp only [List.length_append, List.length_singleton] at hp
  simp [PdoQueryId.print, RtlStringCbPrintfW, hc, ht, h1, h3, hp, Bind.bind, M.bind,
    Pure.pure, M.pure, ASSERT, NT_SUCCESS, STATUS_SUCCESS]

theorem print_fail (pre Text : List Char) (cbDest k : Nat) (s : State)
    (h : ¬ Fits cbDest k Text.length) :
    ∃ site, PdoQueryId.print (pre ++ List.replicate k NUL) pre.length cbDest Text s =
      Run.bugcheck site s := by
  unfold Fits at h
  by_cases hc : cbDest / 2 = 0 ∨ cbDest / 2 > NTSTRSAFE_MAX_CCH
  · exact ⟨ASSERTION.QueryIdFormat, by
      simp [PdoQueryId.print, RtlStringCbPrintfW, hc, Bind.bind, M.bind, ASSERT, NT_SUCCESS,
        STATUS_INVALID_PARAMETER]⟩
  · by_cases h1 : Text.length < cbDest / 2
    · have h3 : ¬ (Text.length + 1 ≤ k) := by omega
      have ht : List.take (cbDest / 2 - 1) Text = Text := List.take_of_length_le (by omega)
      exact ⟨ASSERTION.AccessOutsideAllocation, by
        simp [PdoQueryId.print, RtlStringCbPrintfW, hc, ht, h1, h3, stop]⟩
    · by_cases hb : pre.length + (List.take (cbDest / 2 - 1) Text ++ [NUL]).length ≤
          (pre ++ List.replicate k NUL).length
      · exact ⟨ASSERTION.QueryIdFormat, by
          simp only [PdoQueryId.print, RtlStringCbPrintfW, hc, if_false, h1, hb, if_true]
          simp [Bind.bind, M.bind, ASSERT, NT_SUCCESS, STATUS_BUFFER_OVERFLOW]⟩
      · exact ⟨ASSERTION.AccessOutsideAllocation, by
          simp only [PdoQueryId.print, RtlStringCbPrintfW, hc, if_false, h1, hb]
          rfl⟩

theorem wcslen_stored (pre text rest : List Char) (h : ∀ c ∈ text, c ≠ NUL) :
    wcslen (pre ++ (text ++ [NUL]) ++ rest) pre.length = some text.length := by
  have := wcslen_at pre text rest h
  simpa [List.append_assoc] using this

theorem wcslen_stored_end (pre text rest : List Char) :
    wcslen (pre ++ (text ++ [NUL]) ++ rest) (pre.length + text.length) = some 0 := by
  have := wcslen_at (pre ++ text) [] rest (by simp)
  simpa [List.append_assoc] using this

theorem hexDigit_ne_NUL : ∀ d, d < 16 → HexDigit d ≠ NUL := by decide

theorem cstring_noNul (s : String) : ∀ c ∈ CString s, c ≠ NUL := by
  intro c hc
  have := List.mem_takeWhile_imp hc
  simpa using this

theorem deviceIdText_noNul (VendorName Name : String) (Revision : Nat) :
    ∀ c ∈ DeviceIdText VendorName Name Revision, c ≠ NUL := by
  intro c hc
  simp only [DeviceIdText, List.mem_append] at hc
  rcases hc with ((((hc | hc) | hc) | hc) | hc) | hc
  · revert c; decide
  · exact cstring_noNul _ c hc
  · revert c; decide
  · exact cstring_noNul _ c hc
  · revert c; decide
  · simp only [Hex08X, List.mem_map] at hc
    obtain ⟨i, _, rfl⟩ := hc
    exact hexDigit_ne_NUL _ (Nat.mod_lt _ (by norm_num))

theorem deviceIdText_length (VendorName Name : String) (Revision : Nat) :
    (DeviceIdText VendorName Name Revision).length =
      29 + (CString VendorName).length + (CString Name).length := by
  simp only [DeviceIdText, List.length_append, Hex08X, List.length_map]
  have h1 : "XENBUS\\VEN_".toList.length = 11 := by decide
  have h2 : "&DEV_".toList.length = 5 := by decide
  have h3 : "&REV_".toList.length = 5 := by decide
  rw [h1, h2, h3]
  simp only [List.length_cons, List.length_nil]
  omega

theorem identifiers_step (n Index : Nat) (pre : List Char) (k Length : Nat) (s : State)
    (rev : Nat) (hrev : (s.Pdo.Revision.getD [])[Index]? = some rev)
    (hfit : Fits Length k (DeviceIdText s.Fdo.VendorName s.Dx.Name rev).length) :
    PdoQueryId.identifiers (n + 1) Index (pre ++ List.replicate k NUL, pre.length, Length) s =
      PdoQueryId.identifiers n (Index + 1)
        (pre ++ (DeviceIdText s.Fdo.VendorName s.Dx.Name rev ++ [NUL]) ++
            List.replicate (k - ((DeviceIdText s.Fdo.VendorName s.Dx.Name rev).length + 1)) NUL,
          (pre ++ (DeviceIdText s.Fdo.VendorName s.Dx.Name rev ++ [NUL])).length,
          (Length % 2 ^ 32 + 2 ^ 32 - 2) % 2 ^ 32) s := by
  have hn := deviceIdText_noNul s.Fdo.VendorName s.Dx.Name rev
  simp only [PdoQueryId.identifiers, Bind.bind, M.bind, getState, hrev, Pure.pure, M.pure,
    __PdoGetName, print_eval pre _ Length k s hfit, PdoQueryId.wcslenAt,
    wcslen_stored pre _ _ hn, wcslen_stored_end]
  simp [Nat.add_assoc]

theorem identifiers_stuck (n Index : Nat) (pre : List Char) (k Length : Nat) (s : State)
    (h : ∀ rev, (s.Pdo.Revision.getD [])[Index]? = some rev →
      ¬ Fits Length k (DeviceIdText s.Fdo.VendorName s.Dx.Name rev).length) :
    ∃ site, PdoQueryId.identifiers (n + 1) Index
      (pre ++ List.replicate k NUL, pre.length, Length) s = Run.bugcheck site s := by
  cases hrev : (s.Pdo.Revision.getD [])[Index]? with
  | none =>
    exact ⟨ASSERTION.AccessOutsideAllocation, by
      simp only [PdoQueryId.identifiers, Bind.bind, M.bind, getState, hrev, stop]⟩
  | some rev =>
    obtain ⟨site, hs⟩ := print_fail pre (DeviceIdText s.Fdo.VendorName s.Dx.Name rev)
      Length k s (h rev hrev)
    exact ⟨site, by
      simp only [PdoQueryId.identifiers, Bind.bind, M.bind, getState, hrev, Pure.pure, M.pure,
        __PdoGetName, hs]⟩

theorem drop_of_getElem? (l : List Nat) (i rev : Nat) (h : l[i]? = some rev) :
    l.drop i = rev :: l.drop (i + 1) := by
  induction l generalizing i with
  | nil => simp at h
  | cons a l ih =>
    cases i with
    | zero => simp at h; simp [h]
    | succ i => simp at h; simpa using ih i h

theorem identifiers_done : ∀ (n Index : Nat) (pre : List Char) (k Length : Nat) (s : State)
    (res : List Char × Nat × Nat) (t : State),
    PdoQueryId.identifiers n Index (pre ++ List.replicate k NUL, pre.length, Length) s =
      Run.done res t →
    t = s ∧ (((s.Pdo.Revision.getD []).drop Index).take n).length = n ∧
    ∃ k', res.1 = pre ++ joined ((((s.Pdo.Revision.getD []).drop Index).take n).map
        (DeviceIdText s.Fdo.VendorName s.Dx.Name)) ++ List.replicate k' NUL ∧
      res.2.1 = (pre ++ joined ((((s.Pdo.Revision.getD []).drop Index).take n).map
        (DeviceIdText s.Fdo.VendorName s.Dx.Name))).length := by
  intro n
  induction n with
  | zero =>
    intro Index pre k Length s res t h
    simp only [PdoQueryId.identifiers, Pure.pure, M.pure, Run.done.injEq] at h
    obtain ⟨h1, h2⟩ := h
    subst h1 h2
    exact ⟨rfl, by simp, k, by simp [joined], by simp [joined]⟩
  | succ n ih =>
    intro Index pre k Length s res t h
    by_cases hex : ∃ rev, (s.Pdo.Revision.getD [])[Index]? = some rev ∧
        Fits Length k (DeviceIdText s.Fdo.VendorName s.Dx.Name rev).length
    · obtain ⟨rev, hrev, hfit⟩ := hex
      rw [identifiers_step n Index pre k Length s rev hrev hfit] at h
      obtain ⟨h1, h2, k', h3, h4⟩ := ih _ _ _ _ _ _ _ h
      have hd := drop_of_getElem? _ _ _ hrev
      refine ⟨h1, ?_, k', ?_, ?_⟩
      · rw [hd, List.take_succ_cons, List.length_cons, h2]
      · rw [h3, hd, List.take_succ_cons, List.map_cons]
        simp [joined, List.append_assoc]
      · rw [h4, hd, List.take_succ_cons, List.map_cons]
        simp [joined, List.append_assoc]
    · obtain ⟨site, hs⟩ := identifiers_stuck n Index pre k Length s
        (fun rev hrev hfit => hex ⟨rev, hrev, hfit⟩)
      rw [hs] at h
      exact absurd h (by simp)

theorem walk_joined : ∀ (strs : List (List Char)) (x pre : List Char) (k fuel : Nat),
    (∀ str ∈ x :: strs, str ≠ [] ∧ ∀ c ∈ str, c ≠ NUL) → strs.length < fuel →
    PdoQueryId.walk (pre ++ joined (x :: strs) ++ List.replicate k NUL) fuel pre.length =
      if k = 0 then none else some (x :: strs) := by
  intro strs
  induction strs with
  | nil =>
    intro x pre k fuel h hf
    obtain ⟨fuel, rfl⟩ : ∃ f, fuel = f + 1 := ⟨fuel - 1, by omega⟩
    have hx := (h x (List.mem_cons_self _ _)).2
    have hw : wcslen (pre ++ joined [x] ++ List.replicate k NUL) pre.length = some x.length := by
      have := wcslen_stored pre x (List.replicate k NUL) hx
      simpa [joined] using this
    have hd : List.take x.length (List.drop pre.length
        (pre ++ joined [x] ++ List.replicate k NUL)) = x := by
      simp [joined, List.append_assoc, List.drop_left]
    have hg : (pre ++ joined [x] ++ List.replicate k NUL)[pre.length + x.length + 1]? =
        if k = 0 then none else some NUL := by
      have he : pre ++ joined [x] ++ List.replicate k NUL =
          (pre ++ x ++ [NUL]) ++ List.replicate k NUL := by simp [joined]
      rw [he, List.getElem?_append_right (by simp; omega)]
      have h0 : pre.length + x.length + 1 - (pre ++ x ++ [NUL]).length = 0 := by
        simp; omega
      rw [h0]
      cases k <;> simp [List.replicate]
    simp only [PdoQueryId.walk, hw, hg, hd]
    cases k <;> simp
  | cons y ys ih =>
    intro x pre k fuel h hf
    obtain ⟨fuel, rfl⟩ : ∃ f, fuel = f + 1 := ⟨fuel - 1, by omega⟩
    have hx := (h x (List.mem_cons_self _ _)).2
    have hy := h y (List.mem_cons_of_mem _ (List.mem_cons_self _ _))
    obtain ⟨c, cs, rfl⟩ : ∃ c cs, y = c :: cs := by
      cases y with
      | nil => exact absurd rfl hy.1
      | cons c cs => exact ⟨c, cs, rfl⟩
    have hc : c ≠ NUL := hy.2 c (List.mem_cons_self _ _)
    have he : pre ++ joined (x :: (c :: cs) :: ys) ++ List.replicate k NUL =
        (pre ++ (x ++ [NUL])) ++ joined ((c :: cs) :: ys) ++ List.replicate k NUL := by
      simp [joined]
    have hw : wcslen (pre ++ joined (x :: (c :: cs) :: ys) ++ List.replicate k NUL) pre.length =
        some x.length := by
      have := wcslen_stored pre x (joined ((c :: cs) :: ys) ++ List.replicate k NUL) hx
      simpa [joined, List.append_assoc] using this
    have hd : List.take x.length (List.drop pre.length
        (pre ++ joined (x :: (c :: cs) :: ys) ++ List.replicate k NUL)) = x := by
      simp [joined, List.append_assoc, List.drop_left]
    have hg : (pre ++ joined (x :: (c :: cs) :: ys) ++ List.replicate k NUL)[
        pre.length + x.length + 1]? = some c := by
      rw [he, List.append_assoc, List.getElem?_append_right (by simp; omega)]
      have h0 : pre.length + x.length + 1 - (pre ++ (x ++ [NUL])).length = 0 := by
        simp; omega
      rw [h0]
      simp [joined]
    have hrec := ih (c :: cs) (pre ++ (x ++ [NUL])) k fuel
      (fun str hstr => h str (List.mem_cons_of_mem _ hstr)) (by simpa using hf)
    rw [← he] at hrec
    have hl : (pre ++ (x ++ [NUL])).length = pre.length + x.length + 1 := by simp [Nat.add_assoc]
    rw [hl] at hrec
    simp only [PdoQueryId.walk, hw, hg, hd, hrec]
    cases k <;> simp [hc]

theorem joined_append (a : List (List Char)) (x : List Char) :
    joined (a ++ [x]) = joined a ++ (x ++ [NUL]) := by
  induction a with
  | nil => simp [joined]
  | cons y a ih => simp [joined, ih]

theorem joined_length_ge (strs : List (List Char)) : strs.length ≤ (joined strs).length := by
  induction strs with
  | nil => simp
  | cons x xs ih => simp [joined]; omega

theorem multiSz_joined (strs : List (List Char)) (k : Nat) (hne : strs ≠ [])
    (h : ∀ str ∈ strs, str ≠ [] ∧ ∀ c ∈ str, c ≠ NUL) :
    MultiSz (joined strs ++ List.replicate k NUL) = if k = 0 then none else some strs := by
  obtain ⟨x, xs, rfl⟩ : ∃ x xs, strs = x :: xs := by
    cases strs with
    | nil => exact absurd rfl hne
    | cons x xs => exact ⟨x, xs, rfl⟩
  have hl := joined_length_ge (x :: xs)
  have := walk_joined xs x [] k ((joined (x :: xs) ++ List.replicate k NUL).length + 1) h
    (by simp only [List.length_append, List.length_cons] at hl ⊢; omega)
  simpa [MultiSz] using this

theorem xenclass_text : "XENCLASS".toList ≠ [] ∧ ∀ c ∈ "XENCLASS".toList, c ≠ NUL := by
  decide

theorem deviceIdText_ne_nil (VendorName Name : String) (Revision : Nat) :
    DeviceIdText VendorName Name Revision ≠ [] := by
  intro h
  have := deviceIdText_length VendorName Name Revision
  rw [h] at this
  simp only [List.length_nil] at this
  omega

/-- Whenever the `BusQueryHardwareIDs` branch returns, the buffer holds one identifier
for each of the first `Count` revision numbers, in table order, then "XENCLASS". -/
theorem hardwareIds_done (MaximumLength cap : Nat) (s : State) (Memory : List Char) (t : State)
    (h : PdoQueryId.hardwareIds MaximumLength (List.replicate cap NUL) s = Run.done Memory t) :
    t = s ∧ ((s.Pdo.Revision.getD []).take s.Pdo.Count).length = s.Pdo.Count ∧
    MultiSz Memory = some (((s.Pdo.Revision.getD []).take s.Pdo.Count).map
      (DeviceIdText s.Fdo.VendorName s.Dx.Name) ++ ["XENCLASS".toList]) := by
  unfold PdoQueryId.hardwareIds at h
  simp only [Bind.bind, M.bind, getState] at h
  cases hid : PdoQueryId.identifiers s.Pdo.Count 0 (List.replicate cap NUL, 0, MaximumLength) s with
  | bugcheck site u => rw [hid] at h; simp at h
  | done res u =>
    rw [hid] at h
    obtain ⟨hu, hlen, k', hm, hb⟩ := identifiers_done s.Pdo.Count 0 [] cap MaximumLength s res u
      (by simpa using hid)
    subst hu
    obtain ⟨M1, B1, L1⟩ := res
    simp only [List.drop_zero, List.nil_append, List.length_nil] at hm hb hlen
    subst hm hb
    dsimp only at h
    by_cases hfit : Fits L1 k' "XENCLASS".toList.length
    · rw [print_eval _ _ L1 k' u hfit] at h
      simp only [PdoQueryId.wcslenAt, wcslen_stored _ _ _ xenclass_text.2, Pure.pure,
        M.pure] at h
      have hj := multiSz_joined
        (((u.Pdo.Revision.getD []).take u.Pdo.Count).map
          (DeviceIdText u.Fdo.VendorName u.Dx.Name) ++ ["XENCLASS".toList])
        (k' - ("XENCLASS".toList.length + 1)) (by simp) (by
          intro str hstr
          rcases List.mem_append.1 hstr with hstr | hstr
          · obtain ⟨rev, _, rfl⟩ := List.mem_map.1 hstr
            exact ⟨deviceIdText_ne_nil _ _ _, deviceIdText_noNul _ _ _⟩
          · rw [List.mem_singleton.1 hstr]; exact xenclass_text)
      rw [joined_append] at hj
      unfold MultiSz at hj
      by_cases hk : k' - ("XENCLASS".toList.length + 1) = 0
      · rw [if_pos hk] at hj
        rw [hj] at h
        simp [stop] at h
      · rw [if_neg hk] at hj
        rw [hj] at h
        injection h with h1 h2
        subst h1 h2
        refine ⟨rfl, hlen, ?_⟩
        unfold MultiSz
        rw [hj]
    · obtain ⟨site, hs⟩ := print_fail _ "XENCLASS".toList L1 k' u hfit
      rw [hs] at h
      simp at h

theorem identifiers_run : ∀ (n Index : Nat) (pre : List Char) (k Length : Nat) (s : State)
    (Lid : Nat),
    29 + (CString s.Fdo.VendorName).length + (CString s.Dx.Name).length = Lid →
    Index + n ≤ (s.Pdo.Revision.getD []).length →
    2 * (Lid + 1) + 2 * n ≤ Length →
    Length < 2 ^ 32 →
    n * (Lid + 1) ≤ k →
    PdoQueryId.identifiers n Index (pre ++ List.replicate k NUL, pre.length, Length) s =
      Run.done
        (pre ++ joined ((((s.Pdo.Revision.getD []).drop Index).take n).map
            (DeviceIdText s.Fdo.VendorName s.Dx.Name)) ++
          List.replicate (k - n * (Lid + 1)) NUL,
         (pre ++ joined ((((s.Pdo.Revision.getD []).drop Index).take n).map
            (DeviceIdText s.Fdo.VendorName s.Dx.Name))).length,
         Length - 2 * n) s := by
  intro n
  induction n with
  | zero =>
    intro Index pre k Length s Lid _ _ _ _ _
    simp [PdoQueryId.identifiers, Pure.pure, M.pure, joined]
  | succ n ih =>
    intro Index pre k Length s Lid hLid hlen hL h32 hk
    have hi : Index < (s.Pdo.Revision.getD []).length := by omega
    obtain ⟨rev, hrev⟩ : ∃ rev, (s.Pdo.Revision.getD [])[Index]? = some rev :=
      ⟨_, List.getElem?_eq_getElem hi⟩
    have htl := deviceIdText_length s.Fdo.VendorName s.Dx.Name rev
    rw [hLid] at htl
    have hmul : (n + 1) * (Lid + 1) = n * (Lid + 1) + (Lid + 1) := by ring
    rw [hmul] at hk ⊢
    generalize hm : n * (Lid + 1) = m at hk ih ⊢
    have hfit : Fits Length k (DeviceIdText s.Fdo.VendorName s.Dx.Name rev).length := by
      unfold Fits NTSTRSAFE_MAX_CCH
      rw [htl]
      refine ⟨?_, ?_, ?_⟩ <;> omega
    rw [identifiers_step n Index pre k Length s rev hrev hfit, htl]
    have hL' : (Length % 2 ^ 32 + 2 ^ 32 - 2) % 2 ^ 32 = Length - 2 := by omega
    rw [hL']
    have := ih (Index + 1) (pre ++ (DeviceIdText s.Fdo.VendorName s.Dx.Name rev ++ [NUL]))
      (k - (Lid + 1)) (Length - 2) s Lid hLid (by omega) (by omega) (by omega)
      (by rw [hm]; omega)
    rw [hm] at this
    rw [this, drop_of_getElem? _ _ _ hrev, List.take_succ_cons, List.map_cons]
    have e1 : k - (Lid + 1) - m = k - (m + (Lid + 1)) := by omega
    have e2 : Length - 2 - 2 * n = Length - 2 * (n + 1) := by omega
    rw [e1, e2]
    simp [joined, List.append_assoc]

theorem hardwareIds_run (s : State) (h1 : 1 ≤ s.Pdo.Count) (h163 : s.Pdo.Count ≤ 163)
    (hlen : s.Pdo.Count ≤ (s.Pdo.Revision.getD []).length)
    (hnames : (CString s.Fdo.VendorName).length + (CString s.Dx.Name).length ≤ 160) :
    ∃ Memory, PdoQueryId.hardwareIds (400 * s.Pdo.Count)
      (List.replicate (200 * s.Pdo.Count) NUL) s = Run.done Memory s := by
  generalize hLid : 29 + (CString s.Fdo.VendorName).length + (CString s.Dx.Name).length = Lid
  have hLid' : Lid ≤ 189 := by omega
  have hmul : s.Pdo.Count * (Lid + 1) ≤ s.Pdo.Count * 190 :=
    Nat.mul_le_mul_left _ (by omega)
  have hid := identifiers_run s.Pdo.Count 0 [] (200 * s.Pdo.Count) (400 * s.Pdo.Count) s Lid
    hLid (by omega) (by omega) (by omega) (by omega)
  simp only [List.nil_append, List.length_nil, List.drop_zero] at hid
  generalize hm : s.Pdo.Count * (Lid + 1) = m at hmul hid
  have hfit : Fits (400 * s.Pdo.Count - 2 * s.Pdo.Count) (200 * s.Pdo.Count - m)
      "XENCLASS".toList.length := by
    have h8 : "XENCLASS".toList.length = 8 := by decide
    unfold Fits NTSTRSAFE_MAX_CCH
    rw [h8]
    refine ⟨?_, ?_, ?_⟩ <;> omega
  have hj := multiSz_joined
    (((s.Pdo.Revision.getD []).take s.Pdo.Count).map
      (DeviceIdText s.Fdo.VendorName s.Dx.Name) ++ ["XENCLASS".toList])
    (200 * s.Pdo.Count - m - ("XENCLASS".toList.length + 1)) (by simp) (by
      intro str hstr
      rcases List.mem_append.1 hstr with hstr | hstr
      · obtain ⟨rev, _, rfl⟩ := List.mem_map.1 hstr
        exact ⟨deviceIdText_ne_nil _ _ _, deviceIdText_noNul _ _ _⟩
      · rw [List.mem_singleton.1 hstr]; exact xenclass_text)
  have hk : ¬ (200 * s.Pdo.Count - m - ("XENCLASS".toList.length + 1) = 0) := by
    have h8 : "XENCLASS".toList.length = 8 := by decide
    rw [h8]
    omega
  rw [if_neg hk, joined_append] at hj
  unfold MultiSz at hj
  refine ⟨joined (((s.Pdo.Revision.getD []).take s.Pdo.Count).map
      (DeviceIdText s.Fdo.VendorName s.Dx.Name)) ++ ("XENCLASS".toList ++ [NUL]) ++
    List.replicate (200 * s.Pdo.Count - m - ("XENCLASS".toList.length + 1)) NUL, ?_⟩
  unfold PdoQueryId.hardwareIds
  simp only [Bind.bind, M.bind, getState, hid]
  rw [print_eval _ _ _ _ s hfit]
  simp only [PdoQueryId.wcslenAt, wcslen_stored _ _ _ xenclass_text.2, Pure.pure, M.pure, hj]

theorem sz_stored (text : List Char) (k : Nat) (h : ∀ c ∈ text, c ≠ NUL) :
    Sz (text ++ [NUL] ++ List.replicate k NUL) = some text := by
  have := wcslen_stored [] text (List.replicate k NUL) h
  simp only [List.nil_append, List.length_nil] at this
  unfold Sz
  rw [this]
  simp [List.append_assoc]

/-- Whenever the `BusQueryDeviceID` branch returns, the buffer holds the identifier of
the revision number at index `Count - 1`. -/
theorem deviceId_done (MaximumLength cap : Nat) (s : State) (Memory : List Char) (t : State)
    (h : PdoQueryId.deviceId MaximumLength (List.replicate cap NUL) s = Run.done Memory t) :
    t = s ∧ ∃ rev, (s.Pdo.Revision.getD [])[(s.Pdo.Count + 2 ^ 32 - 1) % 2 ^ 32]? = some rev ∧
      Sz Memory = some (DeviceIdText s.Fdo.VendorName s.Dx.Name rev) := by
  unfold PdoQueryId.deviceId at h
  simp only [Bind.bind, M.bind, getState] at h
  cases hrev : (s.Pdo.Revision.getD [])[(s.Pdo.Count + 2 ^ 32 - 1) % 2 ^ 32]? with
  | none => rw [hrev] at h; simp [stop] at h
  | some rev =>
    rw [hrev] at h
    simp only [Pure.pure, M.pure, __PdoGetName] at h
    by_cases hfit : Fits MaximumLength cap (DeviceIdText s.Fdo.VendorName s.Dx.Name rev).length
    · have hp := print_eval [] (DeviceIdText s.Fdo.VendorName s.Dx.Name rev) MaximumLength cap s
        hfit
      simp only [List.nil_append, List.length_nil] at hp
      rw [hp] at h
      have hw := wcslen_stored [] (DeviceIdText s.Fdo.VendorName s.Dx.Name rev)
        (List.replicate (cap - ((DeviceIdText s.Fdo.VendorName s.Dx.Name rev).length + 1)) NUL)
        (deviceIdText_noNul _ _ _)
      simp only [List.nil_append, List.length_nil] at hw
      simp only [PdoQueryId.wcslenAt, hw, Pure.pure, M.pure] at h
      injection h with h1 h2
      subst h1 h2
      exact ⟨rfl, rev, rfl, sz_stored _ _ (deviceIdText_noNul _ _ _)⟩
    · obtain ⟨site, hs⟩ := print_fail [] (DeviceIdText s.Fdo.VendorName s.Dx.Name rev)
        MaximumLength cap s hfit
      simp only [List.nil_append, List.length_nil] at hs
      rw [hs] at h
      simp at h

theorem deviceId_run (s : State) (rev : Nat)
    (hrev : (s.Pdo.Revision.getD [])[(s.Pdo.Count + 2 ^ 32 - 1) % 2 ^ 32]? = some rev)
    (hnames : (CString s.Fdo.VendorName).length + (CString s.Dx.Name).length ≤ 168) :
    ∃ Memory, PdoQueryId.deviceId 396 (List.replicate 198 NUL) s = Run.done Memory s := by
  have htl := deviceIdText_length s.Fdo.VendorName s.Dx.Name rev
  have hfit : Fits 396 198 (DeviceIdText s.Fdo.VendorName s.Dx.Name rev).length := by
    unfold Fits NTSTRSAFE_MAX_CCH
    rw [htl]
    refine ⟨?_, ?_, ?_⟩ <;> omega
  have hp := print_eval [] (DeviceIdText s.Fdo.VendorName s.Dx.Name rev) 396 198 s hfit
  simp only [List.nil_append, List.length_nil] at hp
  have hw := wcslen_stored [] (DeviceIdText s.Fdo.VendorName s.Dx.Name rev)
    (List.replicate (198 - ((DeviceIdText s.Fdo.VendorName s.Dx.Name rev).length + 1)) NUL)
    (deviceIdText_noNul _ _ _)
  simp only [List.nil_append, List.length_nil] at hw
  refine ⟨DeviceIdText s.Fdo.VendorName s.Dx.Name rev ++ [NUL] ++
    List.replicate (198 - ((DeviceIdText s.Fdo.VendorName s.Dx.Name rev).length + 1)) NUL, ?_⟩
  unfold PdoQueryId.deviceId
  simp only [Bind.bind, M.bind, getState, hrev, Pure.pure, M.pure, __PdoGetName, hp,
    PdoQueryId.wcslenAt, hw]

theorem PdoQueryId_hardware (IdType : BUS_QUERY_ID_TYPE)
    (hty : IdType = BUS_QUERY_ID_TYPE.BusQueryHardwareIDs ∨
      IdType = BUS_QUERY_ID_TYPE.BusQueryCompatibleIDs)
    (Allocated : Bool) (IoStatus : IO_STATUS_BLOCK) (s : State) :
    PdoQueryId IdType Allocated IoStatus s =
      if Allocated then
        match PdoQueryId.hardwareIds
            ((MAX_DEVICE_ID_LEN * s.Pdo.Count) % 2 ^ 32 % 2 ^ 16 * 2 % 2 ^ 16)
            (List.replicate
              (((MAX_DEVICE_ID_LEN * s.Pdo.Count) % 2 ^ 32 % 2 ^ 16 * 2 % 2 ^ 16) / 2) NUL) s with
        | Run.done Memory t =>
          Run.done { IoStatus with Information := some Memory, Status := STATUS_SUCCESS }
            { t with Log := t.Log ++ [EVENT.IoCompleteRequest STATUS_SUCCESS] }
        | Run.bugcheck site t => Run.bugcheck site t
      else
        Run.done { IoStatus with Status := STATUS_NO_MEMORY }
          { s with Log := s.Log ++ [EVENT.IoCompleteRequest STATUS_NO_MEMORY] } := by
  rcases hty with rfl | rfl <;> cases Allocated <;>
    simp only [PdoQueryId, PdoQueryId.done, Bind.bind, M.bind, getState, emit, Pure.pure,
      M.pure, Bool.not_false, Bool.not_true, if_true, if_false, Bool.false_eq_true] <;>
    first
    | rfl
    | (cases PdoQueryId.hardwareIds _ _ s <;> rfl)

theorem PdoQueryId_device (Allocated : Bool) (IoStatus : IO_STATUS_BLOCK) (s : State) :
    PdoQueryId BUS_QUERY_ID_TYPE.BusQueryDeviceID Allocated IoStatus s =
      if Allocated then
        match PdoQueryId.deviceId 396 (List.replicate 198 NUL) s with
        | Run.done Memory t =>
          Run.done { IoStatus with Information := some Memory, Status := STATUS_SUCCESS }
            { t with Log := t.Log ++ [EVENT.IoCompleteRequest STATUS_SUCCESS] }
        | Run.bugcheck site t => Run.bugcheck site t
      else
        Run.done { IoStatus with Status := STATUS_NO_MEMORY }
          { s with Log := s.Log ++ [EVENT.IoCompleteRequest STATUS_NO_MEMORY] } := by
  cases Allocated <;>
    simp only [PdoQueryId, PdoQueryId.done, Bind.bind, M.bind, getState, emit, Pure.pure,
      M.pure, Bool.not_false, Bool.not_true, if_true, if_false, Bool.false_eq_true,
      MAX_DEVICE_ID_LEN]
  cases PdoQueryId.deviceId _ _ s <;> rfl

/-- Whenever a `BusQueryHardwareIDs` or `BusQueryCompatibleIDs` query returns success, the
buffer it hands back holds `Count + 1` strings: the identifier of each of the `Count`
revision numbers, in table order, then "XENCLASS". -/
theorem hardware_ids_when_query_succeeds (IdType : BUS_QUERY_ID_TYPE)
    (hty : IdType = BUS_QUERY_ID_TYPE.BusQueryHardwareIDs ∨
      IdType = BUS_QUERY_ID_TYPE.BusQueryCompatibleIDs)
    (Allocated : Bool) (IoStatus r : IO_STATUS_BLOCK) (s t : State)
    (h : PdoQueryId IdType Allocated IoStatus s = Run.done r t)
    (hs : r.Status = STATUS_SUCCESS) :
    ∃ Memory, r.Information = some Memory ∧
      ((s.Pdo.Revision.getD []).take s.Pdo.Count).length = s.Pdo.Count ∧
      MultiSz Memory = some (((s.Pdo.Revision.getD []).take s.Pdo.Count).map
        (DeviceIdText s.Fdo.VendorName s.Dx.Name) ++ ["XENCLASS".toList]) := by
  rw [PdoQueryId_hardware IdType hty] at h
  cases Allocated with
  | false =>
    simp only [Bool.false_eq_true, if_false] at h
    injection h with h1 h2
    rw [← h1] at hs
    exact absurd hs (show STATUS_NO_MEMORY ≠ STATUS_SUCCESS by decide)
  | true =>
    simp only [if_true] at h
    cases hh : PdoQueryId.hardwareIds
        ((MAX_DEVICE_ID_LEN * s.Pdo.Count) % 2 ^ 32 % 2 ^ 16 * 2 % 2 ^ 16)
        (List.replicate
          (((MAX_DEVICE_ID_LEN * s.Pdo.Count) % 2 ^ 32 % 2 ^ 16 * 2 % 2 ^ 16) / 2) NUL) s with
    | bugcheck site u => rw [hh] at h; simp at h
    | done Memory u =>
      rw [hh] at h
      obtain ⟨_, hlen, hm⟩ := hardwareIds_done _ _ s Memory u hh
      injection h with h1 h2
      exact ⟨Memory, by rw [← h1], hlen, hm⟩

/-- A `BusQueryHardwareIDs` or `BusQueryCompatibleIDs` query returns success when memory
is found, the table has between 1 and 163 entries and the vendor and node names have at
most 160 characters together. -/
theorem hardware_ids_query_succeeds (IdType : BUS_QUERY_ID_TYPE)
    (hty : IdType = BUS_QUERY_ID_TYPE.BusQueryHardwareIDs ∨
      IdType = BUS_QUERY_ID_TYPE.BusQueryCompatibleIDs)
    (IoStatus : IO_STATUS_BLOCK) (s : State) (h1 : 1 ≤ s.Pdo.Count) (h163 : s.Pdo.Count ≤ 163)
    (hlen : s.Pdo.Count ≤ (s.Pdo.Revision.getD []).length)
    (hnames : (CString s.Fdo.VendorName).length + (CString s.Dx.Name).length ≤ 160) :
    ∃ r t, PdoQueryId IdType true IoStatus s = Run.done r t ∧ r.Status = STATUS_SUCCESS := by
  obtain ⟨Memory, hm⟩ := hardwareIds_run s h1 h163 hlen hnames
  have e1 : (MAX_DEVICE_ID_LEN * s.Pdo.Count) % 2 ^ 32 % 2 ^ 16 * 2 % 2 ^ 16 =
      400 * s.Pdo.Count := by
    unfold MAX_DEVICE_ID_LEN; omega
  have e2 : 400 * s.Pdo.Count / 2 = 200 * s.Pdo.Count := by omega
  rw [PdoQueryId_hardware IdType hty, e1, e2, hm]
  exact ⟨_, _, rfl, rfl⟩

theorem device_id_when_query_succeeds (Allocated : Bool) (IoStatus r : IO_STATUS_BLOCK)
    (s t : State)
    (h : PdoQueryId BUS_QUERY_ID_TYPE.BusQueryDeviceID Allocated IoStatus s = Run.done r t)
    (hs : r.Status = STATUS_SUCCESS) :
    ∃ Memory rev, r.Information = some Memory ∧
      (s.Pdo.Revision.getD [])[(s.Pdo.Count + 2 ^ 32 - 1) % 2 ^ 32]? = some rev ∧
      Sz Memory = some (DeviceIdText s.Fdo.VendorName s.Dx.Name rev) := by
  rw [PdoQueryId_device] at h
  cases Allocated with
  | false =>
    simp only [Bool.false_eq_true, if_false] at h
    injection h with h1 h2
    rw [← h1] at hs
    exact absurd hs (show STATUS_NO_MEMORY ≠ STATUS_SUCCESS by decide)
  | true =>
    simp only [if_true] at h
    cases hh : PdoQueryId.deviceId 396 (List.replicate 198 NUL) s with
    | bugcheck site u => rw [hh] at h; simp at h
    | done Memory u =>
      rw [hh] at h
      obtain ⟨_, rev, hrev, hm⟩ := deviceId_done _ _ s Memory u hh
      injection h with h1 h2
      exact ⟨Memory, rev, by rw [← h1], hrev, hm⟩

theorem device_id_query_succeeds (IoStatus : IO_STATUS_BLOCK) (s : State) (rev : Nat)
    (hrev : (s.Pdo.Revision.getD [])[(s.Pdo.Count + 2 ^ 32 - 1) % 2 ^ 32]? = some rev)
    (hnames : (CString s.Fdo.VendorName).length + (CString s.Dx.Name).length ≤ 168) :
    ∃ r t, PdoQueryId BUS_QUERY_ID_TYPE.BusQueryDeviceID true IoStatus s = Run.done r t ∧
      r.Status = STATUS_SUCCESS := by
  obtain ⟨Memory, hm⟩ := deviceId_run s rev hrev hnames
  rw [PdoQueryId_device, if_pos rfl, hm]
  exact ⟨_, _, rfl, rfl⟩

theorem take_count_last (l : List Nat) (n last : Nat) (h1 : 1 ≤ n)
    (hlast : l[n - 1]? = some last) : l.take n = l.take (n - 1) ++ [last] := by
  obtain ⟨m, rfl⟩ : ∃ m, n = m + 1 := ⟨n - 1, by omega⟩
  simp only [Nat.add_sub_cancel] at hlast ⊢
  rw [List.take_succ, hlast]
  rfl

/-- C13 fails as stated: for the sample node with a table of two entries, the list a
`BusQueryHardwareIDs` query returns ends with "XENCLASS", which does not contain the
hexadecimal digits of the last revision number, 00000002. -/
theorem hardware_ids_end_with_class_identifier :
    ∃ l, (PdoQueryId BUS_QUERY_ID_TYPE.BusQueryHardwareIDs true unhandled
        (nodeWithTable 2)).value.bind (fun i => i.Information.bind MultiSz) = some l ∧
      l.getLast? = some "XENCLASS".toList ∧
      Hex08X 2 = "00000002".toList ∧
      ¬ ∃ before after, "XENCLASS".toList = before ++ Hex08X 2 ++ after := by
  refine ⟨["XENBUS\\VEN_XS&DEV_vif&REV_00000001".toList,
    "XENBUS\\VEN_XS&DEV_vif&REV_00000002".toList, "XENCLASS".toList], by decide!, by decide,
    by decide, ?_⟩
  rintro ⟨before, after, h⟩
  have hl := congrArg List.length h
  simp only [List.length_append] at hl
  have h8 : "XENCLASS".toList.length = 8 := by decide
  have h8' : (Hex08X 2).length = 8 := by decide
  rw [h8, h8'] at hl
  have hb : before = [] := List.length_eq_zero.1 (by omega)
  have ha : after = [] := List.length_eq_zero.1 (by omega)
  subst hb ha
  simp only [List.nil_append, List.append_nil] at h
  exact absurd h (by decide)

/-- C13, as amended: on a node whose table has at least one entry, whenever a
`BusQueryDeviceID` query returns success the identifier it hands back is the one built
from the number of the last table entry, and whenever a `BusQueryHardwareIDs` or
`BusQueryCompatibleIDs` query returns success the last identifier before the final
"XENCLASS" of the list it hands back is that same identifier, which ends with the eight
hexadecimal digits of that number. The queries do return success when memory is found,
the table has at most 163 entries and the vendor and node names have at most 160
characters together. -/
theorem device_id_and_last_hardware_id_name_last_revision (Allocated : Bool)
    (IoStatus : IO_STATUS_BLOCK) (s : State) (last : Nat)
    (h1 : 1 ≤ s.Pdo.Count) (h32 : s.Pdo.Count < 2 ^ 32)
    (hlast : (s.Pdo.Revision.getD [])[s.Pdo.Count - 1]? = some last) :
    (∀ r t, PdoQueryId BUS_QUERY_ID_TYPE.BusQueryDeviceID Allocated IoStatus s = Run.done r t →
      r.Status = STATUS_SUCCESS →
      ∃ Memory, r.Information = some Memory ∧
        Sz Memory = some (DeviceIdText s.Fdo.VendorName s.Dx.Name last)) ∧
    (∀ IdType, IdType = BUS_QUERY_ID_TYPE.BusQueryHardwareIDs ∨
        IdType = BUS_QUERY_ID_TYPE.BusQueryCompatibleIDs →
      ∀ r t, PdoQueryId IdType Allocated IoStatus s = Run.done r t →
      r.Status = STATUS_SUCCESS →
      ∃ Memory earlier, r.Information = some Memory ∧ earlier.length + 1 = s.Pdo.Count ∧
        MultiSz Memory = some (earlier ++
          [DeviceIdText s.Fdo.VendorName s.Dx.Name last, "XENCLASS".toList])) ∧
    (∃ head, DeviceIdText s.Fdo.VendorName s.Dx.Name last = head ++ Hex08X last) ∧
    (s.Pdo.Count ≤ 163 →
      (CString s.Fdo.VendorName).length + (CString s.Dx.Name).length ≤ 160 →
      ∀ IdType, IdType = BUS_QUERY_ID_TYPE.BusQueryDeviceID ∨
        IdType = BUS_QUERY_ID_TYPE.BusQueryHardwareIDs ∨
        IdType = BUS_QUERY_ID_TYPE.BusQueryCompatibleIDs →
      ∃ r t, PdoQueryId IdType true IoStatus s = Run.done r t ∧
        r.Status = STATUS_SUCCESS) := by
  have hidx : (s.Pdo.Count + 2 ^ 32 - 1) % 2 ^ 32 = s.Pdo.Count - 1 := by omega
  refine ⟨?_, ?_, ⟨_, rfl⟩, ?_⟩
  · intro r t h hs
    obtain ⟨Memory, rev, hi, hrev, hm⟩ := device_id_when_query_succeeds Allocated IoStatus r s t h hs
    rw [hidx, hlast] at hrev
    injection hrev with hrev
    subst hrev
    exact ⟨Memory, hi, hm⟩
  · intro IdType hty r t h hs
    obtain ⟨Memory, hi, hlen, hm⟩ :=
      hardware_ids_when_query_succeeds IdType hty Allocated IoStatus r s t h hs
    rw [take_count_last _ _ last h1 hlast] at hm hlen
    refine ⟨Memory, ((s.Pdo.Revision.getD []).take (s.Pdo.Count - 1)).map
      (DeviceIdText s.Fdo.VendorName s.Dx.Name), hi, ?_, ?_⟩
    · simpa using hlen
    · simpa using hm
  · intro h163 hnames IdType hty
    rcases hty with rfl | hty
    · exact device_id_query_succeeds IoStatus s last (by rw [hidx]; exact hlast) (by omega)
    · have hlen : s.Pdo.Count ≤ (s.Pdo.Revision.getD []).length := by
        have := (List.getElem?_eq_some.1 hlast).1
        omega
      exact hardware_ids_query_succeeds IdType hty IoStatus s h1 h163 hlen hnames

/-- Witness for C13 as amended: the sample node with a table of two entries. -/
theorem device_id_and_last_hardware_id_name_last_revision_witness :
    1 ≤ (nodeWithTable 2).Pdo.Count ∧ (nodeWithTable 2).Pdo.Count < 2 ^ 32 ∧
    ((nodeWithTable 2).Pdo.Revision.getD [])[(nodeWithTable 2).Pdo.Count - 1]? = some 2 ∧
    ∃ r t, PdoQueryId BUS_QUERY_ID_TYPE.BusQueryHardwareIDs true unhandled (nodeWithTable 2) =
      Run.done r t ∧ r.Status = STATUS_SUCCESS :=
  ⟨by decide, by decide, by decide,
    (device_id_and_last_hardware_id_name_last_revision true unhandled (nodeWithTable 2) 2
      (by decide) (by decide) (by decide)).2.2.2 (by decide) (by decide)
      BUS_QUERY_ID_TYPE.BusQueryHardwareIDs (Or.inr (Or.inl rfl))⟩

/-- C14 fails on the code: with a table of 164 entries the capacity that reaches the
16-bit field `MaximumLength` is 64 bytes, the first identifier, of 34 characters, does
not fit and the query stops at `ASSERT(NT_SUCCESS(status))`; with 328 entries the capacity
is 128 bytes and the second identifier is stored outside the allocation. No list is
returned. -/
theorem hardware_ids_query_stops_from_164_entries :
    (nodeWithTable 164).Pdo.Count = 164 ∧
    ((nodeWithTable 164).Pdo.Revision.getD []).length = 164 ∧
    (PdoQueryId BUS_QUERY_ID_TYPE.BusQueryHardwareIDs true unhandled (nodeWithTable 164)).site =
      some ASSERTION.QueryIdFormat ∧
    (PdoQueryId BUS_QUERY_ID_TYPE.BusQueryCompatibleIDs true unhandled
      (nodeWithTable 164)).site = some ASSERTION.QueryIdFormat ∧
    (PdoQueryId BUS_QUERY_ID_TYPE.BusQueryHardwareIDs true unhandled (nodeWithTable 328)).site =
      some ASSERTION.AccessOutsideAllocation ∧
    (PdoQueryId BUS_QUERY_ID_TYPE.BusQueryHardwareIDs true unhandled
      (nodeWithTable 164)).value = none :=
  ⟨by decide!, by decide!, by decide!, by decide!, by decide!, by decide!⟩

/-! ## Power requests: checked properties -/

theorem systemPowerWrites_append (l1 l2 : List EVENT) :
    systemPowerWrites (l1 ++ l2) = systemPowerWrites l1 ++ systemPowerWrites l2 := by
  induction l1 with
  | nil => rfl
  | cons e l1 ih => cases e <;> simp [systemPowerWrites, ih]

/-- C15: for every recorded and every requested system power state, with a power action
below the shutdown class, `PdoSetSystemPower` returns success, the recorded system power
state is then exactly the requested one, and the device power state, the fields of the
node and the PnP state are unchanged. -/
theorem system_power_records_requested_state (Irp : IRP) (s : State)
    (h : Irp.ShutdownType.toNat < POWER_ACTION.PowerActionShutdown.toNat) :
    ∃ t, PdoSetSystemPower Irp s = Run.done STATUS_SUCCESS t ∧
      t.Dx.SystemPowerState = Irp.SystemState ∧
      t.Dx.DevicePowerState = s.Dx.DevicePowerState ∧
      t.Dx.DevicePnpState = s.Dx.DevicePnpState ∧
      t.Pdo = s.Pdo := by
  obtain ⟨⟨pnp, prev, sys, dev, name⟩, pdo, fdo, al, log⟩ := s
  obtain ⟨ty, ss, ds, act, st⟩ := Irp
  simp only at h
  cases sys <;> cases ss <;>
    simp [PdoSetSystemPower, PdoS4ToS3, PdoS3ToS4, __PdoSetSystemPowerState,
      __PdoGetSystemPowerState, SYSTEM_POWER_STATE.toNat, Bind.bind, M.bind, Pure.pure, M.pure,
      getState, emit, ASSERT, h]

/-- Witness for C15: the sample node, recorded Working, is asked to hibernate. -/
theorem system_power_records_requested_state_witness :
    sampleIrp.ShutdownType.toNat < POWER_ACTION.PowerActionShutdown.toNat ∧
    ∃ t, PdoSetSystemPower
        { sampleIrp with SystemState := SYSTEM_POWER_STATE.PowerSystemHibernate } sampleNode =
        Run.done STATUS_SUCCESS t ∧
      t.Dx.SystemPowerState = SYSTEM_POWER_STATE.PowerSystemHibernate ∧
      t.Dx.DevicePowerState = sampleNode.Dx.DevicePowerState :=
  ⟨by decide,
    (system_power_records_requested_state
      { sampleIrp with SystemState := SYSTEM_POWER_STATE.PowerSystemHibernate } sampleNode
      (by decide)).imp (fun _ h => ⟨h.1, h.2.1, h.2.2.1⟩)⟩

/-- C16: with a power action below the shutdown class, when the recorded state is at or
deeper than Hibernate and the requested one is shallower, `PdoSetSystemPower` returns and
the values it wrote to the recorded system power state are Hibernate, Sleeping3 and the
requested state, in that order; when the recorded state is shallower than Hibernate and
the requested one is at or deeper, they are Sleeping3, Hibernate and the requested state.
The run returns, so the entry assertion of the nested `PdoS4ToS3` or `PdoS3ToS4` held. -/
theorem hibernate_boundary_is_crossed_in_two_steps (Irp : IRP) (s : State)
    (h : Irp.ShutdownType.toNat < POWER_ACTION.PowerActionShutdown.toNat) :
    (SYSTEM_POWER_STATE.PowerSystemHibernate.toNat ≤ s.Dx.SystemPowerState.toNat →
      Irp.SystemState.toNat < SYSTEM_POWER_STATE.PowerSystemHibernate.toNat →
      ∃ t, PdoSetSystemPower Irp s = Run.done STATUS_SUCCESS t ∧
        systemPowerWrites t.Log = systemPowerWrites s.Log ++
          [SYSTEM_POWER_STATE.PowerSystemHibernate, SYSTEM_POWER_STATE.PowerSystemSleeping3,
           Irp.SystemState]) ∧
    (s.Dx.SystemPowerState.toNat < SYSTEM_POWER_STATE.PowerSystemHibernate.toNat →
      SYSTEM_POWER_STATE.PowerSystemHibernate.toNat ≤ Irp.SystemState.toNat →
      ∃ t, PdoSetSystemPower Irp s = Run.done STATUS_SUCCESS t ∧
        systemPowerWrites t.Log = systemPowerWrites s.Log ++
          [SYSTEM_POWER_STATE.PowerSystemSleeping3, SYSTEM_POWER_STATE.PowerSystemHibernate,
           Irp.SystemState]) := by
  obtain ⟨⟨pnp, prev, sys, dev, name⟩, pdo, fdo, al, log⟩ := s
  obtain ⟨ty, ss, ds, act, st⟩ := Irp
  simp only at h
  constructor <;> intro h1 h2 <;> cases sys <;> cases ss <;>
    simp [SYSTEM_POWER_STATE.toNat] at h1 h2 <;>
    simp [PdoSetSystemPower, PdoS4ToS3, PdoS3ToS4, __PdoSetSystemPowerState,
      __PdoGetSystemPowerState, SYSTEM_POWER_STATE.toNat, Bind.bind, M.bind, Pure.pure, M.pure,
      getState, emit, ASSERT, h, systemPowerWrites_append, systemPowerWrites]

/-- Witness for C16: recorded Hibernate, requested Sleeping1. -/
theorem hibernate_boundary_is_crossed_in_two_steps_witness :
    sampleIrp.ShutdownType.toNat < POWER_ACTION.PowerActionShutdown.toNat ∧
    ∃ t, PdoSetSystemPower
        { sampleIrp with SystemState := SYSTEM_POWER_STATE.PowerSystemSleeping1 }
        { sampleNode with Dx := { sampleNode.Dx with
            SystemPowerState := SYSTEM_POWER_STATE.PowerSystemHibernate } } =
        Run.done STATUS_SUCCESS t ∧
      systemPowerWrites t.Log =
        [SYSTEM_POWER_STATE.PowerSystemHibernate, SYSTEM_POWER_STATE.PowerSystemSleeping3,
         SYSTEM_POWER_STATE.PowerSystemSleeping1] :=
  ⟨by decide,
    (hibernate_boundary_is_crossed_in_two_steps
      { sampleIrp with SystemState := SYSTEM_POWER_STATE.PowerSystemSleeping1 }
      { sampleNode with Dx := { sampleNode.Dx with
          SystemPowerState := SYSTEM_POWER_STATE.PowerSystemHibernate } }
      (by decide)).1 (by decide) (by decide)⟩

/-- C17: a set-power request whose power action is at or above `PowerActionShutdown`,
whatever its power type and requested state, is completed with success by `PdoSetPower`,
which returns success and changes nothing in the node but the log of calls: the device
power state, the system power state and both power mailboxes are as before. -/
theorem shutdown_class_set_power_touches_nothing (Requests : Nat → IRP) (Irp : Nat) (s : State)
    (h : POWER_ACTION.PowerActionShutdown.toNat ≤ (Requests Irp).ShutdownType.toNat) :
    PdoSetPower Requests Irp s =
      Run.done STATUS_SUCCESS
        { s with Log := s.Log ++ [EVENT.IoCompleteRequest STATUS_SUCCESS] } := by
  simp [PdoSetPower, Bind.bind, M.bind, Pure.pure, M.pure, emit, h]

/-- Witness for C17: a device power request with action `PowerActionShutdownOff`. -/
theorem shutdown_class_set_power_touches_nothing_witness :
    POWER_ACTION.PowerActionShutdown.toNat ≤
      ((fun _ => { sampleIrp with ShutdownType := POWER_ACTION.PowerActionShutdownOff }) 5 :
        IRP).ShutdownType.toNat ∧
    PdoSetPower (fun _ => { sampleIrp with ShutdownType := POWER_ACTION.PowerActionShutdownOff })
        5 startedNode =
      Run.done STATUS_SUCCESS
        { startedNode with
          Log := startedNode.Log ++ [EVENT.IoCompleteRequest STATUS_SUCCESS] } :=
  ⟨by decide,
    shutdown_class_set_power_touches_nothing
      (fun _ => { sampleIrp with ShutdownType := POWER_ACTION.PowerActionShutdownOff }) 5
      startedNode (by decide)⟩

/-! ## Power requests: checked properties (part 2) -/

theorem keeps_bind {α β : Type} (R : State → State → Prop)
    (htrans : ∀ a b c, R a b → R b c → R a c) (m : M α) (f : α → M β)
    (hm : Keeps R m) (hf : ∀ a, Keeps R (f a)) : Keeps R (M.bind m f) := by
  intro s
  have h1 := hm s
  unfold M.bind
  cases h : m s with
  | done a t =>
    rw [h] at h1
    exact htrans _ _ _ h1 (hf a t)
  | bugcheck site t =>
    rw [h] at h1
    exact h1

theorem keeps_ite {α : Type} (R : State → State → Prop) (c : Prop) [Decidable c] (a b : M α)
    (ha : Keeps R a) (hb : Keeps R b) : Keeps R (if c then a else b) := by
  split
  · exact ha
  · exact hb

theorem keeps_pure {α : Type} (R : State → State → Prop) (hrefl : ∀ a, R a a) (a : α) :
    Keeps R (M.pure a) := fun s => hrefl s

theorem keeps_getState (R : State → State → Prop) (hrefl : ∀ a, R a a) :
    Keeps R getState := fun s => hrefl s

theorem keeps_ASSERT (R : State → State → Prop) (hrefl : ∀ a, R a a) (site : ASSERTION)
    (c : Bool) : Keeps R (ASSERT site c) := by
  intro s
  unfold ASSERT
  split <;> exact hrefl s

theorem samePowerRequests_refl (a : State) : SamePowerRequests a a := ⟨rfl, rfl, rfl⟩

theorem samePowerRequests_trans (a b c : State) (h1 : SamePowerRequests a b)
    (h2 : SamePowerRequests b c) : SamePowerRequests a c :=
  ⟨h2.1.trans h1.1, h2.2.1.trans h1.2.1, h2.2.2.trans h1.2.2⟩

theorem samePowerRequests_emit (e : EVENT) : Keeps SamePowerRequests (emit e) :=
  fun _ => ⟨rfl, rfl, rfl⟩

theorem samePowerRequests_setDevicePowerState (State : DEVICE_POWER_STATE) :
    Keeps SamePowerRequests (__PdoSetDevicePowerState State) :=
  fun _ => ⟨rfl, rfl, rfl⟩

theorem samePowerRequests_SuspendRegister (o : SUSPEND_OUTCOME) :
    Keeps SamePowerRequests (SuspendRegister o) := by
  intro s
  unfold SuspendRegister
  split <;> exact ⟨rfl, rfl, rfl⟩

theorem samePowerRequests___PdoD3ToD0 :
    Keeps SamePowerRequests __PdoD3ToD0 := by
  unfold __PdoD3ToD0
  simp only [Bind.bind, Pure.pure]
  repeat' (first
    | with_reducible exact keeps_pure _ samePowerRequests_refl _
    | with_reducible exact keeps_getState _ samePowerRequests_refl
    | with_reducible exact keeps_ASSERT _ samePowerRequests_refl _ _
    | with_reducible exact samePowerRequests_emit _
    | with_reducible exact samePowerRequests_setDevicePowerState _
    | with_reducible exact samePowerRequests_SuspendRegister _
    | with_reducible refine keeps_ite _ _ _ _ ?_ ?_
    | with_reducible refine keeps_bind _ samePowerRequests_trans _ _ ?_ ?_
    | exact fun _ => ⟨rfl, rfl, rfl⟩
    | intro _)

theorem samePowerRequests___PdoD0ToD3 :
    Keeps SamePowerRequests __PdoD0ToD3 := by
  unfold __PdoD0ToD3
  simp only [Bind.bind, Pure.pure]
  repeat' (first
    | with_reducible exact keeps_pure _ samePowerRequests_refl _
    | with_reducible exact keeps_getState _ samePowerRequests_refl
    | with_reducible exact keeps_ASSERT _ samePowerRequests_refl _ _
    | with_reducible exact samePowerRequests_emit _
    | with_reducible exact samePowerRequests_setDevicePowerState _
    | with_reducible exact samePowerRequests_SuspendRegister _
    | with_reducible refine keeps_ite _ _ _ _ ?_ ?_
    | with_reducible refine keeps_bind _ samePowerRequests_trans _ _ ?_ ?_
    | exact fun _ => ⟨rfl, rfl, rfl⟩
    | intro _)

theorem samePowerRequests_PdoD3ToD0 (o : SUSPEND_OUTCOME) :
    Keeps SamePowerRequests (PdoD3ToD0 o) := by
  unfold PdoD3ToD0
  simp only [Bind.bind, Pure.pure]
  repeat' (first
    | with_reducible exact keeps_pure _ samePowerRequests_refl _
    | with_reducible exact keeps_getState _ samePowerRequests_refl
    | with_reducible exact keeps_ASSERT _ samePowerRequests_refl _ _
    | with_reducible exact samePowerRequests_emit _
    | with_reducible exact samePowerRequests_setDevicePowerState _
    | with_reducible exact samePowerRequests_SuspendRegister _
    | with_reducible exact samePowerRequests___PdoD3ToD0
    | with_reducible exact samePowerRequests___PdoD0ToD3
    | with_reducible refine keeps_ite _ _ _ _ ?_ ?_
    | with_reducible refine keeps_bind _ samePowerRequests_trans _ _ ?_ ?_
    | exact fun _ => ⟨rfl, rfl, rfl⟩
    | intro _)

theorem samePowerRequests_PdoD0ToD3 :
    Keeps SamePowerRequests PdoD0ToD3 := by
  unfold PdoD0ToD3
  simp only [Bind.bind, Pure.pure]
  repeat' (first
    | with_reducible exact keeps_pure _ samePowerRequests_refl _
    | with_reducible exact keeps_getState _ samePowerRequests_refl
    | with_reducible exact keeps_ASSERT _ samePowerRequests_refl _ _
    | with_reducible exact samePowerRequests_emit _
    | with_reducible exact samePowerRequests_setDevicePowerState _
    | with_reducible exact samePowerRequests_SuspendRegister _
    | with_reducible exact samePowerRequests___PdoD0ToD3
    | with_reducible refine keeps_ite _ _ _ _ ?_ ?_
    | with_reducible refine keeps_bind _ samePowerRequests_trans _ _ ?_ ?_
    | exact fun _ => ⟨rfl, rfl, rfl⟩
    | intro _)

theorem samePowerRequests_PdoSetDevicePower (Irp : IRP) (o : SUSPEND_OUTCOME) :
    Keeps SamePowerRequests (PdoSetDevicePower Irp o) := by
  unfold PdoSetDevicePower
  simp only [Bind.bind, Pure.pure]
  repeat' (first
    | with_reducible exact keeps_pure _ samePowerRequests_refl _
    | with_reducible exact keeps_getState _ samePowerRequests_refl
    | with_reducible exact keeps_ASSERT _ samePowerRequests_refl _ _
    | with_reducible exact samePowerRequests_emit _
    | with_reducible exact samePowerRequests_setDevicePowerState _
    | with_reducible exact samePowerRequests_SuspendRegister _
    | with_reducible exact samePowerRequests_PdoD3ToD0 _
    | with_reducible exact samePowerRequests_PdoD0ToD3
    | with_reducible refine keeps_ite _ _ _ _ ?_ ?_
    | with_reducible refine keeps_bind _ samePowerRequests_trans _ _ ?_ ?_
    | exact fun _ => ⟨rfl, rfl, rfl⟩
    | intro _)

/-! ## Power requests: checked properties (part 3) -/

theorem PdoSetPower_device_empty (Requests : Nat → IRP) (Irp : Nat) (s : State)
    (hty : (Requests Irp).PowerType = POWER_STATE_TYPE.DevicePowerState)
    (hact : (Requests Irp).ShutdownType.toNat < POWER_ACTION.PowerActionShutdown.toNat)
    (hempty : s.Pdo.DevicePowerIrp = none) :
    PdoSetPower Requests Irp s =
      Run.done STATUS_PENDING { s with
        Pdo := { s.Pdo with DevicePowerIrp := some Irp }
        Log := s.Log ++ [EVENT.IoMarkIrpPending Irp, EVENT.ThreadWakeDevicePower] } := by
  simp [PdoSetPower, Bind.bind, M.bind, Pure.pure, M.pure, getState, emit, ASSERT, hty,
    Nat.not_le.2 hact, hempty]

theorem PdoSetPower_device_full (Requests : Nat → IRP) (Irp : Nat) (s : State)
    (hty : (Requests Irp).PowerType = POWER_STATE_TYPE.DevicePowerState)
    (hact : (Requests Irp).ShutdownType.toNat < POWER_ACTION.PowerActionShutdown.toNat)
    (hfull : s.Pdo.DevicePowerIrp ≠ none) :
    PdoSetPower Requests Irp s =
      Run.bugcheck ASSERTION.DevicePowerIrpIsNull
        { s with Log := s.Log ++ [EVENT.IoMarkIrpPending Irp] } := by
  cases hm : s.Pdo.DevicePowerIrp with
  | none => exact absurd hm hfull
  | some p =>
    simp [PdoSetPower, Bind.bind, M.bind, Pure.pure, M.pure, getState, emit, ASSERT, hty,
      Nat.not_le.2 hact, hm]

theorem PdoDevicePower_pass_takes (Requests : Nat → IRP) (o : SUSPEND_OUTCOME) (s : State) :
    (PdoDevicePower.pass Requests false o s).state.Pdo.DevicePowerIrp = none := by
  cases hm : s.Pdo.DevicePowerIrp with
  | none =>
    simp [PdoDevicePower.pass, Bind.bind, M.bind, Pure.pure, M.pure, getState, hm, Run.state]
  | some p =>
    have h := samePowerRequests_PdoSetDevicePower (Requests p) o
      { s with Pdo := { s.Pdo with DevicePowerIrp := none } }
    cases hr : PdoSetDevicePower (Requests p) o
        { s with Pdo := { s.Pdo with DevicePowerIrp := none } } <;>
      · rw [hr] at h
        simpa [PdoDevicePower.pass, Bind.bind, M.bind, Pure.pure, M.pure, getState, hm,
          Run.state, hr] using h.1

/-- C18, as amended: for device-power set requests with a power action below the shutdown
class:
`PdoSetPower` on a node whose device-power mailbox holds a request stops at the
mailbox-empty assertion; on a node whose mailbox is empty it stores the request, returns
`STATUS_PENDING` and changes nothing else but the log of calls, so the device power state
is as before; a pass of the worker `PdoDevicePower` then leaves the mailbox empty, after
which one further request is accepted in the same way and the one after that stops at
the assertion again. -/
theorem device_power_mailbox_holds_one_request (Requests : Nat → IRP) (First Next Later : Nat)
    (o : SUSPEND_OUTCOME) (s : State)
    (hty : ∀ Irp, (Requests Irp).PowerType = POWER_STATE_TYPE.DevicePowerState)
    (hact : ∀ Irp,
      (Requests Irp).ShutdownType.toNat < POWER_ACTION.PowerActionShutdown.toNat) :
    (s.Pdo.DevicePowerIrp ≠ none →
      PdoSetPower Requests First s =
        Run.bugcheck ASSERTION.DevicePowerIrpIsNull
          { s with Log := s.Log ++ [EVENT.IoMarkIrpPending First] }) ∧
    (s.Pdo.DevicePowerIrp = none →
      ∃ t, PdoSetPower Requests First s = Run.done STATUS_PENDING t ∧
        t = { s with
          Pdo := { s.Pdo with DevicePowerIrp := some First }
          Log := s.Log ++ [EVENT.IoMarkIrpPending First, EVENT.ThreadWakeDevicePower] } ∧
        t.Dx.DevicePowerState = s.Dx.DevicePowerState ∧
        (∃ u, PdoSetPower Requests Next t = Run.bugcheck ASSERTION.DevicePowerIrpIsNull u) ∧
        (PdoDevicePower.pass Requests false o t).state.Pdo.DevicePowerIrp = none ∧
        ∃ v, PdoSetPower Requests Next (PdoDevicePower.pass Requests false o t).state =
            Run.done STATUS_PENDING v ∧
          v.Pdo.DevicePowerIrp = some Next ∧
          ∃ w, PdoSetPower Requests Later v =
            Run.bugcheck ASSERTION.DevicePowerIrpIsNull w) := by
  refine ⟨PdoSetPower_device_full Requests First s (hty _) (hact _), ?_⟩
  intro hempty
  have htaken := PdoDevicePower_pass_takes Requests o
    { s with
      Pdo := { s.Pdo with DevicePowerIrp := some First }
      Log := s.Log ++ [EVENT.IoMarkIrpPending First, EVENT.ThreadWakeDevicePower] }
  refine ⟨_, PdoSetPower_device_empty Requests First s (hty _) (hact _) hempty, rfl, rfl,
    ⟨_, PdoSetPower_device_full Requests Next _ (hty _) (hact _) (by simp)⟩, htaken,
    _, PdoSetPower_device_empty Requests Next _ (hty _) (hact _) htaken, rfl,
    _, PdoSetPower_device_full Requests Later _ (hty _) (hact _) (by simp)⟩

/-- Witness for C18 as amended: three requests to power the sample node up, submitted at
addresses 1, 2 and 3. -/
theorem device_power_mailbox_holds_one_request_witness :
    (∀ Irp : Nat, ((fun _ => sampleIrp) Irp : IRP).PowerType =
      POWER_STATE_TYPE.DevicePowerState) ∧
    (∀ Irp : Nat, ((fun _ => sampleIrp) Irp : IRP).ShutdownType.toNat <
      POWER_ACTION.PowerActionShutdown.toNat) ∧
    sampleNode.Pdo.DevicePowerIrp = none ∧
    ∃ t, PdoSetPower (fun _ => sampleIrp) 1 sampleNode = Run.done STATUS_PENDING t ∧
      (PdoDevicePower.pass (fun _ => sampleIrp) false suspendSucceeds t).state.Pdo.DevicePowerIrp
        = none :=
  ⟨fun _ => rfl,
    fun _ => show sampleIrp.ShutdownType.toNat < POWER_ACTION.PowerActionShutdown.toNat
      from by decide,
    rfl,
    ((device_power_mailbox_holds_one_request (fun _ => sampleIrp) 1 2 3 suspendSucceeds
      sampleNode (fun _ => rfl)
      (fun _ => show sampleIrp.ShutdownType.toNat < POWER_ACTION.PowerActionShutdown.toNat
        from by decide)).2 rfl).imp
      (fun _ h => ⟨h.1, h.2.2.2.2.1⟩)⟩

/-- C19 fails as stated: the sample node is in D3 and a request for D3, which is not a
single step, completes with success without touching the node. -/
theorem request_for_current_state_completes :
    sampleNode.Dx.DevicePowerState = DEVICE_POWER_STATE.PowerDeviceD3 ∧
    ({ sampleIrp with DeviceState := DEVICE_POWER_STATE.PowerDeviceD3 } : IRP).ShutdownType.toNat <
      POWER_ACTION.PowerActionShutdown.toNat ∧
    PdoSetDevicePower { sampleIrp with DeviceState := DEVICE_POWER_STATE.PowerDeviceD3 }
        suspendSucceeds sampleNode =
      Run.done STATUS_SUCCESS
        { sampleNode with Log := [EVENT.IoCompleteRequest STATUS_SUCCESS] } ∧
    ¬ ((sampleNode.Dx.DevicePowerState = DEVICE_POWER_STATE.PowerDeviceD3 ∧
          ({ sampleIrp with DeviceState := DEVICE_POWER_STATE.PowerDeviceD3 } : IRP).DeviceState =
            DEVICE_POWER_STATE.PowerDeviceD0) ∨
        (sampleNode.Dx.DevicePowerState = DEVICE_POWER_STATE.PowerDeviceD0 ∧
          ({ sampleIrp with DeviceState := DEVICE_POWER_STATE.PowerDeviceD3 } : IRP).DeviceState =
            DEVICE_POWER_STATE.PowerDeviceD3)) := by
  decide

/-- C19, as amended: with a power action below the shutdown class, on a node in D0 or D3,
`PdoSetDevicePower` completes without a fatal assertion exactly when the requested state
is D0 or D3. A request for the current state changes nothing but the log of calls; after
the step D0 to D3 the device power state is D3; after the step D3 to D0 it is D0 when the
suspend facility accepted both calls; any other requested state stops at an assertion with
the node as it was. -/
theorem device_power_completes_for_D0_and_D3_only (Irp : IRP) (o : SUSPEND_OUTCOME) (s : State)
    (hact : Irp.ShutdownType.toNat < POWER_ACTION.PowerActionShutdown.toNat)
    (hcur : s.Dx.DevicePowerState = DEVICE_POWER_STATE.PowerDeviceD0 ∨
      s.Dx.DevicePowerState = DEVICE_POWER_STATE.PowerDeviceD3) :
    (Irp.DeviceState = s.Dx.DevicePowerState →
      PdoSetDevicePower Irp o s = Run.done STATUS_SUCCESS
        { s with Log := s.Log ++ [EVENT.IoCompleteRequest STATUS_SUCCESS] }) ∧
    (s.Dx.DevicePowerState = DEVICE_POWER_STATE.PowerDeviceD0 →
      Irp.DeviceState = DEVICE_POWER_STATE.PowerDeviceD3 →
      ∃ t, PdoSetDevicePower Irp o s = Run.done STATUS_SUCCESS t ∧
        t.Dx.DevicePowerState = DEVICE_POWER_STATE.PowerDeviceD3) ∧
    (s.Dx.DevicePowerState = DEVICE_POWER_STATE.PowerDeviceD3 →
      Irp.DeviceState = DEVICE_POWER_STATE.PowerDeviceD0 →
      ∃ t, PdoSetDevicePower Irp o s = Run.done STATUS_SUCCESS t ∧
        (NT_SUCCESS o.Acquire = true → NT_SUCCESS o.Register = true →
          t.Dx.DevicePowerState = DEVICE_POWER_STATE.PowerDeviceD0)) ∧
    (Irp.DeviceState ≠ DEVICE_POWER_STATE.PowerDeviceD0 →
      Irp.DeviceState ≠ DEVICE_POWER_STATE.PowerDeviceD3 →
      ∃ site, PdoSetDevicePower Irp o s = Run.bugcheck site s ∧
        (site = ASSERTION.DeviceStateIsD0 ∨ site = ASSERTION.DeviceStateIsD3)) := by
  obtain ⟨⟨pnp, prev, sys, dev, name⟩, pdo, fdo, al, log⟩ := s
  obtain ⟨ty, ss, ds, act, st⟩ := Irp
  simp only at hact hcur
  refine ⟨?_, ?_, ?_, ?_⟩
  · intro h
    simp only at h
    subst h
    simp [PdoSetDevicePower, Bind.bind, M.bind, Pure.pure, M.pure, getState, emit, ASSERT,
      __PdoGetDevicePowerState, hact]
  · intro h1 h2
    simp only at h1 h2
    subst h1 h2
    simp [PdoSetDevicePower, PdoD0ToD3, __PdoD0ToD3, __PdoSetDevicePowerState,
      DEVICE_POWER_STATE.toNat, Bind.bind, M.bind, Pure.pure, M.pure, getState, emit, ASSERT,
      __PdoGetDevicePowerState, hact]
  · intro h1 h2
    simp only at h1 h2
    subst h1 h2
    by_cases ha : NT_SUCCESS o.Acquire = true <;> by_cases hg : NT_SUCCESS o.Register = true <;>
      simp [PdoSetDevicePower, PdoD3ToD0, __PdoD3ToD0, __PdoD0ToD3, SuspendRegister,
        __PdoSetDevicePowerState, DEVICE_POWER_STATE.toNat, Bind.bind, M.bind, Pure.pure,
        M.pure, getState, emit, ASSERT, __PdoGetDevicePowerState, hact, ha, hg]
  · intro h1 h2
    simp only at h1 h2
    rcases hcur with hc | hc <;> subst hc <;> cases ds <;>
      simp [PdoSetDevicePower, DEVICE_POWER_STATE.toNat, Bind.bind, M.bind, Pure.pure,
        M.pure, getState, emit, ASSERT, __PdoGetDevicePowerState, hact] at h1 h2 ⊢

/-- Witness for C19 as amended: the started node, in D0, is asked for D3. -/
theorem device_power_completes_for_D0_and_D3_only_witness :
    ({ sampleIrp with DeviceState := DEVICE_POWER_STATE.PowerDeviceD3 } : IRP).ShutdownType.toNat <
      POWER_ACTION.PowerActionShutdown.toNat ∧
    startedNode.Dx.DevicePowerState = DEVICE_POWER_STATE.PowerDeviceD0 ∧
    ∃ t, PdoSetDevicePower { sampleIrp with DeviceState := DEVICE_POWER_STATE.PowerDeviceD3 }
        suspendSucceeds startedNode = Run.done STATUS_SUCCESS t ∧
      t.Dx.DevicePowerState = DEVICE_POWER_STATE.PowerDeviceD3 :=
  ⟨by decide, by decide,
    (device_power_completes_for_D0_and_D3_only
      { sampleIrp with DeviceState := DEVICE_POWER_STATE.PowerDeviceD3 } suspendSucceeds
      startedNode (by decide) (Or.inl (by decide))).2.1 (by decide) rfl⟩

/-! ## The late-resume callback handle: checked properties -/

theorem samePower_refl (a : State) : SamePower a a := ⟨rfl, rfl⟩

theorem samePower_trans (a b c : State) (h1 : SamePower a b) (h2 : SamePower b c) :
    SamePower a c :=
  ⟨h2.1.trans h1.1, h2.2.trans h1.2⟩

theorem samePower_freeDescriptions (n : Nat) :
    ∀ Index, Keeps SamePower (PdoDestroy.freeDescriptions n Index) := by
  induction n with
  | zero => intro Index; exact keeps_pure _ samePower_refl _
  | succ n ih =>
    intro Index
    unfold PdoDestroy.freeDescriptions
    simp only [Bind.bind]
    refine keeps_bind _ samePower_trans _ _ (keeps_getState _ samePower_refl) ?_
    intro s
    refine keeps_bind _ samePower_trans _ _ (fun _ => ⟨rfl, rfl⟩) ?_
    intro _
    exact ih _

theorem samePower_PdoDestroy : Keeps SamePower PdoDestroy := by
  unfold PdoDestroy
  simp only [Bind.bind, Pure.pure]
  repeat' (first
    | with_reducible exact keeps_pure _ samePower_refl _
    | with_reducible exact keeps_getState _ samePower_refl
    | with_reducible exact keeps_ASSERT _ samePower_refl _ _
    | with_reducible exact samePower_freeDescriptions _ _
    | with_reducible refine keeps_ite _ _ _ _ ?_ ?_
    | with_reducible refine keeps_bind _ samePower_trans _ _ ?_ ?_
    | exact fun _ => ⟨rfl, rfl⟩
    | intro _)

theorem samePower___PdoSetDevicePnpState (State : DEVICE_PNP_STATE) :
    Keeps SamePower (__PdoSetDevicePnpState State) := by
  intro s
  unfold __PdoSetDevicePnpState
  split <;> exact ⟨rfl, rfl⟩

theorem samePower_PdoParseResources (raw translated : CM_RESOURCE_LIST) :
    Keeps SamePower (PdoParseResources raw translated) := by
  unfold PdoParseResources
  simp only [Bind.bind, Pure.pure]
  repeat' (first
    | with_reducible exact keeps_ASSERT _ samePower_refl _ _
    | with_reducible refine keeps_bind _ samePower_trans _ _ ?_ ?_
    | intro _)

/-- The invariant survives code that keeps the power state and the handle. -/
theorem callbackOnlyInD0_of_samePower (s t : State) (h : SamePower s t)
    (hs : CallbackOnlyInD0 s) : CallbackOnlyInD0 t := by
  unfold CallbackOnlyInD0 at *
  rw [h.1, h.2]
  exact hs

theorem keepsCallback_refl (a : State) : KeepsCallbackOnlyInD0 a a := fun h => h

theorem keepsCallback_trans (a b c : State) (h1 : KeepsCallbackOnlyInD0 a b)
    (h2 : KeepsCallbackOnlyInD0 b c) : KeepsCallbackOnlyInD0 a c :=
  fun h => h2 (h1 h)

theorem keepsCallback_of_samePower {α : Type} (m : M α) (h : Keeps SamePower m) :
    Keeps KeepsCallbackOnlyInD0 m :=
  fun s hs => callbackOnlyInD0_of_samePower s _ (h s) hs

theorem keepsCallback_PdoD3ToD0 (o : SUSPEND_OUTCOME) :
    Keeps KeepsCallbackOnlyInD0 (PdoD3ToD0 o) := by
  intro s hs
  unfold CallbackOnlyInD0 at *
  by_cases ha : NT_SUCCESS o.Acquire = true <;> by_cases hg : NT_SUCCESS o.Register = true <;>
    by_cases hp : s.Dx.DevicePowerState = DEVICE_POWER_STATE.PowerDeviceD3 <;>
    simp [PdoD3ToD0, __PdoD3ToD0, __PdoD0ToD3, SuspendRegister, Bind.bind, M.bind, Pure.pure,
      M.pure, __PdoSetDevicePowerState, __PdoGetDevicePowerState, getState, emit, ASSERT,
      Run.state, ha, hg, hp] at hs ⊢ <;> exact hs

theorem keepsCallback_PdoD0ToD3 : Keeps KeepsCallbackOnlyInD0 PdoD0ToD3 := by
  intro s _
  unfold CallbackOnlyInD0
  by_cases hp : s.Dx.DevicePowerState = DEVICE_POWER_STATE.PowerDeviceD0 <;>
    simp [PdoD0ToD3, __PdoD0ToD3, Bind.bind, M.bind, Pure.pure,
      M.pure, __PdoSetDevicePowerState, __PdoGetDevicePowerState, getState, emit, ASSERT,
      Run.state, hp]

theorem PdoSuspendCallbackLate_run (s : State) :
    PdoSuspendCallbackLate s =
      if s.Dx.DevicePowerState = DEVICE_POWER_STATE.PowerDeviceD0 then
        Run.done () { s with
          Log := s.Log ++ [EVENT.PoSetPowerState DEVICE_POWER_STATE.PowerDeviceD3,
            EVENT.SetDevicePowerState DEVICE_POWER_STATE.PowerDeviceD3,
            EVENT.SetDevicePowerState DEVICE_POWER_STATE.PowerDeviceD0,
            EVENT.PoSetPowerState DEVICE_POWER_STATE.PowerDeviceD0] }
      else Run.bugcheck ASSERTION.DevicePowerIsD0 s := by
  obtain ⟨⟨pnp, prev, sys, dev, name⟩, pdo, fdo, al, log⟩ := s
  by_cases hp : dev = DEVICE_POWER_STATE.PowerDeviceD0
  · subst hp
    simp [PdoSuspendCallbackLate, __PdoD3ToD0, __PdoD0ToD3, Bind.bind, M.bind,
      __PdoSetDevicePowerState, __PdoGetDevicePowerState, getState, emit, ASSERT]
  · simp [PdoSuspendCallbackLate, __PdoD3ToD0, __PdoD0ToD3, Bind.bind, M.bind,
      __PdoSetDevicePowerState, __PdoGetDevicePowerState, getState, emit, ASSERT, hp]

theorem keepsCallback_PdoSuspendCallbackLate :
    Keeps KeepsCallbackOnlyInD0 PdoSuspendCallbackLate := by
  intro s hs
  rw [PdoSuspendCallbackLate_run]
  split
  · rename_i hp
    intro _
    exact hp
  · exact hs

theorem keepsCallback_PdoSetDevicePower (Irp : IRP) (o : SUSPEND_OUTCOME) :
    Keeps KeepsCallbackOnlyInD0 (PdoSetDevicePower Irp o) := by
  unfold PdoSetDevicePower
  simp only [Bind.bind, Pure.pure]
  repeat' (first
    | with_reducible exact keeps_pure _ keepsCallback_refl _
    | with_reducible exact keeps_getState _ keepsCallback_refl
    | with_reducible exact keeps_ASSERT _ keepsCallback_refl _ _
    | with_reducible exact keepsCallback_PdoD3ToD0 _
    | with_reducible exact keepsCallback_PdoD0ToD3
    | with_reducible refine keeps_ite _ _ _ _ ?_ ?_
    | with_reducible refine keeps_bind _ keepsCallback_trans _ _ ?_ ?_
    | exact keepsCallback_of_samePower _ (fun _ => ⟨rfl, rfl⟩)
    | intro _)

theorem keepsCallback_PdoStartDevice (raw translated : CM_RESOURCE_LIST) (o : SUSPEND_OUTCOME) :
    Keeps KeepsCallbackOnlyInD0 (PdoStartDevice raw translated o) := by
  unfold PdoStartDevice
  simp only [Bind.bind, Pure.pure]
  repeat' (first
    | with_reducible exact keeps_pure _ keepsCallback_refl _
    | with_reducible exact keepsCallback_PdoD3ToD0 _
    | with_reducible exact keepsCallback_of_samePower _ (samePower_PdoParseResources _ _)
    | with_reducible exact keepsCallback_of_samePower _ (samePower___PdoSetDevicePnpState _)
    | with_reducible refine keeps_bind _ keepsCallback_trans _ _ ?_ ?_
    | exact keepsCallback_of_samePower _ (fun _ => ⟨rfl, rfl⟩)
    | intro _)

theorem keepsCallback_PdoStopDevice : Keeps KeepsCallbackOnlyInD0 PdoStopDevice := by
  unfold PdoStopDevice
  simp only [Bind.bind, Pure.pure]
  repeat' (first
    | with_reducible exact keeps_pure _ keepsCallback_refl _
    | with_reducible exact keepsCallback_PdoD0ToD3
    | with_reducible exact keepsCallback_of_samePower _ (samePower___PdoSetDevicePnpState _)
    | with_reducible refine keeps_bind _ keepsCallback_trans _ _ ?_ ?_
    | exact keepsCallback_of_samePower _ (fun _ => ⟨rfl, rfl⟩)
    | intro _)

theorem keepsCallback_PdoRemoveDevice : Keeps KeepsCallbackOnlyInD0 PdoRemoveDevice := by
  unfold PdoRemoveDevice
  simp only [Bind.bind, Pure.pure]
  repeat' (first
    | with_reducible exact keeps_pure _ keepsCallback_refl _
    | with_reducible exact keeps_getState _ keepsCallback_refl
    | with_reducible exact keepsCallback_PdoD0ToD3
    | with_reducible exact keepsCallback_of_samePower _ samePower_PdoDestroy
    | with_reducible exact keepsCallback_of_samePower _ (samePower___PdoSetDevicePnpState _)
    | with_reducible refine keeps_ite _ _ _ _ ?_ ?_
    | with_reducible refine keeps_bind _ keepsCallback_trans _ _ ?_ ?_
    | exact keepsCallback_of_samePower _ (fun _ => ⟨rfl, rfl⟩)
    | intro _)

theorem keepsCallback_run (op : OPERATION) : Keeps KeepsCallbackOnlyInD0 op.run := by
  cases op <;> unfold OPERATION.run <;> simp only [Bind.bind, Pure.pure]
  · exact keeps_bind _ keepsCallback_trans _ _ (keepsCallback_PdoStartDevice _ _ _)
      (fun _ => keeps_pure _ keepsCallback_refl _)
  · exact keeps_bind _ keepsCallback_trans _ _ keepsCallback_PdoStopDevice
      (fun _ => keeps_pure _ keepsCallback_refl _)
  · exact keeps_bind _ keepsCallback_trans _ _ keepsCallback_PdoRemoveDevice
      (fun _ => keeps_pure _ keepsCallback_refl _)
  · exact keeps_bind _ keepsCallback_trans _ _ (keepsCallback_PdoSetDevicePower _ _)
      (fun _ => keeps_pure _ keepsCallback_refl _)
  · exact keepsCallback_PdoSuspendCallbackLate

theorem keepsCallback_runOperations (ops : List OPERATION) :
    Keeps KeepsCallbackOnlyInD0 (runOperations ops) := by
  induction ops with
  | nil => exact keeps_pure _ keepsCallback_refl _
  | cons op ops ih =>
    unfold runOperations
    simp only [Bind.bind]
    exact keeps_bind _ keepsCallback_trans _ _ (keepsCallback_run op) (fun _ => ih)

/-- C20: in every state reached from a node as `PdoCreate` leaves it by a sequence of
Start, Stop, Remove, set-device-power and late-resume callback operations, whatever the
suspend facility answers to each `Acquire` and `Register` (and also in the state where an
assertion stopped the sequence), the late-resume callback handle is present only if the
device power state is D0. Whenever the late-resume callback returns, the device power
state is D0 and the handle is as before; and it does return when the handle is present. -/
theorem callback_handle_present_only_in_D0 (ops : List OPERATION) (s : State)
    (h : Created s) :
    CallbackOnlyInD0 (runOperations ops s).state ∧
    (∀ u, PdoSuspendCallbackLate (runOperations ops s).state = Run.done () u →
      u.Dx.DevicePowerState = DEVICE_POWER_STATE.PowerDeviceD0 ∧
      u.Pdo.SuspendCallbackLate = (runOperations ops s).state.Pdo.SuspendCallbackLate) ∧
    ((runOperations ops s).state.Pdo.SuspendCallbackLate ≠ none →
      ∃ u, PdoSuspendCallbackLate (runOperations ops s).state = Run.done () u) := by
  have hinv : CallbackOnlyInD0 (runOperations ops s).state := by
    refine keepsCallback_runOperations ops s ?_
    intro hne
    exact absurd h.2.2.2.2.2.2.2 hne
  refine ⟨hinv, ?_, ?_⟩
  · intro u hu
    rw [PdoSuspendCallbackLate_run] at hu
    split at hu
    · rename_i hp
      simp only [Run.done.injEq, true_and] at hu
      subst hu
      exact ⟨hp, rfl⟩
    · simp at hu
  · intro hne
    rw [PdoSuspendCallbackLate_run, if_pos (hinv hne)]
    exact ⟨_, rfl⟩

/-- Witness for C20: the sample node is started, resumed late and stopped; after the
first two operations the handle is present. -/
theorem callback_handle_present_only_in_D0_witness :
    Created sampleNode ∧
    (runOperations [OPERATION.Start sampleResources sampleResources suspendSucceeds,
      OPERATION.SuspendCallbackLate] sampleNode).state.Pdo.SuspendCallbackLate = some 7 ∧
    CallbackOnlyInD0 (runOperations
      [OPERATION.Start sampleResources sampleResources suspendSucceeds,
       OPERATION.SuspendCallbackLate] sampleNode).state :=
  ⟨by decide, by decide!,
    (callback_handle_present_only_in_D0
      [OPERATION.Start sampleResources sampleResources suspendSucceeds,
       OPERATION.SuspendCallbackLate] sampleNode (by decide)).1⟩

/-! ## Cancel requests: checked properties -/

/-- C21: on every node whose PnP state is not StopPending, CancelStop changes nothing but
the log, to which it adds the completion of the request with success; on every node
whose PnP state is not RemovePending, CancelRemove does the same; hence neither changes
the PnP state or the saved previous state there. On every node whatever, both return
success, having completed the request with success as their last call. -/
theorem cancel_without_pending_state_changes_nothing (s : State) :
    (s.Dx.DevicePnpState ≠ DEVICE_PNP_STATE.StopPending →
      PdoCancelStopDevice s = Run.done STATUS_SUCCESS
        { s with Log := s.Log ++ [EVENT.IoCompleteRequest STATUS_SUCCESS] }) ∧
    (s.Dx.DevicePnpState ≠ DEVICE_PNP_STATE.RemovePending →
      PdoCancelRemoveDevice s = Run.done STATUS_SUCCESS
        { s with Log := s.Log ++ [EVENT.IoCompleteRequest STATUS_SUCCESS] }) ∧
    (s.Dx.DevicePnpState ≠ DEVICE_PNP_STATE.StopPending →
      (PdoCancelStopDevice s).state.Dx.DevicePnpState = s.Dx.DevicePnpState ∧
      (PdoCancelStopDevice s).state.Dx.PreviousDevicePnpState =
        s.Dx.PreviousDevicePnpState) ∧
    (s.Dx.DevicePnpState ≠ DEVICE_PNP_STATE.RemovePending →
      (PdoCancelRemoveDevice s).state.Dx.DevicePnpState = s.Dx.DevicePnpState ∧
      (PdoCancelRemoveDevice s).state.Dx.PreviousDevicePnpState =
        s.Dx.PreviousDevicePnpState) ∧
    (∃ t, PdoCancelStopDevice s = Run.done STATUS_SUCCESS t ∧
      t.Log = s.Log ++ [EVENT.IoCompleteRequest STATUS_SUCCESS]) ∧
    (∃ t, PdoCancelRemoveDevice s = Run.done STATUS_SUCCESS t ∧
      t.Log = s.Log ++ [EVENT.IoCompleteRequest STATUS_SUCCESS]) := by
  have h1 : s.Dx.DevicePnpState ≠ DEVICE_PNP_STATE.StopPending →
      PdoCancelStopDevice s = Run.done STATUS_SUCCESS
        { s with Log := s.Log ++ [EVENT.IoCompleteRequest STATUS_SUCCESS] } := by
    intro h
    simp [PdoCancelStopDevice, __PdoRestoreDevicePnpState, Bind.bind, M.bind, emit,
      Pure.pure, M.pure, h]
  have h2 : s.Dx.DevicePnpState ≠ DEVICE_PNP_STATE.RemovePending →
      PdoCancelRemoveDevice s = Run.done STATUS_SUCCESS
        { s with Log := s.Log ++ [EVENT.IoCompleteRequest STATUS_SUCCESS] } := by
    intro h
    simp [PdoCancelRemoveDevice, __PdoRestoreDevicePnpState, Bind.bind, M.bind, emit,
      Pure.pure, M.pure, h]
  refine ⟨h1, h2, fun h => ?_, fun h => ?_, ?_, ?_⟩
  · rw [h1 h]; exact ⟨rfl, rfl⟩
  · rw [h2 h]; exact ⟨rfl, rfl⟩
  · by_cases h : s.Dx.DevicePnpState = DEVICE_PNP_STATE.StopPending
    · exact ⟨_, by
        simp only [PdoCancelStopDevice, __PdoRestoreDevicePnpState, Bind.bind, M.bind, emit,
          Pure.pure, M.pure, h, if_true]
        exact ⟨rfl, rfl⟩⟩
    · exact ⟨_, h1 h, rfl⟩
  · by_cases h : s.Dx.DevicePnpState = DEVICE_PNP_STATE.RemovePending
    · exact ⟨_, by
        simp only [PdoCancelRemoveDevice, __PdoRestoreDevicePnpState, Bind.bind, M.bind, emit,
          Pure.pure, M.pure, h, if_true]
        exact ⟨rfl, rfl⟩⟩
    · exact ⟨_, h2 h, rfl⟩

/-- C21 on the sample node after a successful Start, whose PnP state is Started. -/
theorem cancel_without_pending_state_changes_nothing_witness :
    startedNode.Dx.DevicePnpState = DEVICE_PNP_STATE.Started ∧
    PdoCancelStopDevice startedNode = Run.done STATUS_SUCCESS
      { startedNode with
        Log := startedNode.Log ++ [EVENT.IoCompleteRequest STATUS_SUCCESS] } ∧
    PdoCancelRemoveDevice startedNode = Run.done STATUS_SUCCESS
      { startedNode with
        Log := startedNode.Log ++ [EVENT.IoCompleteRequest STATUS_SUCCESS] } :=
  ⟨by decide!,
   (cancel_without_pending_state_changes_nothing startedNode).1 (by decide!),
   (cancel_without_pending_state_changes_nothing startedNode).2.1 (by decide!)⟩

/-! ## Requests after Stop: checked properties -/

theorem samePnp_refl (a : State) : SamePnp a a := ⟨rfl, rfl⟩

theorem samePnp_trans (a b c : State) (h1 : SamePnp a b) (h2 : SamePnp b c) : SamePnp a c :=
  ⟨h2.1.trans h1.1, h2.2.trans h1.2⟩

theorem samePnp___PdoD0ToD3 : Keeps SamePnp __PdoD0ToD3 := by
  unfold __PdoD0ToD3
  simp only [Bind.bind, Pure.pure]
  repeat' (first
    | with_reducible exact keeps_getState _ samePnp_refl
    | with_reducible exact keeps_ASSERT _ samePnp_refl _ _
    | with_reducible refine keeps_bind _ samePnp_trans _ _ ?_ ?_
    | exact fun _ => ⟨rfl, rfl⟩
    | intro _)

theorem samePnp_PdoD0ToD3 : Keeps SamePnp PdoD0ToD3 := by
  unfold PdoD0ToD3
  simp only [Bind.bind, Pure.pure]
  repeat' (first
    | with_reducible exact keeps_getState _ samePnp_refl
    | with_reducible exact samePnp___PdoD0ToD3
    | with_reducible refine keeps_bind _ samePnp_trans _ _ ?_ ?_
    | exact fun _ => ⟨rfl, rfl⟩
    | intro _)

theorem keepsNotStarted_refl (a : State) : KeepsNotStarted a a := fun h => h

theorem keepsNotStarted_trans (a b c : State) (h1 : KeepsNotStarted a b)
    (h2 : KeepsNotStarted b c) : KeepsNotStarted a c := fun h => h2 (h1 h)

theorem keepsNotStarted_of_samePnp {α : Type} (m : M α) (h : Keeps SamePnp m) :
    Keeps KeepsNotStarted m := by
  intro s hs
  obtain ⟨h1, h2⟩ := h s
  unfold NotStarted at hs ⊢
  rw [h1, h2]
  exact hs

theorem keepsNotStarted___PdoSetDevicePnpState (State' : DEVICE_PNP_STATE)
    (h : State' ≠ DEVICE_PNP_STATE.Started) :
    Keeps KeepsNotStarted (__PdoSetDevicePnpState State') := by
  intro s hs
  unfold __PdoSetDevicePnpState
  split
  · exact ⟨h, hs.1⟩
  · exact hs

theorem keepsNotStarted___PdoRestoreDevicePnpState (State' : DEVICE_PNP_STATE) :
    Keeps KeepsNotStarted (__PdoRestoreDevicePnpState State') := by
  intro s hs
  unfold __PdoRestoreDevicePnpState
  split
  · exact ⟨hs.2, hs.2⟩
  · exact hs

theorem keepsNotStarted_PdoQueryStopDevice : Keeps KeepsNotStarted PdoQueryStopDevice := by
  unfold PdoQueryStopDevice
  simp only [Bind.bind, Pure.pure]
  repeat' (first
    | with_reducible exact keeps_pure _ keepsNotStarted_refl _
    | with_reducible exact keepsNotStarted___PdoSetDevicePnpState _ (by decide)
    | with_reducible refine keeps_bind _ keepsNotStarted_trans _ _ ?_ ?_
    | exact keepsNotStarted_of_samePnp _ (fun _ => ⟨rfl, rfl⟩)
    | intro _)

theorem keepsNotStarted_PdoCancelStopDevice : Keeps KeepsNotStarted PdoCancelStopDevice := by
  unfold PdoCancelStopDevice
  simp only [Bind.bind, Pure.pure]
  repeat' (first
    | with_reducible exact keeps_pure _ keepsNotStarted_refl _
    | with_reducible exact keepsNotStarted___PdoRestoreDevicePnpState _
    | with_reducible refine keeps_bind _ keepsNotStarted_trans _ _ ?_ ?_
    | exact keepsNotStarted_of_samePnp _ (fun _ => ⟨rfl, rfl⟩)
    | intro _)

theorem keepsNotStarted_PdoStopDevice : Keeps KeepsNotStarted PdoStopDevice := by
  unfold PdoStopDevice
  simp only [Bind.bind, Pure.pure]
  repeat' (first
    | with_reducible exact keeps_pure _ keepsNotStarted_refl _
    | with_reducible exact keepsNotStarted_of_samePnp _ samePnp_PdoD0ToD3
    | with_reducible exact keepsNotStarted___PdoSetDevicePnpState _ (by decide)
    | with_reducible refine keeps_bind _ keepsNotStarted_trans _ _ ?_ ?_
    | exact keepsNotStarted_of_samePnp _ (fun _ => ⟨rfl, rfl⟩)
    | intro _)

theorem keepsNotStarted_PdoQueryRemoveDevice :
    Keeps KeepsNotStarted PdoQueryRemoveDevice := by
  unfold PdoQueryRemoveDevice
  simp only [Bind.bind, Pure.pure]
  repeat' (first
    | with_reducible exact keeps_pure _ keepsNotStarted_refl _
    | with_reducible exact keepsNotStarted___PdoSetDevicePnpState _ (by decide)
    | with_reducible refine keeps_bind _ keepsNotStarted_trans _ _ ?_ ?_
    | exact keepsNotStarted_of_samePnp _ (fun _ => ⟨rfl, rfl⟩)
    | intro _)

theorem keepsNotStarted_PdoCancelRemoveDevice :
    Keeps KeepsNotStarted PdoCancelRemoveDevice := by
  unfold PdoCancelRemoveDevice
  simp only [Bind.bind, Pure.pure]
  repeat' (first
    | with_reducible exact keeps_pure _ keepsNotStarted_refl _
    | with_reducible exact keepsNotStarted___PdoRestoreDevicePnpState _
    | with_reducible refine keeps_bind _ keepsNotStarted_trans _ _ ?_ ?_
    | exact keepsNotStarted_of_samePnp _ (fun _ => ⟨rfl, rfl⟩)
    | intro _)

theorem keepsNotStarted_PdoSurpriseRemoval : Keeps KeepsNotStarted PdoSurpriseRemoval := by
  unfold PdoSurpriseRemoval
  simp only [Bind.bind, Pure.pure]
  repeat' (first
    | with_reducible exact keeps_pure _ keepsNotStarted_refl _
    | with_reducible exact keeps_getState _ keepsNotStarted_refl
    | with_reducible exact keepsNotStarted___PdoSetDevicePnpState _ (by decide)
    | with_reducible refine keeps_bind _ keepsNotStarted_trans _ _ ?_ ?_
    | exact keepsNotStarted_of_samePnp _ (fun _ => ⟨rfl, rfl⟩)
    | intro _)

/-- The six requests of `stopAndRemoveMinorFunctions` reach their handlers. -/
theorem PdoDispatchPnp_stopAndRemove (g : INTERFACE_GUIDS) (p : PARENT) (o : SUSPEND_OUTCOME)
    (Allocated : Bool) (Irp : PNP_IRP)
    (h : Irp.MinorFunction ∈ stopAndRemoveMinorFunctions) :
    PdoDispatchPnp g p o Allocated Irp =
      if Irp.MinorFunction = IRP_MN_QUERY_STOP_DEVICE then PdoQueryStopDevice
      else if Irp.MinorFunction = IRP_MN_CANCEL_STOP_DEVICE then PdoCancelStopDevice
      else if Irp.MinorFunction = IRP_MN_QUERY_REMOVE_DEVICE then PdoQueryRemoveDevice
      else if Irp.MinorFunction = IRP_MN_CANCEL_REMOVE_DEVICE then PdoCancelRemoveDevice
      else if Irp.MinorFunction = IRP_MN_STOP_DEVICE then PdoStopDevice
      else PdoSurpriseRemoval := by
  simp only [stopAndRemoveMinorFunctions, List.mem_cons, List.mem_singleton,
    List.not_mem_nil, or_false] at h
  unfold PdoDispatchPnp
  rcases h with h | h | h | h | h | h <;> rw [h] <;> rfl

theorem keepsNotStarted_PdoDispatchPnp (g : INTERFACE_GUIDS) (p : PARENT)
    (o : SUSPEND_OUTCOME) (Allocated : Bool) (Irp : PNP_IRP)
    (h : Irp.MinorFunction ∈ stopAndRemoveMinorFunctions) :
    Keeps KeepsNotStarted (PdoDispatchPnp g p o Allocated Irp) := by
  rw [PdoDispatchPnp_stopAndRemove g p o Allocated Irp h]
  repeat' (first
    | with_reducible exact keepsNotStarted_PdoQueryStopDevice
    | with_reducible exact keepsNotStarted_PdoCancelStopDevice
    | with_reducible exact keepsNotStarted_PdoQueryRemoveDevice
    | with_reducible exact keepsNotStarted_PdoCancelRemoveDevice
    | with_reducible exact keepsNotStarted_PdoStopDevice
    | with_reducible exact keepsNotStarted_PdoSurpriseRemoval
    | with_reducible refine keeps_ite _ _ _ _ ?_ ?_)

theorem keepsNotStarted_dispatchAll (g : INTERFACE_GUIDS) (p : PARENT) (o : SUSPEND_OUTCOME)
    (Allocated : Bool) (Irps : List PNP_IRP)
    (h : ∀ Irp ∈ Irps, Irp.MinorFunction ∈ stopAndRemoveMinorFunctions) :
    Keeps KeepsNotStarted (dispatchAll g p o Allocated Irps) := by
  induction Irps with
  | nil => exact keeps_pure _ keepsNotStarted_refl _
  | cons Irp Irps ih =>
    unfold dispatchAll
    simp only [Bind.bind]
    refine keeps_bind _ keepsNotStarted_trans _ _ ?_ ?_
    · exact keepsNotStarted_PdoDispatchPnp g p o Allocated Irp (h Irp (List.mem_cons_self _ _))
    · intro _
      exact ih (fun x hx => h x (List.mem_cons_of_mem _ hx))

/-- QueryStop followed by Stop, through the dispatcher, on a Started node in D0. -/
theorem queryStop_stop_run (g : INTERFACE_GUIDS) (p : PARENT) (o : SUSPEND_OUTCOME)
    (Allocated : Bool) (s : State) (QueryStop Stop : PNP_IRP)
    (hq : QueryStop.MinorFunction = IRP_MN_QUERY_STOP_DEVICE)
    (hs : Stop.MinorFunction = IRP_MN_STOP_DEVICE)
    (h : s.Dx.DevicePnpState = DEVICE_PNP_STATE.Started)
    (hp : s.Dx.DevicePowerState = DEVICE_POWER_STATE.PowerDeviceD0) :
    dispatchAll g p o Allocated [QueryStop, Stop] s =
      Run.done ()
        { s with
          Dx := { s.Dx with
            DevicePnpState := DEVICE_PNP_STATE.Stopped
            PreviousDevicePnpState := DEVICE_PNP_STATE.StopPending
            DevicePowerState := DEVICE_POWER_STATE.PowerDeviceD3 }
          Pdo := { s.Pdo with SuspendCallbackLate := none }
          Log := s.Log ++ [EVENT.IoCompleteRequest STATUS_SUCCESS,
            EVENT.SuspendDeregister s.Pdo.SuspendCallbackLate,
            EVENT.PoSetPowerState DEVICE_POWER_STATE.PowerDeviceD3,
            EVENT.SetDevicePowerState DEVICE_POWER_STATE.PowerDeviceD3,
            EVENT.SuspendRelease,
            EVENT.IoCompleteRequest STATUS_SUCCESS] } := by
  have e1 : PdoDispatchPnp g p o Allocated QueryStop = PdoQueryStopDevice := by
    unfold PdoDispatchPnp; rw [hq]; rfl
  have e2 : PdoDispatchPnp g p o Allocated Stop = PdoStopDevice := by
    unfold PdoDispatchPnp; rw [hs]; rfl
  simp [dispatchAll, e1, e2, PdoQueryStopDevice, PdoStopDevice, PdoD0ToD3, __PdoD0ToD3,
    Bind.bind, M.bind, Pure.pure, M.pure, getState, emit, ASSERT, __PdoSetDevicePnpState,
    __PdoGetDevicePowerState, __PdoSetDevicePowerState, h, hp]

/-- C22 as amended: from Started with the device in D0, QueryStop followed by Stop returns
and leaves the PnP state Stopped, and from there no finite sequence of QueryStop,
CancelStop, QueryRemove, CancelRemove, Stop and SurpriseRemoval requests, in any order and
whether it runs to its end or is stopped by an assertion, ends with the PnP state
Started. -/
theorem stopped_node_never_returns_to_started (g : INTERFACE_GUIDS) (p : PARENT)
    (o : SUSPEND_OUTCOME) (Allocated : Bool) (s : State) (QueryStop Stop : PNP_IRP)
    (hq : QueryStop.MinorFunction = IRP_MN_QUERY_STOP_DEVICE)
    (hs : Stop.MinorFunction = IRP_MN_STOP_DEVICE)
    (h : s.Dx.DevicePnpState = DEVICE_PNP_STATE.Started)
    (hp : s.Dx.DevicePowerState = DEVICE_POWER_STATE.PowerDeviceD0) :
    ∃ t, dispatchAll g p o Allocated [QueryStop, Stop] s = Run.done () t ∧
      t.Dx.DevicePnpState = DEVICE_PNP_STATE.Stopped ∧
      ∀ (o1 : SUSPEND_OUTCOME) (Allocated1 : Bool) (Irps : List PNP_IRP),
        (∀ Irp ∈ Irps, Irp.MinorFunction ∈ stopAndRemoveMinorFunctions) →
        (dispatchAll g p o1 Allocated1 Irps t).state.Dx.DevicePnpState ≠
          DEVICE_PNP_STATE.Started := by
  refine ⟨_, queryStop_stop_run g p o Allocated s QueryStop Stop hq hs h hp, rfl, ?_⟩
  intro o1 Allocated1 Irps hI
  exact (keepsNotStarted_dispatchAll g p o1 Allocated1 Irps hI _
    ⟨by simp, by simp⟩).1

/-- C22 as amended, on the sample node after a successful Start: QueryStop and Stop leave
it Stopped, and the requests CancelStop, QueryRemove, CancelRemove, QueryStop, CancelStop
that follow do not bring it back to Started. -/
theorem stopped_node_never_returns_to_started_witness :
    startedNode.Dx.DevicePnpState = DEVICE_PNP_STATE.Started ∧
    startedNode.Dx.DevicePowerState = DEVICE_POWER_STATE.PowerDeviceD0 ∧
    ∃ t, dispatchAll sampleGuids sampleParent suspendSucceeds true
        [samplePnpIrp IRP_MN_QUERY_STOP_DEVICE, samplePnpIrp IRP_MN_STOP_DEVICE] startedNode =
        Run.done () t ∧
      t.Dx.DevicePnpState = DEVICE_PNP_STATE.Stopped ∧
      (dispatchAll sampleGuids sampleParent suspendSucceeds true
        [samplePnpIrp IRP_MN_CANCEL_STOP_DEVICE, samplePnpIrp IRP_MN_QUERY_REMOVE_DEVICE,
         samplePnpIrp IRP_MN_CANCEL_REMOVE_DEVICE, samplePnpIrp IRP_MN_QUERY_STOP_DEVICE,
         samplePnpIrp IRP_MN_CANCEL_STOP_DEVICE] t).state.Dx.DevicePnpState ≠
        DEVICE_PNP_STATE.Started :=
  ⟨by decide!, by decide!,
   (stopped_node_never_returns_to_started sampleGuids sampleParent suspendSucceeds true
      startedNode (samplePnpIrp IRP_MN_QUERY_STOP_DEVICE) (samplePnpIrp IRP_MN_STOP_DEVICE)
      rfl rfl (by decide!) (by decide!)).imp
    (fun _ ht => ⟨ht.1, ht.2.1, ht.2.2 suspendSucceeds true _ (by decide)⟩)⟩

/-- C22 fails on the sample node after a Start during which the suspend facility refused
`Acquire`: its PnP state is Started and its device power state D3; QueryStop completes,
Stop is stopped by the assertion of `__PdoD0ToD3` that the device is in D0, and the PnP
state is StopPending, not Stopped. -/
theorem stop_of_unpowered_started_node_is_stopped_by_assertion :
    startedWithoutPower.Dx.DevicePnpState = DEVICE_PNP_STATE.Started ∧
    startedWithoutPower.Dx.DevicePowerState = DEVICE_POWER_STATE.PowerDeviceD3 ∧
    (dispatchAll sampleGuids sampleParent suspendSucceeds true
      [samplePnpIrp IRP_MN_QUERY_STOP_DEVICE, samplePnpIrp IRP_MN_STOP_DEVICE]
      startedWithoutPower).site = some ASSERTION.DevicePowerIsD0 ∧
    (dispatchAll sampleGuids sampleParent suspendSucceeds true
      [samplePnpIrp IRP_MN_QUERY_STOP_DEVICE, samplePnpIrp IRP_MN_STOP_DEVICE]
      startedWithoutPower).state.Dx.DevicePnpState = DEVICE_PNP_STATE.StopPending ∧
    ¬ (dispatchAll sampleGuids sampleParent suspendSucceeds true
      [samplePnpIrp IRP_MN_QUERY_STOP_DEVICE, samplePnpIrp IRP_MN_STOP_DEVICE]
      startedWithoutPower).state.Dx.DevicePnpState = DEVICE_PNP_STATE.Stopped :=
  ⟨by decide!, by decide!, by decide!, by decide!, by decide!⟩

/-! ## Plug-and-play dispatch: checked properties -/

/-- C23 as amended: a plug-and-play request whose minor function is none of those the
design names and neither Read Config nor Write Config is completed by `PdoDispatchPnp`
with exactly the status it carried on entry, which is also the value returned, and
nothing of the node changes (the log gains the completion and nothing else). A Read Config
or Write Config request is completed with "not supported", whatever status it carried, and
nothing of the node changes either. -/
theorem unnamed_requests_pass_through (g : INTERFACE_GUIDS) (p : PARENT)
    (o : SUSPEND_OUTCOME) (Allocated : Bool) (Irp : PNP_IRP) (s : State)
    (h : Irp.MinorFunction ∉ namedMinorFunctions) :
    (Irp.MinorFunction ≠ IRP_MN_READ_CONFIG → Irp.MinorFunction ≠ IRP_MN_WRITE_CONFIG →
      PdoDispatchPnp g p o Allocated Irp s =
        Run.done Irp.IoStatus.Status
          { s with Log := s.Log ++ [EVENT.IoCompleteRequest Irp.IoStatus.Status] }) ∧
    (Irp.MinorFunction = IRP_MN_READ_CONFIG ∨ Irp.MinorFunction = IRP_MN_WRITE_CONFIG →
      PdoDispatchPnp g p o Allocated Irp s =
        Run.done STATUS_NOT_SUPPORTED
          { s with Log := s.Log ++ [EVENT.IoCompleteRequest STATUS_NOT_SUPPORTED] }) := by
  simp only [namedMinorFunctions, List.mem_cons, List.mem_singleton, List.not_mem_nil,
    or_false, not_or] at h
  obtain ⟨h1, h2, h3, h4, h5, h6, h7, h8, h9, h10, h11, h12, h13, h14, h15, h16, h17⟩ := h
  constructor
  · intro hr hw
    simp only [PdoDispatchPnp, h1, h2, h3, h4, h5, h6, h7, h8, h9, h10, h11, h12, h13, h14,
      h15, h16, h17, hr, hw, if_false, Bind.bind, M.bind, emit, Pure.pure, M.pure]
  · rintro (hr | hw)
    · unfold PdoDispatchPnp
      rw [hr]
      rfl
    · unfold PdoDispatchPnp
      rw [hw]
      rfl

/-- C23 as amended, for a Query Resources request that enters with success on the
started sample node. -/
theorem unnamed_requests_pass_through_witness :
    IRP_MN_QUERY_RESOURCES ∉ namedMinorFunctions ∧
    PdoDispatchPnp sampleGuids sampleParent suspendSucceeds true
        { samplePnpIrp IRP_MN_QUERY_RESOURCES with
          IoStatus := { Status := STATUS_SUCCESS, Information := none } } startedNode =
      Run.done STATUS_SUCCESS
        { startedNode with
          Log := startedNode.Log ++ [EVENT.IoCompleteRequest STATUS_SUCCESS] } :=
  ⟨by decide,
   (unnamed_requests_pass_through sampleGuids sampleParent suspendSucceeds true
      { samplePnpIrp IRP_MN_QUERY_RESOURCES with
        IoStatus := { Status := STATUS_SUCCESS, Information := none } } startedNode
      (by decide)).1 (by decide) (by decide)⟩

/-- C23 fails for Read Config and Write Config, which the design does not name: a
request of either kind that enters with success is completed with "not supported". -/
theorem read_config_request_loses_its_status :
    IRP_MN_READ_CONFIG ∉ namedMinorFunctions ∧
    IRP_MN_WRITE_CONFIG ∉ namedMinorFunctions ∧
    PdoDispatchPnp sampleGuids sampleParent suspendSucceeds true
        { samplePnpIrp IRP_MN_READ_CONFIG with
          IoStatus := { Status := STATUS_SUCCESS, Information := none } } startedNode =
      Run.done STATUS_NOT_SUPPORTED
        { startedNode with
          Log := startedNode.Log ++ [EVENT.IoCompleteRequest STATUS_NOT_SUPPORTED] } ∧
    PdoDispatchPnp sampleGuids sampleParent suspendSucceeds true
        { samplePnpIrp IRP_MN_WRITE_CONFIG with
          IoStatus := { Status := STATUS_SUCCESS, Information := none } } startedNode =
      Run.done STATUS_NOT_SUPPORTED
        { startedNode with
          Log := startedNode.Log ++ [EVENT.IoCompleteRequest STATUS_NOT_SUPPORTED] } ∧
    STATUS_NOT_SUPPORTED ≠ STATUS_SUCCESS :=
  ⟨by decide, by decide, by decide!, by decide!, by decide⟩

/-! ## Interface queries: checked properties -/

/-- The loop of `PdoQueryInterface` runs the handler of the first row that matches. -/
theorem scan_eq_find (Irp : PNP_IRP) (status : NTSTATUS) (table : List INTERFACE_ENTRY)
    (s : State) :
    PdoQueryInterface.scan Irp status table s =
      match table.find? (fun Entry => IsEqualGUID Irp.InterfaceType Entry.Guid) with
      | none => Run.done status s
      | some Entry =>
        Entry.Query Irp { s with
          Log := s.Log ++ [EVENT.InfoQueryInterface s.Dx.Name Entry.Name Irp.Version] } := by
  induction table with
  | nil => rfl
  | cons Entry rest ih =>
    unfold PdoQueryInterface.scan
    by_cases hE : IsEqualGUID Irp.InterfaceType Entry.Guid = true
    · simp only [hE, if_true, List.find?_cons_of_pos, Bind.bind, M.bind, getState, emit,
        __PdoGetName]
    · simp only [hE, if_false, List.find?_cons_of_neg, not_false_eq_true, Bool.false_eq_true]
      exact ih

/-- C24: an interface query that enters with a status other than "not supported" is
completed with that status, which is also the value returned, and no row of
`PdoInterfaceTable` is used (the log gains the completion and nothing else). One that
enters with "not supported" and whose identifier equals that of no row is completed with
"not supported". One that enters with "not supported" and whose identifier equals that of
some row logs the name of the first such row, in the order of the table, with the
requested version, runs the handler of that row, and is completed with the status the
handler returns, which is also the value returned. -/
theorem interface_query_uses_first_matching_entry (g : INTERFACE_GUIDS) (p : PARENT)
    (Irp : PNP_IRP) (s : State) :
    (Irp.IoStatus.Status ≠ STATUS_NOT_SUPPORTED →
      PdoQueryInterface g p Irp s =
        Run.done Irp.IoStatus.Status
          { s with Log := s.Log ++ [EVENT.IoCompleteRequest Irp.IoStatus.Status] }) ∧
    (Irp.IoStatus.Status = STATUS_NOT_SUPPORTED →
      (PdoInterfaceTable g p).find? (fun Entry => IsEqualGUID Irp.InterfaceType Entry.Guid) =
        none →
      PdoQueryInterface g p Irp s =
        Run.done STATUS_NOT_SUPPORTED
          { s with Log := s.Log ++ [EVENT.IoCompleteRequest STATUS_NOT_SUPPORTED] }) ∧
    (∀ Entry : INTERFACE_ENTRY, Irp.IoStatus.Status = STATUS_NOT_SUPPORTED →
      (PdoInterfaceTable g p).find? (fun Entry => IsEqualGUID Irp.InterfaceType Entry.Guid) =
        some Entry →
      ∃ status t,
        Entry.Query Irp { s with
          Log := s.Log ++ [EVENT.InfoQueryInterface s.Dx.Name Entry.Name Irp.Version] } =
          Run.done status t ∧
        PdoQueryInterface g p Irp s =
          Run.done status { t with Log := t.Log ++ [EVENT.IoCompleteRequest status] }) := by
  refine ⟨fun h => ?_, fun h hf => ?_, fun Entry h hf => ?_⟩
  · simp only [PdoQueryInterface, h, ne_eq, not_false_eq_true, if_true, Bind.bind, M.bind,
      Pure.pure, M.pure, emit]
  · have e := scan_eq_find Irp STATUS_NOT_SUPPORTED (PdoInterfaceTable g p) s
    rw [hf] at e
    simp only [PdoQueryInterface, h, ne_eq, not_true_eq_false, if_false, Bind.bind, M.bind,
      Pure.pure, M.pure, emit, e]
  · have e := scan_eq_find Irp STATUS_NOT_SUPPORTED (PdoInterfaceTable g p) s
    rw [hf] at e
    simp only at e
    have hmem := List.mem_of_find?_eq_some hf
    -- every handler of the table returns
    have hret : ∀ u, ∃ status t, Entry.Query Irp u = Run.done status t := by
      intro u
      simp only [PdoInterfaceTable, List.mem_cons, List.mem_singleton, List.not_mem_nil,
        or_false] at hmem
      rcases hmem with rfl | rfl | rfl | rfl | rfl | rfl | rfl | rfl | rfl | rfl | rfl
      · simp only [PdoQueryBusInterface, Bind.bind, M.bind, Pure.pure, M.pure, emit]
        split_ifs <;> exact ⟨_, _, rfl⟩
      all_goals first
        | (simp only [PdoDelegateIrp, __PdoDelegateIrp, Bind.bind, M.bind, Pure.pure,
            M.pure, emit]
           exact ⟨_, _, rfl⟩)
        | (simp only [PdoQueryDebugInterface, PdoQuerySuspendInterface,
            PdoQuerySharedInfoInterface, PdoQueryEvtchnInterface, PdoQueryStoreInterface,
            PdoQueryRangeSetInterface, PdoQueryCacheInterface, PdoQueryGnttabInterface,
            DEFINE_PDO_QUERY_INTERFACE, Bind.bind, M.bind, Pure.pure, M.pure, emit]
           split_ifs <;> exact ⟨_, _, rfl⟩)
    obtain ⟨status, t, ht⟩ := hret { s with
      Log := s.Log ++ [EVENT.InfoQueryInterface s.Dx.Name Entry.Name Irp.Version] }
    refine ⟨status, t, ht, ?_⟩
    rw [ht] at e
    simp only [PdoQueryInterface, h, ne_eq, not_true_eq_false, if_false, Bind.bind, M.bind,
      Pure.pure, M.pure, emit, e]

/-- C24 on the sample node, for a query of the suspend interface that no driver has
handled yet: the third row of the table is the first to match and its handler runs. -/
theorem interface_query_uses_first_matching_entry_witness :
    (samplePnpIrp IRP_MN_QUERY_INTERFACE).IoStatus.Status = STATUS_NOT_SUPPORTED ∧
    (PdoInterfaceTable sampleGuids sampleParent).find?
        (fun Entry => IsEqualGUID (samplePnpIrp IRP_MN_QUERY_INTERFACE).InterfaceType
          Entry.Guid) =
      some { Guid := sampleGuids.GUID_XENBUS_SUSPEND_INTERFACE, Name := "SUSPEND_INTERFACE",
             Query := PdoQuerySuspendInterface sampleParent } ∧
    ∃ status t,
      PdoQuerySuspendInterface sampleParent (samplePnpIrp IRP_MN_QUERY_INTERFACE)
          { sampleNode with
            Log := sampleNode.Log ++ [EVENT.InfoQueryInterface sampleNode.Dx.Name
              "SUSPEND_INTERFACE" (samplePnpIrp IRP_MN_QUERY_INTERFACE).Version] } =
        Run.done status t ∧
      PdoQueryInterface sampleGuids sampleParent (samplePnpIrp IRP_MN_QUERY_INTERFACE)
          sampleNode =
        Run.done status { t with Log := t.Log ++ [EVENT.IoCompleteRequest status] } :=
  ⟨rfl, rfl,
   (interface_query_uses_first_matching_entry sampleGuids sampleParent
      (samplePnpIrp IRP_MN_QUERY_INTERFACE) sampleNode).2.2
      { Guid := sampleGuids.GUID_XENBUS_SUSPEND_INTERFACE, Name := "SUSPEND_INTERFACE",
        Query := PdoQuerySuspendInterface sampleParent } rfl rfl⟩

/-! ## The failure path of the revision builder: checked properties -/

theorem freedDescriptions_append (l1 l2 : List EVENT) :
    freedDescriptions (l1 ++ l2) = freedDescriptions l1 ++ freedDescriptions l2 := by
  induction l1 with
  | nil => rfl
  | cons e l1 ih => cases e <;> simp [freedDescriptions, ih]

theorem fail1_freeDescriptions : ∀ (n : Nat) (s : State),
    (PdoSetRevisions.freeDescriptions n s).Pdo = s.Pdo ∧
    (PdoSetRevisions.freeDescriptions n s).Log = s.Log ++
      ((List.range' 1 n).reverse.map
        (fun k => EVENT.FreeDescription k ((s.Pdo.Description.getD [])[k]?))) := by
  intro n
  induction n with
  | zero => intro s; simp [PdoSetRevisions.freeDescriptions]
  | succ n ih =>
    intro s
    obtain ⟨h1, h2⟩ := ih { s with Log := s.Log ++
      [EVENT.FreeDescription (n + 1) ((s.Pdo.Description.getD [])[n + 1]?)] }
    unfold PdoSetRevisions.freeDescriptions
    refine ⟨h1, ?_⟩
    rw [h2, List.range'_1_concat, List.reverse_append, Nat.add_comm 1 n]
    have key : ∀ (L : List EVENT) (f : Nat → EVENT) (R : List Nat) (a : Nat),
        L ++ [f a] ++ List.map f R = L ++ List.map f ([a].reverse ++ R) := by
      intro L f R a
      simp
    exact key s.Log (fun k => EVENT.FreeDescription k ((s.Pdo.Description.getD [])[k]?))
      (List.range' 1 n).reverse (n + 1)

/-- The description strings the failure path of `PdoSetRevisions` frees, for every value
of the local `Revision` and every node that has a description array: the slots with the
indices `Revision - 1` down to 1, whatever the count, and never the slot with index 0. -/
theorem fail1_frees (Revision : Nat) (s : State) (h : s.Pdo.Description.isSome = true) :
    freedDescriptions (PdoSetRevisions.fail1 Revision s).Log =
      freedDescriptions s.Log ++
        (List.range' 1 ((Revision + 2 ^ 32 - 1) % 2 ^ 32)).reverse.map
          (fun k => (k, (s.Pdo.Description.getD [])[k]?)) := by
  have e2 : ∀ l : List Nat, freedDescriptions
      (l.map (fun k => EVENT.FreeDescription k ((s.Pdo.Description.getD [])[k]?))) =
      l.map (fun k => (k, (s.Pdo.Description.getD [])[k]?)) := by
    intro l
    induction l with
    | nil => rfl
    | cons k l ih =>
      rw [List.map_cons, List.map_cons]
      unfold freedDescriptions
      rw [ih]
  have e1 : freedDescriptions [EVENT.FreeDescriptionArray, EVENT.FreeRevisionArray] = [] := rfl
  have e3 : freedDescriptions [EVENT.FreeDescriptionArray] = [] := rfl
  unfold PdoSetRevisions.fail1
  generalize (Revision + 2 ^ 32 - 1) % 2 ^ 32 = n
  obtain ⟨h1, h2⟩ := fail1_freeDescriptions n s
  dsimp only
  rw [if_pos h]
  by_cases hr : s.Pdo.Revision.isSome = true
  · rw [if_pos (by rw [h1]; exact hr)]
    show freedDescriptions ((PdoSetRevisions.freeDescriptions n s).Log ++
      [EVENT.FreeDescriptionArray] ++ [EVENT.FreeRevisionArray]) = _
    rw [h2, List.append_assoc, freedDescriptions_append, freedDescriptions_append, e2]
    show _ ++ _ ++ freedDescriptions [EVENT.FreeDescriptionArray, EVENT.FreeRevisionArray] = _
    rw [e1, List.append_nil]
  · rw [if_neg (by rw [h1]; exact hr)]
    show freedDescriptions ((PdoSetRevisions.freeDescriptions n s).Log ++
      [EVENT.FreeDescriptionArray]) = _
    rw [h2, freedDescriptions_append, freedDescriptions_append, e2, e3, List.append_nil]

/-- C25, at the failing inputs. Two Suspend versions, nothing retired, on the sample node
without a table: when the pool refuses request 3, the first of the second entry, the
table holds one entry, in slot 0 of a one-slot description array, and the local
`Revision` is 2; the failure path frees slot 1, which lies outside the array, and never
slot 0. When the pool refuses request 5, the text buffer of the second entry, the
description array has two slots, the second still `NULL`; the failure path frees that
`NULL` slot and never slot 0. The small build (Unplug version 1 retired), request 9
refused: three entries are stored, in slots 0 to 2, and the slots freed are 5, 4, 3, 2
and 1. Each time the status is `STATUS_NO_MEMORY` and the node is left with count 0 and
without arrays. -/
theorem failure_path_frees_by_revision_number :
    PdoSetRevisions.loops twoSuspendBuild (poolFailsAt 3) 10 0 tablelessNode =
      some (Flow.fail1 2 STATUS_NO_MEMORY
        { tablelessNode with
          Pdo := { tablelessNode.Pdo with
            Revision := some [1]
            Description := some [some (descriptionOf tablelessNode VERSIONS.ones)]
            Count := 1 }
          Allocations := 4 }) ∧
    PdoSetRevisions twoSuspendBuild (poolFailsAt 3) 10 tablelessNode =
      some (Run.done STATUS_NO_MEMORY
        { tablelessNode with
          Allocations := 4
          Log := [EVENT.FreeDescription 1 none, EVENT.FreeDescriptionArray,
            EVENT.FreeRevisionArray] }) ∧
    PdoSetRevisions.loops twoSuspendBuild (poolFailsAt 5) 10 0 tablelessNode =
      some (Flow.fail1 2 STATUS_NO_MEMORY
        { tablelessNode with
          Pdo := { tablelessNode.Pdo with
            Revision := some [1, 2]
            Description := some [some (descriptionOf tablelessNode VERSIONS.ones), none]
            Count := 1 }
          Allocations := 6 }) ∧
    PdoSetRevisions twoSuspendBuild (poolFailsAt 5) 10 tablelessNode =
      some (Run.done STATUS_NO_MEMORY
        { tablelessNode with
          Allocations := 6
          Log := [EVENT.FreeDescription 1 (some none), EVENT.FreeDescriptionArray,
            EVENT.FreeRevisionArray] }) ∧
    PdoSetRevisions.loops smallBuild (poolFailsAt 9) 10 0 tablelessNode =
      some (Flow.fail1 6 STATUS_NO_MEMORY
        { tablelessNode with
          Pdo := { tablelessNode.Pdo with
            Revision := some [2, 3, 5]
            Description := some
              [some (descriptionOf tablelessNode { VERSIONS.ones with Unplug := 2 }),
               some (descriptionOf tablelessNode { VERSIONS.ones with Unplug := 3 }),
               some (descriptionOf tablelessNode
                 { VERSIONS.ones with Suspend := 2, Unplug := 2 })]
            Count := 3 }
          Allocations := 10 }) ∧
    PdoSetRevisions smallBuild (poolFailsAt 9) 10 tablelessNode =
      some (Run.done STATUS_NO_MEMORY
        { tablelessNode with
          Allocations := 10
          Log := [EVENT.FreeDescription 5 none, EVENT.FreeDescription 4 none,
            EVENT.FreeDescription 3 none,
            EVENT.FreeDescription 2 (some (some (descriptionOf tablelessNode
              { VERSIONS.ones with Suspend := 2, Unplug := 2 }))),
            EVENT.FreeDescription 1 (some (some (descriptionOf tablelessNode
              { VERSIONS.ones with Unplug := 3 }))),
            EVENT.FreeDescriptionArray, EVENT.FreeRevisionArray] }) :=
  ⟨by decide!, by decide!, by decide!, by decide!, by decide!, by decide!⟩

/-! ## The order of a device power-up: checked properties -/

/-- C26 as amended: whenever `PdoD3ToD0` returns success, its effects were, in this order,
the acquisition of the suspend facility, the write of D0 to the device power state, the
call of the platform power notifier, and the registration of the late-resume callback,
and nothing else; the device power state is then D0. And it does return success on a node
in D3 when the suspend facility accepts both calls. -/
theorem power_up_acquires_before_it_sets_D0 (o : SUSPEND_OUTCOME) (s : State) :
    (∀ t, PdoD3ToD0 o s = Run.done STATUS_SUCCESS t →
      t.Log = s.Log ++ [EVENT.SuspendAcquire,
        EVENT.SetDevicePowerState DEVICE_POWER_STATE.PowerDeviceD0,
        EVENT.PoSetPowerState DEVICE_POWER_STATE.PowerDeviceD0,
        EVENT.SuspendRegister] ∧
      t.Dx.DevicePowerState = DEVICE_POWER_STATE.PowerDeviceD0) ∧
    (s.Dx.DevicePowerState = DEVICE_POWER_STATE.PowerDeviceD3 →
      NT_SUCCESS o.Acquire = true → NT_SUCCESS o.Register = true →
      ∃ t, PdoD3ToD0 o s = Run.done STATUS_SUCCESS t) := by
  have hS : NT_SUCCESS STATUS_SUCCESS = true := by decide
  by_cases ha : NT_SUCCESS o.Acquire = true
  · by_cases hp : s.Dx.DevicePowerState = DEVICE_POWER_STATE.PowerDeviceD3
    · by_cases hr : NT_SUCCESS o.Register = true
      · have hrun : PdoD3ToD0 o s = Run.done STATUS_SUCCESS
            { s with
              Dx := { s.Dx with DevicePowerState := DEVICE_POWER_STATE.PowerDeviceD0 }
              Pdo := { s.Pdo with SuspendCallbackLate := some o.Callback }
              Log := s.Log ++ [EVENT.SuspendAcquire,
                EVENT.SetDevicePowerState DEVICE_POWER_STATE.PowerDeviceD0,
                EVENT.PoSetPowerState DEVICE_POWER_STATE.PowerDeviceD0,
                EVENT.SuspendRegister] } := by
          simp [PdoD3ToD0, __PdoD3ToD0, SuspendRegister, Bind.bind, M.bind, Pure.pure,
            M.pure, getState, emit, ASSERT, __PdoGetDevicePowerState,
            __PdoSetDevicePowerState, ha, hp, hr]
        refine ⟨?_, fun _ _ _ => ⟨_, hrun⟩⟩
        intro t ht
        rw [hrun] at ht
        injection ht with _ ht
        subst ht
        exact ⟨rfl, rfl⟩
      · refine ⟨?_, fun _ _ h => absurd h hr⟩
        intro t ht
        exfalso
        have hne : o.Register ≠ STATUS_SUCCESS := fun h => hr (by rw [h]; exact hS)
        simp [PdoD3ToD0, __PdoD3ToD0, __PdoD0ToD3, SuspendRegister, Bind.bind, M.bind,
          Pure.pure, M.pure, getState, emit, ASSERT, __PdoGetDevicePowerState,
          __PdoSetDevicePowerState, ha, hp, hr, hne] at ht
    · refine ⟨?_, fun h _ _ => absurd h hp⟩
      intro t ht
      exfalso
      simp [PdoD3ToD0, __PdoD3ToD0, Bind.bind, M.bind, Pure.pure, M.pure, getState, emit,
        ASSERT, __PdoGetDevicePowerState, ha, hp] at ht
  · refine ⟨?_, fun _ h _ => absurd h ha⟩
    intro t ht
    exfalso
    have hne : o.Acquire ≠ STATUS_SUCCESS := fun h => ha (by rw [h]; exact hS)
    simp [PdoD3ToD0, Bind.bind, M.bind, Pure.pure, M.pure, emit, ha, hne] at ht

/-- C26 as amended, on the sample node with a suspend facility that accepts both calls. -/
theorem power_up_acquires_before_it_sets_D0_witness :
    sampleNode.Dx.DevicePowerState = DEVICE_POWER_STATE.PowerDeviceD3 ∧
    NT_SUCCESS suspendSucceeds.Acquire = true ∧ NT_SUCCESS suspendSucceeds.Register = true ∧
    ∃ t, PdoD3ToD0 suspendSucceeds sampleNode = Run.done STATUS_SUCCESS t :=
  ⟨by decide, by decide, by decide,
   (power_up_acquires_before_it_sets_D0 suspendSucceeds sampleNode).2
     (by decide) (by decide) (by decide)⟩

/-- C26 fails on the sample node with a suspend facility that accepts both calls:
`PdoD3ToD0` returns success and the suspend facility was acquired before the device power
state was set to D0 and before the platform power notifier was told, not after. -/
theorem suspend_facility_is_acquired_first :
    (PdoD3ToD0 suspendSucceeds sampleNode).value = some STATUS_SUCCESS ∧
    (PdoD3ToD0 suspendSucceeds sampleNode).state.Log =
      [EVENT.SuspendAcquire,
       EVENT.SetDevicePowerState DEVICE_POWER_STATE.PowerDeviceD0,
       EVENT.PoSetPowerState DEVICE_POWER_STATE.PowerDeviceD0,
       EVENT.SuspendRegister] ∧
    (PdoD3ToD0 suspendSucceeds sampleNode).state.Log ≠
      [EVENT.SetDevicePowerState DEVICE_POWER_STATE.PowerDeviceD0,
       EVENT.PoSetPowerState DEVICE_POWER_STATE.PowerDeviceD0,
       EVENT.SuspendAcquire,
       EVENT.SuspendRegister] ∧
    List.indexOf EVENT.SuspendAcquire (PdoD3ToD0 suspendSucceeds sampleNode).state.Log <
      List.indexOf (EVENT.SetDevicePowerState DEVICE_POWER_STATE.PowerDeviceD0)
        (PdoD3ToD0 suspendSucceeds sampleNode).state.Log ∧
    List.indexOf EVENT.SuspendAcquire (PdoD3ToD0 suspendSucceeds sampleNode).state.Log <
      List.indexOf (EVENT.PoSetPowerState DEVICE_POWER_STATE.PowerDeviceD0)
        (PdoD3ToD0 suspendSucceeds sampleNode).state.Log :=
  ⟨by decide!, by decide!, by decide!, by decide!, by decide!⟩

/-! ## The revision number as a formula: checked properties -/

theorem ordinal_eq_formula (b : BUILD) (v : VERSIONS) :
    b.ordinal v = revisionNumberFormula b.MAX v := by
  simp only [BUILD.ordinal, ordinal, VERSIONS.toList, List.prod_cons, List.prod_nil,
    revisionNumberFormula]
  ring

theorem ordinal_self : ∀ ms : List Nat, (∀ m ∈ ms, 1 ≤ m) → ordinal ms ms = ms.prod := by
  intro ms
  induction ms with
  | nil => intro _; rfl
  | cons m ms ih =>
    intro h
    have hm : 1 ≤ m := h m (List.mem_cons_self _ _)
    have := ih (fun x hx => h x (List.mem_cons_of_mem _ hx))
    simp only [ordinal, List.prod_cons, this]
    obtain ⟨k, rfl⟩ : ∃ k, m = k + 1 := ⟨m - 1, by omega⟩
    simp only [Nat.add_sub_cancel]
    ring

theorem ordinal_MAX (b : BUILD) (h : VERSIONS.AtLeast VERSIONS.ones b.MAX) :
    b.ordinal b.MAX = b.MAX.product := by
  unfold BUILD.ordinal
  rw [ordinal_self, toList_prod]
  intro m hm
  simp only [VERSIONS.AtLeast, VERSIONS.ones] at h
  simp only [VERSIONS.toList, List.mem_cons, List.mem_singleton, List.not_mem_nil,
    or_false] at hm
  omega

theorem getLast_of_sorted (L : List (Nat × List Nat))
    (hs : L.Pairwise (fun x y => x.1 < y.1)) (x : Nat × List Nat) (hx : x ∈ L)
    (hmax : ∀ e ∈ L, e.1 ≤ x.1) : L.getLast? = some x := by
  obtain ⟨l1, l2, rfl⟩ := List.append_of_mem hx
  have h2 : l2 = [] := by
    cases l2 with
    | nil => rfl
    | cons y l2 =>
      exfalso
      have hy := hmax y (by simp)
      have hlt : x.1 < y.1 := by
        rw [List.pairwise_append] at hs
        have := hs.2.1
        rw [List.pairwise_cons] at this
        exact this.1 y (List.mem_cons_self _ _)
      omega
  subst h2
  simp

/-- C28, at the failing input: the sample node with two table entries, vendor "XS", name
"vif", queried for its hardware identifiers. The capacity is 800 bytes. The first
identifier has 34 characters, so it and its terminator take 70 bytes and 730 bytes remain,
but the counter handed to the second formatting call is 798; after the second identifier
140 bytes are written and 660 remain, but the counter handed to the call that writes the
class identifier is 796. -/
theorem remaining_length_only_counts_terminators :
    PdoQueryId.MaximumLength BUS_QUERY_ID_TYPE.BusQueryHardwareIDs (nodeWithTable 2).Pdo.Count =
      some 800 ∧
    (DeviceIdText (nodeWithTable 2).Fdo.VendorName (nodeWithTable 2).Dx.Name 1).length = 34 ∧
    (PdoQueryId.identifiers 1 0 (List.replicate 400 NUL, 0, 800) (nodeWithTable 2)).value.map
        (fun locals => (locals.2.1, locals.2.2)) = some (35, 798) ∧
    800 - 2 * 35 = 730 ∧
    (PdoQueryId.identifiers 2 0 (List.replicate 400 NUL, 0, 800) (nodeWithTable 2)).value.map
        (fun locals => (locals.2.1, locals.2.2)) = some (70, 796) ∧
    800 - 2 * 70 = 660 :=
  ⟨by decide!, by decide!, by decide!, by decide!, by decide!, by decide!⟩

/-- The capacity `PdoQueryId` works with for a list of identifiers is
`PdoQueryId.MaximumLength`. -/
theorem PdoQueryId_capacity (IdType : BUS_QUERY_ID_TYPE)
    (hty : IdType = BUS_QUERY_ID_TYPE.BusQueryHardwareIDs ∨
      IdType = BUS_QUERY_ID_TYPE.BusQueryCompatibleIDs)
    (IoStatus : IO_STATUS_BLOCK) (s : State) :
    PdoQueryId IdType true IoStatus s =
      match PdoQueryId.hardwareIds ((PdoQueryId.MaximumLength IdType s.Pdo.Count).getD 0)
          (List.replicate ((PdoQueryId.MaximumLength IdType s.Pdo.Count).getD 0 / 2) NUL)
          s with
      | Run.done Memory t =>
        Run.done { IoStatus with Information := some Memory, Status := STATUS_SUCCESS }
          { t with Log := t.Log ++ [EVENT.IoCompleteRequest STATUS_SUCCESS] }
      | Run.bugcheck site t => Run.bugcheck site t := by
  rw [PdoQueryId_hardware IdType hty true IoStatus s]
  rcases hty with rfl | rfl <;> rfl

/-- The capacity is 400 bytes per table entry up to 163 entries. -/
theorem MaximumLength_small (IdType : BUS_QUERY_ID_TYPE)
    (hty : IdType = BUS_QUERY_ID_TYPE.BusQueryHardwareIDs ∨
      IdType = BUS_QUERY_ID_TYPE.BusQueryCompatibleIDs)
    (Count : Nat) (h : Count ≤ 163) :
    PdoQueryId.MaximumLength IdType Count = some (2 * 200 * Count) := by
  rcases hty with rfl | rfl <;>
  · simp only [PdoQueryId.MaximumLength, MAX_DEVICE_ID_LEN, Option.some.injEq]
    omega

/-- C29, at the failing input: for a table of 164 entries the capacity `PdoQueryId`
stores in the 16-bit field is 64 bytes, not 2 * 200 * 164 = 65600, for hardware and for
compatible identifiers; that is the capacity the query then works with. For 163 entries
it is 65200 = 2 * 200 * 163; for 328 entries it is 128. -/
theorem capacity_is_truncated_from_164_entries :
    PdoQueryId.MaximumLength BUS_QUERY_ID_TYPE.BusQueryHardwareIDs 164 = some 64 ∧
    PdoQueryId.MaximumLength BUS_QUERY_ID_TYPE.BusQueryCompatibleIDs 164 = some 64 ∧
    2 * 200 * 164 = 65600 ∧
    PdoQueryId.MaximumLength BUS_QUERY_ID_TYPE.BusQueryHardwareIDs 163 = some 65200 ∧
    2 * 200 * 163 = 65200 ∧
    PdoQueryId.MaximumLength BUS_QUERY_ID_TYPE.BusQueryHardwareIDs 328 = some 128 ∧
    (nodeWithTable 164).Pdo.Count = 164 ∧
    PdoQueryId BUS_QUERY_ID_TYPE.BusQueryHardwareIDs true unhandled (nodeWithTable 164) =
      match PdoQueryId.hardwareIds 64 (List.replicate 32 NUL) (nodeWithTable 164) with
      | Run.done Memory t =>
        Run.done { unhandled with Information := some Memory, Status := STATUS_SUCCESS }
          { t with Log := t.Log ++ [EVENT.IoCompleteRequest STATUS_SUCCESS] }
      | Run.bugcheck site t => Run.bugcheck site t :=
  ⟨by decide!, by decide!, by decide!, by decide!, by decide!, by decide!, by decide!,
   by decide!⟩

/-! ## Destruction through Remove and through Eject: checked properties -/

/-- C30, at the failing input: the sample node after a successful Start, with both power
mailboxes empty. Marked missing and removed, it is destroyed: every assertion of
`PdoDestroy` holds, every field of the node is clear at the final one, the node is freed
and the request completed. Ejected instead, it passes the entry assertions of
`PdoDestroy` (the state is Deleted and the node was marked missing), but the late-resume
callback handle 7 is still present, the node structure is not clear, and the final
assertion stops the run. -/
theorem destroy_through_eject_finds_callback_registered :
    startedNode.Pdo.SystemPowerIrp = none ∧ startedNode.Pdo.DevicePowerIrp = none ∧
    (PdoRemoveDevice (PdoSetMissing "device disappeared" startedNode).state).value =
      some STATUS_SUCCESS ∧
    EVENT.FreePdo ∈
      (PdoRemoveDevice (PdoSetMissing "device disappeared" startedNode).state).state.Log ∧
    IsZeroMemory
      (PdoRemoveDevice (PdoSetMissing "device disappeared" startedNode).state).state.Pdo =
      true ∧
    (PdoEject startedNode).site = some ASSERTION.DestroyZeroMemory ∧
    (PdoEject startedNode).state.Dx.DevicePnpState = DEVICE_PNP_STATE.Deleted ∧
    EVENT.InfoDestroy "vif" (some "device ejected") ∈ (PdoEject startedNode).state.Log ∧
    (PdoEject startedNode).state.Pdo.SuspendCallbackLate = some 7 ∧
    IsZeroMemory (PdoEject startedNode).state.Pdo = false ∧
    EVENT.FreePdo ∉ (PdoEject startedNode).state.Log :=
  ⟨by decide!, by decide!, by decide!, by decide!, by decide!, by decide!, by decide!,
   by decide!, by decide!, by decide!, by decide!⟩

/-! ## Start with a refused power-up, Remove with a pending power request, and
shutdown-class power requests: checked properties -/

/-- C1, at the failing input: the sample node (Present, D3, expected resource lists) with
a suspend facility that accepts `Acquire` and refuses `Register`. Start, QueryRemove and
CancelRemove, dispatched one after the other, all complete with success and the PnP state
ends Started, but the device power state ends D3, not D0: the power-up of Start was
undone when the registration failed and Start went on regardless. The same holds when
`Acquire` is refused, where the device is never powered up. -/
theorem start_query_cancel_ends_started_in_D3 :
    sampleNode.Dx.DevicePowerState = DEVICE_POWER_STATE.PowerDeviceD3 ∧
    sampleNode.Dx.DevicePnpState ≠ DEVICE_PNP_STATE.Deleted ∧
    sampleResources.Expected ∧
    NT_SUCCESS suspendRegisterFails.Acquire = true ∧
    NT_SUCCESS suspendRegisterFails.Register = false ∧
    dispatchAll sampleGuids sampleParent suspendRegisterFails true
        [samplePnpIrp IRP_MN_START_DEVICE, samplePnpIrp IRP_MN_QUERY_REMOVE_DEVICE,
         samplePnpIrp IRP_MN_CANCEL_REMOVE_DEVICE] sampleNode =
      Run.done ()
        { sampleNode with
          Dx := { sampleNode.Dx with
            DevicePnpState := DEVICE_PNP_STATE.Started
            PreviousDevicePnpState := DEVICE_PNP_STATE.Started
            DevicePowerState := DEVICE_POWER_STATE.PowerDeviceD3 }
          Log := [EVENT.SuspendAcquire,
            EVENT.SetDevicePowerState DEVICE_POWER_STATE.PowerDeviceD0,
            EVENT.PoSetPowerState DEVICE_POWER_STATE.PowerDeviceD0,
            EVENT.SuspendRegister,
            EVENT.PoSetPowerState DEVICE_POWER_STATE.PowerDeviceD3,
            EVENT.SetDevicePowerState DEVICE_POWER_STATE.PowerDeviceD3,
            EVENT.SuspendRelease,
            EVENT.IoCompleteRequest STATUS_SUCCESS,
            EVENT.IoCompleteRequest STATUS_SUCCESS,
            EVENT.IoCompleteRequest STATUS_SUCCESS] } ∧
    (dispatchAll sampleGuids sampleParent suspendRegisterFails true
        [samplePnpIrp IRP_MN_START_DEVICE, samplePnpIrp IRP_MN_QUERY_REMOVE_DEVICE,
         samplePnpIrp IRP_MN_CANCEL_REMOVE_DEVICE] sampleNode).state.Dx.DevicePowerState ≠
      DEVICE_POWER_STATE.PowerDeviceD0 ∧
    NT_SUCCESS suspendAcquireFails.Acquire = false ∧
    dispatchAll sampleGuids sampleParent suspendAcquireFails true
        [samplePnpIrp IRP_MN_START_DEVICE, samplePnpIrp IRP_MN_QUERY_REMOVE_DEVICE,
         samplePnpIrp IRP_MN_CANCEL_REMOVE_DEVICE] sampleNode =
      Run.done ()
        { sampleNode with
          Dx := { sampleNode.Dx with
            DevicePnpState := DEVICE_PNP_STATE.Started
            PreviousDevicePnpState := DEVICE_PNP_STATE.Started
            DevicePowerState := DEVICE_POWER_STATE.PowerDeviceD3 }
          Log := [EVENT.SuspendAcquire,
            EVENT.IoCompleteRequest STATUS_SUCCESS,
            EVENT.IoCompleteRequest STATUS_SUCCESS,
            EVENT.IoCompleteRequest STATUS_SUCCESS] } :=
  ⟨by decide!, by decide!, by decide!, by decide!, by decide!, by decide!, by decide!,
   by decide!, by decide!⟩

/-- C18 fails for a device-power set request whose power action is in the shutdown
class: submitted while the mailbox holds the request at address 1, it is not rejected by
the mailbox-empty assertion but completed with success, and the mailbox still holds the
first request; submitted into an empty mailbox, it is completed with success, not
returned pending, and the mailbox stays empty. -/
theorem shutdown_class_request_bypasses_mailbox :
    (shutdownAfterFirst 2).PowerType = POWER_STATE_TYPE.DevicePowerState ∧
    ¬ (shutdownAfterFirst 2).ShutdownType.toNat < POWER_ACTION.PowerActionShutdown.toNat ∧
    PdoSetPower shutdownAfterFirst 1 sampleNode =
      Run.done STATUS_PENDING
        { sampleNode with
          Pdo := { sampleNode.Pdo with DevicePowerIrp := some 1 }
          Log := [EVENT.IoMarkIrpPending 1, EVENT.ThreadWakeDevicePower] } ∧
    PdoSetPower shutdownAfterFirst 2 (PdoSetPower shutdownAfterFirst 1 sampleNode).state =
      Run.done STATUS_SUCCESS
        { sampleNode with
          Pdo := { sampleNode.Pdo with DevicePowerIrp := some 1 }
          Log := [EVENT.IoMarkIrpPending 1, EVENT.ThreadWakeDevicePower,
            EVENT.IoCompleteRequest STATUS_SUCCESS] } ∧
    (PdoSetPower shutdownAfterFirst 2
      (PdoSetPower shutdownAfterFirst 1 sampleNode).state).site ≠
        some ASSERTION.DevicePowerIrpIsNull ∧
    sampleNode.Pdo.DevicePowerIrp = none ∧
    PdoSetPower shutdownAfterFirst 2 sampleNode =
      Run.done STATUS_SUCCESS
        { sampleNode with Log := [EVENT.IoCompleteRequest STATUS_SUCCESS] } ∧
    STATUS_SUCCESS ≠ STATUS_PENDING ∧
    (PdoSetPower shutdownAfterFirst 2 sampleNode).state.Pdo.DevicePowerIrp = none :=
  ⟨by decide!, by decide!, by decide!, by decide!, by decide!, by decide!, by decide!,
   by decide!, by decide!⟩

end Xenbus
